import Mathlib

/-!
# PumpFun buy/sell: bonding-curve decoder, pricing and instruction building

A shallow embedding of `pump.go`.  Unsigned 64-bit integers are natural
numbers (reduced modulo `2^64` where the Go code can wrap), byte slices are
lists of `Fin 256`, `float64` values are binary64 values with rounding to
nearest, Go `error` values are their message strings, and a Go call that can
abort with a run-time panic has an explicit `panic` outcome.
-/

namespace Pump

/-! ## Bytes, results and little-endian integers -/

/-- One octet of a Go `[]byte`. -/
abbrev Byte := Fin 256

/-- Outcome of a Go function returning `(*T, error)`: a value, an error value
(identified with its message), or a run-time panic that aborts the caller. -/
inductive Result (α : Type) where
  | ok (v : α)
  | err (msg : String)
  | panic (msg : String)
deriving DecidableEq, Repr

/-- Value of `binary.LittleEndian.Uint64` on a byte list: the first byte is the
least significant one. -/
def littleEndianUint64 : List Byte → Nat
  | [] => 0
  | b :: bs => b.val + 256 * littleEndianUint64 bs

/-- Bytes written by `binary.LittleEndian.PutUint64(v)`, i.e. by
`binary.Write(&buf, binary.LittleEndian, uint64(v))`. -/
def putUint64 (v : Nat) : List Byte :=
  [⟨v % 256, Nat.mod_lt _ (by decide)⟩,
   ⟨v / 256 % 256, Nat.mod_lt _ (by decide)⟩,
   ⟨v / 65536 % 256, Nat.mod_lt _ (by decide)⟩,
   ⟨v / 16777216 % 256, Nat.mod_lt _ (by decide)⟩,
   ⟨v / 4294967296 % 256, Nat.mod_lt _ (by decide)⟩,
   ⟨v / 1099511627776 % 256, Nat.mod_lt _ (by decide)⟩,
   ⟨v / 281474976710656 % 256, Nat.mod_lt _ (by decide)⟩,
   ⟨v / 72057594037927936 % 256, Nat.mod_lt _ (by decide)⟩]

/-- Behaviour of `io.ReadFull(r, bs)` with `len(bs) = n` on a `bytes.Reader`
whose unread part is `r`: the `n` bytes and the rest, or `io.EOF` when nothing
is left, or `io.ErrUnexpectedEOF` when fewer than `n` bytes are left. -/
def readFull (r : List Byte) (n : Nat) : Except String (List Byte × List Byte) :=
  if n ≤ r.length then .ok (r.take n, r.drop n)
  else if r.length = 0 then .error "EOF"
  else .error "unexpected EOF"

/-- Behaviour of `binary.Read(buf, binary.LittleEndian, &x)` for `x` a `uint64`. -/
def binaryReadUint64 (r : List Byte) : Except String (Nat × List Byte) :=
  match readFull r 8 with
  | .ok (bs, rest) => .ok (littleEndianUint64 bs, rest)
  | .error e => .error e

/-- Behaviour of `binary.Read(buf, binary.LittleEndian, &x)` for `x` a `byte`. -/
def binaryReadByte (r : List Byte) : Except String (Byte × List Byte) :=
  match readFull r 1 with
  | .ok (bs, rest) => .ok (bs.headD 0, rest)
  | .error e => .error e

/-! ## The bonding-curve snapshot and its decoder -/

/-- The Go struct `BondingCurve`; the `uint64` fields are naturals below `2^64`. -/
structure BondingCurve where
  VirtualTokenReserves : Nat
  VirtualSolReserves : Nat
  RealTokenReserves : Nat
  RealSolReserves : Nat
  TokenTotalSupply : Nat
  Complete : Bool
deriving DecidableEq, Repr

/-- The Go function `decodeBondingData`.  The slice expression
`bondingCurveData[8:]` panics when the buffer has fewer than 8 bytes; after
it, six reads follow, each returning a wrapped error when it fails. -/
def decodeBondingData (bondingCurveData : List Byte) : Result BondingCurve :=
  if bondingCurveData.length < 8 then
    .panic ("runtime error: slice bounds out of range [8:"
      ++ toString bondingCurveData.length ++ "]")
  else
    let data := bondingCurveData.drop 8
    match binaryReadUint64 data with
    | .error e => .err ("error reading VirtualTokenReserves: " ++ e)
    | .ok (vtr, buf) =>
    match binaryReadUint64 buf with
    | .error e => .err ("error reading VirtualSolReserves: " ++ e)
    | .ok (vsr, buf) =>
    match binaryReadUint64 buf with
    | .error e => .err ("error reading RealTokenReserves: " ++ e)
    | .ok (rtr, buf) =>
    match binaryReadUint64 buf with
    | .error e => .err ("error reading RealSolReserves: " ++ e)
    | .ok (rsr, buf) =>
    match binaryReadUint64 buf with
    | .error e => .err ("error reading TokenTotalSupply: " ++ e)
    | .ok (tts, buf) =>
    match binaryReadByte buf with
    | .error e => .err ("error reading Complete: " ++ e)
    | .ok (complete, _) =>
      .ok { VirtualTokenReserves := vtr, VirtualSolReserves := vsr,
            RealTokenReserves := rtr, RealSolReserves := rsr,
            TokenTotalSupply := tts, Complete := decide (complete ≠ 0) }

/-- Names of the decoded fields, in the order in which they are read. -/
def fieldNames : List String :=
  ["VirtualTokenReserves", "VirtualSolReserves", "RealTokenReserves",
   "RealSolReserves", "TokenTotalSupply", "Complete"]

/-! ## Floating-point values

`float64` values are modelled as IEEE 754 binary64 values: a finite value is
the rational number it denotes, and every arithmetic operation computes the
exact result and rounds it to the nearest binary64 value, ties to even, with
gradual underflow and with overflow to an infinity.  The special values and
the rules that produce them (division by zero, `0/0`, arithmetic on infinities
and NaN) are kept.  The two zeros are not distinguished. -/

/-- Rounding of a rational to the nearest integer, a half to the even one. -/
def roundHalfEven (x : ℚ) : ℤ :=
  if x - ⌊x⌋ < 1 / 2 then ⌊x⌋
  else if 1 / 2 < x - ⌊x⌋ then ⌊x⌋ + 1
  else if ⌊x⌋ % 2 = 0 then ⌊x⌋ else ⌊x⌋ + 1

/-- The binary exponent `e` of the binade of `x`, `2^e ≤ |x| < 2^(e+1)`, not
below the exponent `-1022` of the subnormal numbers. -/
def binade (x : ℚ) : ℤ := max (Int.log 2 |x|) (-1022)

/-- The distance between consecutive binary64 values in the binade of `x`:
53 significant bits. -/
def ulp (x : ℚ) : ℚ := (2 : ℚ) ^ (binade x - 52)

/-- The binary64 value nearest to `x`, ties to even, the exponent range
unbounded above. -/
def round64 (x : ℚ) : ℚ := roundHalfEven (x / ulp x) * ulp x

/-- A `float64` value: finite, an infinity, or NaN. -/
inductive F64 where
  | fin (q : ℚ)
  | inf (negative : Bool)
  | nan
deriving DecidableEq

namespace F64

/-- The `float64` result of an operation whose exact result is `x`: the
nearest binary64 value, or the infinity of the sign of `x` when that value is
beyond the largest finite one. -/
def ofRat (x : ℚ) : F64 :=
  if |round64 x| < 2 ^ 1024 then fin (round64 x) else inf (decide (x < 0))

/-- The conversion `float64(n)` of an unsigned integer. -/
def ofUint64 (n : Nat) : F64 := ofRat n

/-- Floating-point multiplication. -/
def mul : F64 → F64 → F64
  | fin a, fin b => ofRat (a * b)
  | fin a, inf s => if a = 0 then nan else inf (xor s (decide (a < 0)))
  | inf s, fin b => if b = 0 then nan else inf (xor s (decide (b < 0)))
  | inf s, inf t => inf (xor s t)
  | _, _ => nan

/-- Floating-point division. -/
def div : F64 → F64 → F64
  | fin a, fin b =>
    if b = 0 then (if a = 0 then nan else inf (decide (a < 0))) else ofRat (a / b)
  | fin _, inf _ => fin 0
  | inf s, fin b => inf (xor s (decide (b < 0)))
  | _, _ => nan

/-- Floating-point addition. -/
def add : F64 → F64 → F64
  | fin a, fin b => ofRat (a + b)
  | fin _, inf s => inf s
  | inf s, fin _ => inf s
  | inf s, inf t => if s = t then inf s else nan
  | _, _ => nan

/-- Floating-point negation. -/
def neg : F64 → F64
  | fin a => fin (-a)
  | inf s => inf (!s)
  | nan => nan

/-- Floating-point subtraction. -/
def sub (x y : F64) : F64 := add x (neg y)

instance : Mul F64 := ⟨mul⟩
instance : Div F64 := ⟨div⟩
instance : Add F64 := ⟨add⟩
instance : Sub F64 := ⟨sub⟩

/-- The Go function `math.Round`: nearest integer, halves away from zero;
infinities and NaN are returned unchanged.  On a binary64 value the result is
a binary64 value, so nothing is rounded a second time. -/
def Round : F64 → F64
  | fin q => if 0 ≤ q then fin (⌊q + 1 / 2⌋ : ℤ) else fin (⌈q - 1 / 2⌉ : ℤ)
  | x => x

/-- The values whose truncation is a `uint64`. -/
def inUint64 : F64 → Prop
  | fin q => -1 < q ∧ q < 2 ^ 64
  | _ => False

end F64

/-- The Go language leaves the result of converting a floating-point value to
an integer type that cannot represent it implementation-dependent.  An `Arch`
fixes that result for `uint64`. -/
structure Arch where
  uint64OfUnrepresentable : F64 → Nat

/-- The conversion `uint64(x)` of a `float64`: truncation towards zero when the
truncated value is a `uint64`, the platform's value otherwise. -/
def F64.toUint64 (arch : Arch) : F64 → Nat
  | .fin q =>
    if -1 < q ∧ q < 2 ^ 64 then ⌊q⌋.toNat
    else arch.uint64OfUnrepresentable (.fin q) % 2 ^ 64
  | x => arch.uint64OfUnrepresentable x % 2 ^ 64

/-- A platform whose conversion instruction saturates, as `FCVTZU` of arm64
does: NaN and the negative values give `0`, the values from `2^64` on give
`2^64 - 1`. -/
def saturating : Arch where
  uint64OfUnrepresentable
    | .fin q => if q < 0 then 0 else 2 ^ 64 - 1
    | .inf negative => if negative then 0 else 2 ^ 64 - 1
    | .nan => 0

/-- The conversion the amd64 code generator emits: a value below `2^63` goes
through the signed truncating conversion and is reinterpreted, so the negative
values down to `-2^63` wrap; every other value that `uint64` cannot represent,
NaN and the infinities included, gives `2^63`. -/
def amd64 : Arch where
  uint64OfUnrepresentable
    | .fin q => if q < 0 ∧ -(2 ^ 63 : ℚ) ≤ q then (⌈q⌉ % 2 ^ 64).toNat else 2 ^ 63
    | _ => 2 ^ 63

/-! ## Keys, instructions and the external collaborators -/

/-- A `solana.PublicKey`, identified by its base58 text. -/
structure PublicKey where
  base58 : String
deriving DecidableEq, Repr

/-- The Go function `solana.MustPublicKeyFromBase58`, on the well-formed
literals of the program. -/
def MustPublicKeyFromBase58 (s : String) : PublicKey := ⟨s⟩

/-- The constant `solana.SystemProgramID` of the solana-go library. -/
def SystemProgramID : PublicKey := ⟨"11111111111111111111111111111111"⟩

/-- The constant `solana.TokenProgramID` of the solana-go library. -/
def TokenProgramID : PublicKey := ⟨"TokenkegQfeZyiNwAJbNbGKPFXCWuBvf9Ss623VQ5DA"⟩

/-- The constant `solana.SysVarRentPubkey` of the solana-go library. -/
def SysVarRentPubkey : PublicKey := ⟨"SysvarRent111111111111111111111111111111111"⟩

/-- The constant `solana.LAMPORTS_PER_SOL` of the solana-go library. -/
def LAMPORTS_PER_SOL : Nat := 1000000000

/-- A `solana.PrivateKey` together with the public key `PublicKey()` derives
from it. -/
structure PrivateKey where
  secret : String
  PublicKey : PublicKey
deriving DecidableEq, Repr

/-- A `solana.Signature`, the transaction identifier. -/
structure Signature where
  bytes : List Byte
deriving DecidableEq, Repr

/-- The zero value `solana.Signature{}`. -/
def Signature.zero : Signature := ⟨List.replicate 64 0⟩

/-- A `solana.Hash`, here a recent blockhash. -/
structure Hash where
  base58 : String
deriving DecidableEq, Repr

/-- A `solana.AccountMeta`. -/
structure AccountMeta where
  PublicKey : PublicKey
  IsSigner : Bool
  IsWritable : Bool
deriving DecidableEq, Repr

/-- The instructions the program builds: the two compute-budget instructions,
the associated-token-account creation, and an instruction made by
`solana.NewInstruction` from a program id, an account list and a payload. -/
inductive Instruction where
  | SetComputeUnitPrice (microLamports : Nat)
  | SetComputeUnitLimit (units : Nat)
  | CreateAssociatedTokenAccount (payer wallet mint : PublicKey)
  | NewInstruction (programID : PublicKey) (accounts : List AccountMeta) (data : List Byte)
deriving DecidableEq, Repr

/-- A `solana.Transaction`: what `solana.NewTransaction` was given, and the
keys that signed it. -/
structure Transaction where
  instructions : List Instruction
  recentBlockhash : Hash
  feePayer : PublicKey
  signers : List PublicKey
deriving DecidableEq, Repr

/-- The method `tx.Sign(privateKeyGetter)` with the getter of `Buy` and `Sell`,
which knows the owner's key only; its results are discarded by the program. -/
def Transaction.Sign (tx : Transaction) (Owner : PrivateKey) : Transaction :=
  { tx with signers := [Owner.PublicKey] }

/-- The functions of the solana-go library whose failure the program handles. -/
structure Library where
  FindAssociatedTokenAddress : PublicKey → PublicKey → Except String PublicKey
  NewTransaction : List Instruction → Hash → PublicKey → Except String Transaction

/-- The `rpc.Client`: the answers of the network to the three requests. -/
structure Client where
  GetAccountInfoWithOpts : PublicKey → Except String (List Byte)
  GetRecentBlockhash : Except String Hash
  SendTransactionWithOpts : Transaction → Except String Signature

/-- An external call made during a trade. -/
inductive Call where
  | FindAssociatedTokenAddress (wallet mint : PublicKey)
  | GetAccountInfoWithOpts (account : PublicKey)
  | GetRecentBlockhash
  | NewTransaction (instructions : List Instruction) (blockhash : Hash) (payer : PublicKey)
  | SendTransactionWithOpts (tx : Transaction)
deriving DecidableEq, Repr

/-- The Go function `getBondingCurveInfos`. -/
def getBondingCurveInfos (client : Client) (bondingCurve : PublicKey) : Result BondingCurve :=
  match client.GetAccountInfoWithOpts bondingCurve with
  | .error err => .err err
  | .ok DataBytes =>
    match decodeBondingData DataBytes with
    | .err err => .err err
    | .panic msg => .panic msg
    | .ok Data => .ok Data

/-- The Go function `getAssociatedTokenAddress`. -/
def getAssociatedTokenAddress (lib : Library) (walletAddress mintAddress : PublicKey) :
    Except String PublicKey :=
  match lib.FindAssociatedTokenAddress walletAddress mintAddress with
  | .error err => .error err
  | .ok TokenAddress => .ok TokenAddress

/-! ## The trade orchestrator -/

/-- The Go struct `Coin`. -/
structure Coin where
  buyAmount : F64
  slippage : F64
  mintAddress : PublicKey
  bondingCurveAddress : PublicKey
  associatedBondingCurve : PublicKey
  coinBought : F64
  tokenAddress : PublicKey
deriving DecidableEq

namespace Coin

/-- The method `GetTokenMint`. -/
def GetTokenMint (c : Coin) : PublicKey := c.mintAddress

/-- The method `SetBuyAmount`; a pointer-receiver method returns the updated
receiver. -/
def SetBuyAmount (c : Coin) (buyAmount : F64) : Coin := { c with buyAmount := buyAmount }

/-- The method `SetSlippage`. -/
def SetSlippage (c : Coin) (slippage : F64) : Coin := { c with slippage := slippage }

/-- The method `SetTokenAddress`, which assigns `mintAddress`. -/
def SetTokenAddress (c : Coin) (tokenAddress : PublicKey) : Coin :=
  { c with mintAddress := tokenAddress }

/-- The method `SetCurveAddress`. -/
def SetCurveAddress (c : Coin) (bondingCurveAddress : PublicKey) : Coin :=
  { c with bondingCurveAddress := bondingCurveAddress }

/-- The method `SetAssociatedCurveAddress`. -/
def SetAssociatedCurveAddress (c : Coin) (associatedBondingCurve : PublicKey) : Coin :=
  { c with associatedBondingCurve := associatedBondingCurve }

/-- The method `SetMintAddress`. -/
def SetMintAddress (c : Coin) (mintAddress : PublicKey) : Coin :=
  { c with mintAddress := mintAddress }

end Coin

/-- The local `solTokenPrice` of `Buy` and `Sell` (the two computations are the
same text): the reserve is divided by `LAMPORTS_PER_SOL` as a `uint64`, then
converted. -/
def solTokenPrice (BondingCurveData : BondingCurve) : F64 :=
  let solTokenPrice :=
    F64.ofUint64 (BondingCurveData.VirtualSolReserves / LAMPORTS_PER_SOL)
      / F64.ofUint64 BondingCurveData.VirtualTokenReserves * F64.fin 1000000
  F64.Round (solTokenPrice * F64.fin 1000000000) / F64.fin 1000000000

/-- The local `TokenAmout` of `Buy`. -/
def buyTokenAmout (c : Coin) (BondingCurveData : BondingCurve) : F64 :=
  c.buyAmount / solTokenPrice BondingCurveData

/-- The local `TokenAmoutInInt` of `Buy`. -/
def buyTokenAmoutInInt (arch : Arch) (c : Coin) (BondingCurveData : BondingCurve) : Nat :=
  F64.toUint64 arch (buyTokenAmout c BondingCurveData * F64.fin 1000000)

/-- The local `lamportsInWithSlippage` of `Buy`. -/
def lamportsInWithSlippage (arch : Arch) (c : Coin) : Nat :=
  let solInWithSlippage := c.buyAmount * (F64.fin 1 + c.slippage)
  F64.toUint64 arch (solInWithSlippage * F64.fin 1000000000)

/-- The local `TokenAmoutInInt` of `Sell`: a `uint64` product, which wraps. -/
def sellTokenAmoutInInt (arch : Arch) (c : Coin) : Nat :=
  F64.toUint64 arch c.coinBought * 1000000 % 2 ^ 64

/-- The local `lamportsOutWithSlippage` of `Sell`. -/
def lamportsOutWithSlippage (arch : Arch) (c : Coin) (BondingCurveData : BondingCurve) : Nat :=
  let solOut := c.coinBought * solTokenPrice BondingCurveData
  let solOutWithSlippage := solOut * (F64.fin 1 - c.slippage)
  F64.toUint64 arch (solOutWithSlippage * F64.fin 1000000000)

/-- The `accountKeys` of `Buy`. -/
def buyAccountKeys (c : Coin) (TokenAddress : PublicKey) (Owner : PrivateKey) :
    List AccountMeta :=
  [ ⟨MustPublicKeyFromBase58 "4wTV1YmiEkRvAtNtsSGPtUrqRYQMe5SKy2uB4Jjaxnjf", false, false⟩,
    ⟨MustPublicKeyFromBase58 "CebN5WGQ4jvEPvsVU4EoHEpgzq1VV7AbicfhtW4xC9iM", false, true⟩,
    ⟨c.mintAddress, false, false⟩,
    ⟨c.bondingCurveAddress, false, true⟩,
    ⟨c.associatedBondingCurve, false, true⟩,
    ⟨TokenAddress, false, true⟩,
    ⟨Owner.PublicKey, true, true⟩,
    ⟨SystemProgramID, false, false⟩,
    ⟨TokenProgramID, false, false⟩,
    ⟨SysVarRentPubkey, false, false⟩,
    ⟨MustPublicKeyFromBase58 "Ce6TQqeHC9p8KetsN6JsjHK7UTZk7nasjjnr7XxXp9F1", false, false⟩,
    ⟨MustPublicKeyFromBase58 "6EF8rrecthR5Dkzon8Nwu78hRvfCKubJ14M5uBEwF6P", false, false⟩ ]

/-- The `accountKeys` of `Sell`. -/
def sellAccountKeys (c : Coin) (Owner : PrivateKey) : List AccountMeta :=
  [ ⟨MustPublicKeyFromBase58 "4wTV1YmiEkRvAtNtsSGPtUrqRYQMe5SKy2uB4Jjaxnjf", false, false⟩,
    ⟨MustPublicKeyFromBase58 "CebN5WGQ4jvEPvsVU4EoHEpgzq1VV7AbicfhtW4xC9iM", false, true⟩,
    ⟨c.mintAddress, false, false⟩,
    ⟨c.bondingCurveAddress, false, true⟩,
    ⟨c.associatedBondingCurve, false, true⟩,
    ⟨c.tokenAddress, false, true⟩,
    ⟨Owner.PublicKey, true, true⟩,
    ⟨SystemProgramID, false, false⟩,
    ⟨MustPublicKeyFromBase58 "ATokenGPvbdGVxr1b2hvZbsiqW5xWH25efTNsLJA8knL", false, false⟩,
    ⟨TokenProgramID, false, false⟩,
    ⟨MustPublicKeyFromBase58 "Ce6TQqeHC9p8KetsN6JsjHK7UTZk7nasjjnr7XxXp9F1", false, false⟩,
    ⟨MustPublicKeyFromBase58 "6EF8rrecthR5Dkzon8Nwu78hRvfCKubJ14M5uBEwF6P", false, false⟩ ]

/-- The payload `data` of `Buy`: three little-endian `uint64` writes. -/
def buyData (TokenAmoutInInt lamportsInWithSlippage : Nat) : List Byte :=
  putUint64 16927863322537952870 ++ putUint64 TokenAmoutInInt
    ++ putUint64 lamportsInWithSlippage

/-- The payload `data` of `Sell`: three little-endian `uint64` writes. -/
def sellData (TokenAmoutInInt lamportsOutWithSlippage : Nat) : List Byte :=
  putUint64 12502976635542562355 ++ putUint64 TokenAmoutInInt
    ++ putUint64 lamportsOutWithSlippage

/-- The `BuyInstruction` of `Buy`. -/
def BuyInstruction (arch : Arch) (c : Coin) (TokenAddress : PublicKey) (Owner : PrivateKey)
    (BondingCurveData : BondingCurve) : Instruction :=
  .NewInstruction
    (MustPublicKeyFromBase58 "6EF8rrecthR5Dkzon8Nwu78hRvfCKubJ14M5uBEwF6P")
    (buyAccountKeys c TokenAddress Owner)
    (buyData (buyTokenAmoutInInt arch c BondingCurveData) (lamportsInWithSlippage arch c))

/-- The `instructions` of `Buy`. -/
def buyInstructions (arch : Arch) (c : Coin) (TokenAddress : PublicKey) (Owner : PrivateKey)
    (BondingCurveData : BondingCurve) : List Instruction :=
  [ .SetComputeUnitPrice 517000,
    .SetComputeUnitLimit 72000,
    .CreateAssociatedTokenAccount Owner.PublicKey Owner.PublicKey c.mintAddress,
    BuyInstruction arch c TokenAddress Owner BondingCurveData ]

/-- The `SellInstruction` of `Sell`. -/
def SellInstruction (arch : Arch) (c : Coin) (Owner : PrivateKey)
    (BondingCurveData : BondingCurve) : Instruction :=
  .NewInstruction
    (MustPublicKeyFromBase58 "6EF8rrecthR5Dkzon8Nwu78hRvfCKubJ14M5uBEwF6P")
    (sellAccountKeys c Owner)
    (sellData (sellTokenAmoutInInt arch c) (lamportsOutWithSlippage arch c BondingCurveData))

/-- The `instructions` of `Sell`. -/
def sellInstructions (arch : Arch) (c : Coin) (Owner : PrivateKey)
    (BondingCurveData : BondingCurve) : List Instruction :=
  [ SellInstruction arch c Owner BondingCurveData ]

/-- What a Go call returns to its caller: the pair `(solana.Signature, error)`,
or a panic. -/
inductive Return where
  | values (txID : Signature) (err : Option String)
  | panic (msg : String)
deriving DecidableEq, Repr

/-- The observable effect of one call of `Buy` or `Sell`: the receiver after
the call, what was returned, and the external calls made, in order. -/
structure Trade where
  coin : Coin
  ret : Return
  calls : List Call

/-- The method `Buy` of `Coin`. -/
def Coin.Buy (arch : Arch) (lib : Library) (c : Coin) (client : Client) (Owner : PrivateKey) :
    Trade :=
  let call₁ := Call.FindAssociatedTokenAddress Owner.PublicKey c.mintAddress
  match getAssociatedTokenAddress lib Owner.PublicKey c.mintAddress with
  | .error err =>
    { coin := c, calls := [call₁],
      ret := .values Signature.zero (some ("error getting associated token address: " ++ err)) }
  | .ok TokenAddress =>
  let c := { c with tokenAddress := TokenAddress }
  let call₂ := Call.GetAccountInfoWithOpts c.bondingCurveAddress
  match getBondingCurveInfos client c.bondingCurveAddress with
  | .panic msg => { coin := c, calls := [call₁, call₂], ret := .panic msg }
  | .err err =>
    { coin := c, calls := [call₁, call₂],
      ret := .values Signature.zero (some ("error getting bonding curve data: " ++ err)) }
  | .ok BondingCurveData =>
  let TokenAmout := buyTokenAmout c BondingCurveData
  let instructions := buyInstructions arch c TokenAddress Owner BondingCurveData
  let call₃ := Call.GetRecentBlockhash
  match client.GetRecentBlockhash with
  | .error err =>
    { coin := c, calls := [call₁, call₂, call₃],
      ret := .values Signature.zero (some ("error getting recent blockhash: " ++ err)) }
  | .ok blockHash =>
  let call₄ := Call.NewTransaction instructions blockHash Owner.PublicKey
  match lib.NewTransaction instructions blockHash Owner.PublicKey with
  | .error err =>
    { coin := c, calls := [call₁, call₂, call₃, call₄],
      ret := .values Signature.zero (some ("error creating transaction: " ++ err)) }
  | .ok tx =>
  let tx := tx.Sign Owner
  let call₅ := Call.SendTransactionWithOpts tx
  match client.SendTransactionWithOpts tx with
  | .error err =>
    { coin := c, calls := [call₁, call₂, call₃, call₄, call₅],
      ret := .values Signature.zero (some ("error sending transaction: " ++ err)) }
  | .ok txID =>
    { coin := { c with coinBought := TokenAmout }, calls := [call₁, call₂, call₃, call₄, call₅],
      ret := .values txID none }

/-- The method `Sell` of `Coin`; its errors are returned as they come. -/
def Coin.Sell (arch : Arch) (lib : Library) (c : Coin) (client : Client) (Owner : PrivateKey) :
    Trade :=
  let call₁ := Call.GetAccountInfoWithOpts c.bondingCurveAddress
  match getBondingCurveInfos client c.bondingCurveAddress with
  | .panic msg => { coin := c, calls := [call₁], ret := .panic msg }
  | .err err => { coin := c, calls := [call₁], ret := .values Signature.zero (some err) }
  | .ok BondingCurveData =>
  let instructions := sellInstructions arch c Owner BondingCurveData
  let call₂ := Call.GetRecentBlockhash
  match client.GetRecentBlockhash with
  | .error err =>
    { coin := c, calls := [call₁, call₂], ret := .values Signature.zero (some err) }
  | .ok blockHash =>
  let call₃ := Call.NewTransaction instructions blockHash Owner.PublicKey
  match lib.NewTransaction instructions blockHash Owner.PublicKey with
  | .error err =>
    { coin := c, calls := [call₁, call₂, call₃], ret := .values Signature.zero (some err) }
  | .ok tx =>
  let tx := tx.Sign Owner
  let call₄ := Call.SendTransactionWithOpts tx
  match client.SendTransactionWithOpts tx with
  | .error err =>
    { coin := c, calls := [call₁, call₂, call₃, call₄],
      ret := .values Signature.zero (some err) }
  | .ok txID => { coin := c, calls := [call₁, call₂, call₃, call₄], ret := .values txID none }

/-! ## The unit price as the specification states it -/

/-- Rounding to the nearest multiple of `10^-9`. -/
def round9 (x : ℚ) : ℚ := (round (x * 10 ^ 9) : ℤ) / 10 ^ 9

/-- The unit price in the specification's words: the exact ratio of the
virtual sol reserves to `LAMPORTS_PER_SOL`, divided by the virtual token
reserves, times `10^6`, rounded to 9 decimal digits. -/
def specUnitPrice (bc : BondingCurve) : ℚ :=
  round9 ((bc.VirtualSolReserves : ℚ) / 10 ^ 9 / bc.VirtualTokenReserves * 10 ^ 6)

/-! ## A concrete scenario

An owner, a configured coin, a curve account and collaborators that always
answer; used to evaluate the program on explicit inputs. -/

/-- The trader's key pair. -/
def exampleOwner : PrivateKey :=
  { secret := "owner secret key", PublicKey := ⟨"OwnerWa11et"⟩ }

/-- A coin configured to spend 1/2 with slippage 1/4, on which `Buy` has not
run yet. -/
def exampleCoin : Coin :=
  { buyAmount := .fin (1 / 2), slippage := .fin (1 / 4),
    mintAddress := ⟨"ExampleMint"⟩, bondingCurveAddress := ⟨"ExampleCurve"⟩,
    associatedBondingCurve := ⟨"ExampleCurveTokenAccount"⟩,
    coinBought := .fin 0, tokenAddress := ⟨"11111111111111111111111111111111"⟩ }

/-- Account bytes: an 8-byte header, the two virtual reserves, three further
fields and a cleared completion flag. -/
def exampleAccount (vtr vsr : Nat) : List Byte :=
  [23, 183, 248, 55, 96, 216, 172, 96] ++ putUint64 vtr ++ putUint64 vsr
    ++ putUint64 793100000000000 ++ putUint64 0 ++ putUint64 1000000000000000 ++ [0]

/-- A network that serves `data` as the curve account and accepts every
transaction. -/
def exampleClient (data : List Byte) : Client :=
  { GetAccountInfoWithOpts := fun _ => .ok data,
    GetRecentBlockhash := .ok ⟨"ExampleBlockhash"⟩,
    SendTransactionWithOpts := fun _ => .ok ⟨List.replicate 64 1⟩ }

/-- A library whose derivation and transaction assembly succeed. -/
def exampleLibrary : Library :=
  { FindAssociatedTokenAddress := fun _ _ => .ok ⟨"OwnerTokenAccount"⟩,
    NewTransaction := fun instructions blockhash payer =>
      .ok { instructions := instructions, recentBlockhash := blockhash,
            feePayer := payer, signers := [] } }

/-- Account bytes of a completed curve: the same layout, other real reserves
and the completion flag set. -/
def exampleCompletedAccount (vtr vsr : Nat) : List Byte :=
  [23, 183, 248, 55, 96, 216, 172, 96] ++ putUint64 vtr ++ putUint64 vsr
    ++ putUint64 0 ++ putUint64 85000000000 ++ putUint64 1000000000000000 ++ [1]

/-- A network whose account request fails. -/
def exampleUnreachableClient : Client :=
  { GetAccountInfoWithOpts := fun _ => .error "connection refused",
    GetRecentBlockhash := .ok ⟨"ExampleBlockhash"⟩,
    SendTransactionWithOpts := fun _ => .ok ⟨List.replicate 64 1⟩ }

/-! ## Decoder lemmas -/

theorem binaryReadUint64_ok (r : List Byte) (h : 8 ≤ r.length) :
    binaryReadUint64 r = .ok (littleEndianUint64 (r.take 8), r.drop 8) := by
  simp [binaryReadUint64, readFull, h]

theorem binaryReadUint64_error (r : List Byte) (h : r.length < 8) :
    binaryReadUint64 r = .error (if r.length = 0 then "EOF" else "unexpected EOF") := by
  have h8 : ¬ 8 ≤ r.length := by omega
  by_cases h0 : r.length = 0 <;> simp [binaryReadUint64, readFull, h8, h0]

theorem binaryReadByte_ok (r : List Byte) (h : 1 ≤ r.length) :
    binaryReadByte r = .ok (r.headD 0, r.drop 1) := by
  cases r with
  | nil => simp at h
  | cons b bs => simp [binaryReadByte, readFull]

theorem binaryReadByte_error (r : List Byte) (h : r.length = 0) :
    binaryReadByte r = .error "EOF" := by
  simp [binaryReadByte, readFull, h]

theorem littleEndianUint64_putUint64 (v : Nat) (h : v < 2 ^ 64) :
    littleEndianUint64 (putUint64 v) = v := by
  simp only [putUint64, littleEndianUint64]
  omega

theorem littleEndianUint64_lt (bs : List Byte) :
    littleEndianUint64 bs < 256 ^ bs.length := by
  induction bs with
  | nil => simp [littleEndianUint64]
  | cons b bs ih =>
    have hb := b.isLt
    simp only [littleEndianUint64, List.length_cons, pow_succ]
    omega

theorem putUint64_length (v : Nat) : (putUint64 v).length = 8 := rfl

/-- On a buffer of at least 49 bytes all six reads succeed. -/
theorem decodeBondingData_long (buf : List Byte) (h : 49 ≤ buf.length) :
    decodeBondingData buf = .ok
      { VirtualTokenReserves := littleEndianUint64 ((buf.drop 8).take 8),
        VirtualSolReserves := littleEndianUint64 ((buf.drop 16).take 8),
        RealTokenReserves := littleEndianUint64 ((buf.drop 24).take 8),
        RealSolReserves := littleEndianUint64 ((buf.drop 32).take 8),
        TokenTotalSupply := littleEndianUint64 ((buf.drop 40).take 8),
        Complete := decide ((buf.drop 48).headD 0 ≠ 0) } := by
  have h8 : ¬ buf.length < 8 := by omega
  simp only [decodeBondingData, h8, if_false]
  rw [binaryReadUint64_ok _ (by simp; omega)]
  simp only [List.drop_drop]
  rw [binaryReadUint64_ok _ (by simp; omega)]
  simp only [List.drop_drop]
  rw [binaryReadUint64_ok _ (by simp; omega)]
  simp only [List.drop_drop]
  rw [binaryReadUint64_ok _ (by simp; omega)]
  simp only [List.drop_drop]
  rw [binaryReadUint64_ok _ (by simp; omega)]
  simp only [List.drop_drop]
  rw [binaryReadByte_ok _ (by simp; omega)]

/-- C4: on a buffer of `n` bytes with `8 ≤ n < 49` the decoder returns an error
whose message names the field of index `(n - 8) / 8` in the reading order, the
first one that could not be read in full; the cause is `io.EOF` when nothing
of that field is there and `io.ErrUnexpectedEOF` when 1 to 7 bytes of it are,
so a partially available field is an error and is never completed with
zeros. -/
theorem decodeBondingData_short (buf : List Byte) (h8 : 8 ≤ buf.length)
    (h49 : buf.length < 49) :
    decodeBondingData buf = .err ("error reading "
      ++ fieldNames.getD ((buf.length - 8) / 8) ""
      ++ ": " ++ (if (buf.length - 8) % 8 = 0 then "EOF" else "unexpected EOF")) := by
  have hn : ¬ buf.length < 8 := by omega
  simp only [decodeBondingData, hn, if_false]
  by_cases h1 : buf.length < 16
  · rw [binaryReadUint64_error _ (by simp; omega)]
    have hk : (buf.length - 8) / 8 = 0 := by omega
    have hm : (buf.length - 8) % 8 = buf.length - 8 := by omega
    simp only [hk, hm, fieldNames, List.getD_cons_zero, List.length_drop]
    split_ifs <;> rfl
  rw [binaryReadUint64_ok _ (by simp; omega)]
  simp only [List.drop_drop, Nat.reduceAdd]
  by_cases h2 : buf.length < 24
  · rw [binaryReadUint64_error _ (by simp; omega)]
    have hk : (buf.length - 8) / 8 = 1 := by omega
    have hm : ((buf.length - 8) % 8 = 0) = (buf.length - 16 = 0) := by
      apply propext; constructor <;> intro h <;> omega
    simp only [hk, hm, fieldNames, List.getD_cons_succ, List.getD_cons_zero, List.length_drop]
    split_ifs <;> rfl
  rw [binaryReadUint64_ok _ (by simp; omega)]
  simp only [List.drop_drop, Nat.reduceAdd]
  by_cases h3 : buf.length < 32
  · rw [binaryReadUint64_error _ (by simp; omega)]
    have hk : (buf.length - 8) / 8 = 2 := by omega
    have hm : ((buf.length - 8) % 8 = 0) = (buf.length - 24 = 0) := by
      apply propext; constructor <;> intro h <;> omega
    simp only [hk, hm, fieldNames, List.getD_cons_succ, List.getD_cons_zero, List.length_drop]
    split_ifs <;> rfl
  rw [binaryReadUint64_ok _ (by simp; omega)]
  simp only [List.drop_drop, Nat.reduceAdd]
  by_cases h4 : buf.length < 40
  · rw [binaryReadUint64_error _ (by simp; omega)]
    have hk : (buf.length - 8) / 8 = 3 := by omega
    have hm : ((buf.length - 8) % 8 = 0) = (buf.length - 32 = 0) := by
      apply propext; constructor <;> intro h <;> omega
    simp only [hk, hm, fieldNames, List.getD_cons_succ, List.getD_cons_zero, List.length_drop]
    split_ifs <;> rfl
  rw [binaryReadUint64_ok _ (by simp; omega)]
  simp only [List.drop_drop, Nat.reduceAdd]
  by_cases h5 : buf.length < 48
  · rw [binaryReadUint64_error _ (by simp; omega)]
    have hk : (buf.length - 8) / 8 = 4 := by omega
    have hm : ((buf.length - 8) % 8 = 0) = (buf.length - 40 = 0) := by
      apply propext; constructor <;> intro h <;> omega
    simp only [hk, hm, fieldNames, List.getD_cons_succ, List.getD_cons_zero, List.length_drop]
    split_ifs <;> rfl
  rw [binaryReadUint64_ok _ (by simp; omega)]
  simp only [List.drop_drop, Nat.reduceAdd]
  rw [binaryReadByte_error _ (by simp; omega)]
  have hk : (buf.length - 8) / 8 = 5 := by omega
  have hm : (buf.length - 8) % 8 = 0 := by omega
  simp only [hk, hm, fieldNames, List.getD_cons_succ, List.getD_cons_zero, if_true]
  rfl

/-! ## The decoder: claims -/

/-- C1: the claim is that every buffer shorter than 49 bytes, the ones shorter
than 8 bytes included, makes `decodeBondingData` return a decode error without
aborting.  The code does not: on every buffer shorter than 8 bytes the slice
expression `bondingCurveData[8:]` panics before any read is attempted. -/
theorem decodeBondingData_panics_below_header (buf : List Byte) (h : buf.length < 8) :
    decodeBondingData buf
      = .panic ("runtime error: slice bounds out of range [8:" ++ toString buf.length ++ "]") := by
  simp [decodeBondingData, h]

theorem decodeBondingData_panics_below_header_witness :
    ([] : List Byte).length < 8 ∧
    decodeBondingData [] = .panic "runtime error: slice bounds out of range [8:0]" :=
  ⟨by decide, decodeBondingData_panics_below_header [] (by decide)⟩

/-- C2: decode round trip.  A buffer made of any 8 header bytes, the
little-endian encodings of five 64-bit values, a flag byte and any trailing
bytes decodes successfully to exactly those five values, in the order virtual
token, virtual sol, real token, real sol, total supply; neither the header nor
the trailing bytes influence the result. -/
theorem decodeBondingData_roundtrip (hdr t : List Byte) (v1 v2 v3 v4 v5 : Nat) (c : Byte)
    (hh : hdr.length = 8) (h1 : v1 < 2 ^ 64) (h2 : v2 < 2 ^ 64) (h3 : v3 < 2 ^ 64)
    (h4 : v4 < 2 ^ 64) (h5 : v5 < 2 ^ 64) :
    decodeBondingData (hdr ++ putUint64 v1 ++ putUint64 v2 ++ putUint64 v3 ++ putUint64 v4
        ++ putUint64 v5 ++ [c] ++ t)
      = .ok { VirtualTokenReserves := v1, VirtualSolReserves := v2, RealTokenReserves := v3,
              RealSolReserves := v4, TokenTotalSupply := v5, Complete := decide (c ≠ 0) } := by
  have hlen : 49 ≤ (hdr ++ putUint64 v1 ++ putUint64 v2 ++ putUint64 v3 ++ putUint64 v4
      ++ putUint64 v5 ++ [c] ++ t).length := by
    simp only [List.length_append, putUint64_length, hh, List.length_singleton]
    omega
  rw [decodeBondingData_long _ hlen]
  match hdr, hh with
  | [_, _, _, _, _, _, _, _], _ =>
    have r1 := littleEndianUint64_putUint64 v1 h1
    have r2 := littleEndianUint64_putUint64 v2 h2
    have r3 := littleEndianUint64_putUint64 v3 h3
    have r4 := littleEndianUint64_putUint64 v4 h4
    have r5 := littleEndianUint64_putUint64 v5 h5
    simp only [putUint64] at r1 r2 r3 r4 r5
    simp only [putUint64, List.cons_append, List.nil_append, List.drop_succ_cons,
      List.drop_zero, List.take_succ_cons, List.take_zero, List.headD_cons,
      r1, r2, r3, r4, r5]

theorem decodeBondingData_roundtrip_witness :
    decodeBondingData (List.replicate 8 7 ++ putUint64 1 ++ putUint64 2 ++ putUint64 3
        ++ putUint64 4 ++ putUint64 5 ++ [9] ++ [8, 8])
      = .ok { VirtualTokenReserves := 1, VirtualSolReserves := 2, RealTokenReserves := 3,
              RealSolReserves := 4, TokenTotalSupply := 5, Complete := true } :=
  decodeBondingData_roundtrip (List.replicate 8 7) [8, 8] 1 2 3 4 5 9 rfl
    (by decide) (by decide) (by decide) (by decide) (by decide)

/-- C3: on every buffer of at least 49 bytes the decoder succeeds, and the
decoded `Complete` flag is true exactly when the byte at offset 48 is not
zero. -/
theorem decodeBondingData_complete (buf : List Byte) (h : 49 ≤ buf.length) :
    ∃ bc, decodeBondingData buf = .ok bc ∧
      (bc.Complete = true ↔ buf.get ⟨48, by omega⟩ ≠ 0) := by
  refine ⟨_, decodeBondingData_long buf h, ?_⟩
  have h48 : 48 < buf.length := by omega
  rw [List.drop_eq_getElem_cons h48]
  simp [List.getElem?_eq_getElem h48]

theorem decodeBondingData_complete_witness :
    ∃ bc, decodeBondingData (List.replicate 48 0 ++ [255]) = .ok bc ∧
      (bc.Complete = true ↔
        (List.replicate 48 (0 : Byte) ++ [255]).get ⟨48, by decide⟩ ≠ 0) :=
  decodeBondingData_complete (List.replicate 48 0 ++ [255]) (by decide)

theorem decodeBondingData_short_witness :
    decodeBondingData (List.replicate 19 0)
      = .err "error reading VirtualSolReserves: unexpected EOF" :=
  (decodeBondingData_short (List.replicate 19 0) (by decide) (by decide)).trans (by decide)

/-! ## Payloads, account lists and instruction lists -/

theorem putUint64_buy_discriminator :
    putUint64 16927863322537952870 = [102, 6, 61, 18, 1, 218, 235, 234] := by
  decide

theorem putUint64_sell_discriminator :
    putUint64 12502976635542562355 = [51, 230, 133, 164, 1, 127, 131, 173] := by
  decide

/-- C5: swap payload layout.  For 64-bit `t` and `b` the buy payload is the 24
bytes `[102,6,61,18,1,218,235,234]` (the little-endian bytes of
16927863322537952870) followed by the little-endian bytes of `t` and of `b`;
the sell payload is the 24 bytes `[51,230,133,164,1,127,131,173]` (those of
12502976635542562355) followed by the same two fields; a buy payload is never a
sell payload; and `t` and `b` are read back from bytes 8..15 and 16..23. -/
theorem swap_payload_layout (t b : Nat) (ht : t < 2 ^ 64) (hb : b < 2 ^ 64) :
    buyData t b = putUint64 16927863322537952870 ++ putUint64 t ++ putUint64 b ∧
    buyData t b = [102, 6, 61, 18, 1, 218, 235, 234] ++ putUint64 t ++ putUint64 b ∧
    (buyData t b).length = 24 ∧
    sellData t b = putUint64 12502976635542562355 ++ putUint64 t ++ putUint64 b ∧
    sellData t b = [51, 230, 133, 164, 1, 127, 131, 173] ++ putUint64 t ++ putUint64 b ∧
    (sellData t b).length = 24 ∧
    (∀ t' b' : Nat, buyData t b ≠ sellData t' b') ∧
    littleEndianUint64 (((buyData t b).drop 8).take 8) = t ∧
    littleEndianUint64 (((buyData t b).drop 16).take 8) = b ∧
    littleEndianUint64 (((sellData t b).drop 8).take 8) = t ∧
    littleEndianUint64 (((sellData t b).drop 16).take 8) = b := by
  have rt := littleEndianUint64_putUint64 t ht
  have rb := littleEndianUint64_putUint64 b hb
  refine ⟨rfl, ?_, rfl, rfl, ?_, rfl, ?_, ?_, ?_, ?_, ?_⟩
  · rw [buyData, putUint64_buy_discriminator]
  · rw [sellData, putUint64_sell_discriminator]
  · intro t' b' h
    rw [buyData, sellData, putUint64_buy_discriminator, putUint64_sell_discriminator] at h
    simp at h
  · rw [buyData, putUint64_buy_discriminator]
    simp only [putUint64] at rt ⊢
    simpa using rt
  · rw [buyData, putUint64_buy_discriminator]
    simp only [putUint64] at rb ⊢
    simpa using rb
  · rw [sellData, putUint64_sell_discriminator]
    simp only [putUint64] at rt ⊢
    simpa using rt
  · rw [sellData, putUint64_sell_discriminator]
    simp only [putUint64] at rb ⊢
    simpa using rb

theorem swap_payload_layout_witness :
    buyData 357142857142 10500000
      = [102, 6, 61, 18, 1, 218, 235, 234] ++ putUint64 357142857142 ++ putUint64 10500000 :=
  (swap_payload_layout 357142857142 10500000 (by decide) (by decide)).2.1

theorem buyData_length (t b : Nat) : (buyData t b).length = 24 := rfl

theorem sellData_length (t b : Nat) : (sellData t b).length = 24 := rfl

/-- C6: instruction list shape.  When the address derivation and the fetch and
decode of the curve account succeed (the build step is reached) and a
blockhash is obtained, `Buy` hands to `NewTransaction` exactly four
instructions, in the order set-compute-unit-price(517000),
set-compute-unit-limit(72000), create-associated-token-account(owner, owner,
configured mint), swap; `Sell` hands over exactly one, the swap.  Both swaps
target program `6EF8rrecthR5Dkzon8Nwu78hRvfCKubJ14M5uBEwF6P`, have the 12-entry
account list, and carry the 24-byte payload: the 8 discriminator bytes, the
little-endian token amount and the little-endian lamport bound computed for
the trade. -/
theorem instruction_list_shape (arch : Arch) (lib : Library) (c : Coin) (client : Client)
    (Owner : PrivateKey) (ta : PublicKey) (bc : BondingCurve) (bh : Hash)
    (hfind : lib.FindAssociatedTokenAddress Owner.PublicKey c.mintAddress = .ok ta)
    (hacct : getBondingCurveInfos client c.bondingCurveAddress = .ok bc)
    (hbh : client.GetRecentBlockhash = .ok bh) :
    (c.Buy arch lib client Owner).calls.take 4 =
      [ .FindAssociatedTokenAddress Owner.PublicKey c.mintAddress,
        .GetAccountInfoWithOpts c.bondingCurveAddress,
        .GetRecentBlockhash,
        .NewTransaction
          [ .SetComputeUnitPrice 517000,
            .SetComputeUnitLimit 72000,
            .CreateAssociatedTokenAccount Owner.PublicKey Owner.PublicKey c.mintAddress,
            .NewInstruction ⟨"6EF8rrecthR5Dkzon8Nwu78hRvfCKubJ14M5uBEwF6P"⟩
              (buyAccountKeys c ta Owner)
              ([102, 6, 61, 18, 1, 218, 235, 234]
                ++ putUint64 (buyTokenAmoutInInt arch c bc)
                ++ putUint64 (lamportsInWithSlippage arch c)) ]
          bh Owner.PublicKey ] ∧
    buyInstructions arch c ta Owner bc =
      [ .SetComputeUnitPrice 517000,
        .SetComputeUnitLimit 72000,
        .CreateAssociatedTokenAccount Owner.PublicKey Owner.PublicKey c.mintAddress,
        .NewInstruction ⟨"6EF8rrecthR5Dkzon8Nwu78hRvfCKubJ14M5uBEwF6P"⟩
          (buyAccountKeys c ta Owner)
          ([102, 6, 61, 18, 1, 218, 235, 234]
            ++ putUint64 (buyTokenAmoutInInt arch c bc)
            ++ putUint64 (lamportsInWithSlippage arch c)) ] ∧
    ([102, 6, 61, 18, 1, 218, 235, 234]
      ++ putUint64 (buyTokenAmoutInInt arch c bc)
      ++ putUint64 (lamportsInWithSlippage arch c)).length = 24 ∧
    (buyAccountKeys c ta Owner).length = 12 ∧
    (c.Sell arch lib client Owner).calls.take 3 =
      [ .GetAccountInfoWithOpts c.bondingCurveAddress,
        .GetRecentBlockhash,
        .NewTransaction
          [ .NewInstruction ⟨"6EF8rrecthR5Dkzon8Nwu78hRvfCKubJ14M5uBEwF6P"⟩
              (sellAccountKeys c Owner)
              ([51, 230, 133, 164, 1, 127, 131, 173]
                ++ putUint64 (sellTokenAmoutInInt arch c)
                ++ putUint64 (lamportsOutWithSlippage arch c bc)) ]
          bh Owner.PublicKey ] ∧
    sellInstructions arch c Owner bc =
      [ .NewInstruction ⟨"6EF8rrecthR5Dkzon8Nwu78hRvfCKubJ14M5uBEwF6P"⟩
          (sellAccountKeys c Owner)
          ([51, 230, 133, 164, 1, 127, 131, 173]
            ++ putUint64 (sellTokenAmoutInInt arch c)
            ++ putUint64 (lamportsOutWithSlippage arch c bc)) ] ∧
    ([51, 230, 133, 164, 1, 127, 131, 173]
      ++ putUint64 (sellTokenAmoutInInt arch c)
      ++ putUint64 (lamportsOutWithSlippage arch c bc)).length = 24 ∧
    (sellAccountKeys c Owner).length = 12 := by
  have hb : buyInstructions arch c ta Owner bc =
      [ .SetComputeUnitPrice 517000,
        .SetComputeUnitLimit 72000,
        .CreateAssociatedTokenAccount Owner.PublicKey Owner.PublicKey c.mintAddress,
        .NewInstruction ⟨"6EF8rrecthR5Dkzon8Nwu78hRvfCKubJ14M5uBEwF6P"⟩
          (buyAccountKeys c ta Owner)
          ([102, 6, 61, 18, 1, 218, 235, 234]
            ++ putUint64 (buyTokenAmoutInInt arch c bc)
            ++ putUint64 (lamportsInWithSlippage arch c)) ] := by
    rw [← putUint64_buy_discriminator]
    rfl
  have hs : sellInstructions arch c Owner bc =
      [ .NewInstruction ⟨"6EF8rrecthR5Dkzon8Nwu78hRvfCKubJ14M5uBEwF6P"⟩
          (sellAccountKeys c Owner)
          ([51, 230, 133, 164, 1, 127, 131, 173]
            ++ putUint64 (sellTokenAmoutInInt arch c)
            ++ putUint64 (lamportsOutWithSlippage arch c bc)) ] := by
    rw [← putUint64_sell_discriminator]
    rfl
  have hB : buyInstructions arch { c with tokenAddress := ta } ta Owner bc
      = buyInstructions arch c ta Owner bc := rfl
  refine ⟨?_, hb, rfl, rfl, ?_, hs, rfl, rfl⟩
  · rw [← hb]
    simp only [Coin.Buy, getAssociatedTokenAddress, hfind, hacct, hbh, hB]
    cases lib.NewTransaction (buyInstructions arch c ta Owner bc) bh Owner.PublicKey with
    | error e => rfl
    | ok tx =>
      dsimp only
      cases client.SendTransactionWithOpts (tx.Sign Owner) <;> rfl
  · rw [← hs]
    simp only [Coin.Sell, hacct, hbh]
    cases lib.NewTransaction (sellInstructions arch c Owner bc) bh Owner.PublicKey with
    | error e => rfl
    | ok tx =>
      dsimp only
      cases client.SendTransactionWithOpts (tx.Sign Owner) <;> rfl

/-- C7: swap account list.  The account list of the buy swap and that of the
sell swap each has 12 entries; positions 2, 3, 4 and 6 hold the configured
mint, the curve address, the curve's associated token account and the owner;
position 6 is the only signer; the writable entries are exactly positions 1, 3,
4, 5 and 6; and the list is the same for every snapshot, spend amount, slippage
and conversion platform (the buy list for every coin with the same three
addresses, the sell list for every coin with the same three addresses and the
same recorded token account). -/
theorem swap_account_list (arch : Arch) (c : Coin) (ta : PublicKey) (Owner : PrivateKey)
    (bc : BondingCurve) :
    (∃ data, BuyInstruction arch c ta Owner bc
      = .NewInstruction ⟨"6EF8rrecthR5Dkzon8Nwu78hRvfCKubJ14M5uBEwF6P"⟩
          (buyAccountKeys c ta Owner) data) ∧
    (∃ data, SellInstruction arch c Owner bc
      = .NewInstruction ⟨"6EF8rrecthR5Dkzon8Nwu78hRvfCKubJ14M5uBEwF6P"⟩
          (sellAccountKeys c Owner) data) ∧
    (buyAccountKeys c ta Owner).length = 12 ∧
    (sellAccountKeys c Owner).length = 12 ∧
    (∃ k0 k1 k7 k8 k9 k10 k11, (buyAccountKeys c ta Owner).map (fun m => m.PublicKey)
      = [k0, k1, c.mintAddress, c.bondingCurveAddress, c.associatedBondingCurve, ta,
         Owner.PublicKey, k7, k8, k9, k10, k11]) ∧
    (∃ k0 k1 k7 k8 k9 k10 k11, (sellAccountKeys c Owner).map (fun m => m.PublicKey)
      = [k0, k1, c.mintAddress, c.bondingCurveAddress, c.associatedBondingCurve,
         c.tokenAddress, Owner.PublicKey, k7, k8, k9, k10, k11]) ∧
    (buyAccountKeys c ta Owner).map (fun m => m.IsSigner)
      = [false, false, false, false, false, false, true, false, false, false, false, false] ∧
    (sellAccountKeys c Owner).map (fun m => m.IsSigner)
      = [false, false, false, false, false, false, true, false, false, false, false, false] ∧
    (buyAccountKeys c ta Owner).map (fun m => m.IsWritable)
      = [false, true, false, true, true, true, true, false, false, false, false, false] ∧
    (sellAccountKeys c Owner).map (fun m => m.IsWritable)
      = [false, true, false, true, true, true, true, false, false, false, false, false] ∧
    (∀ (arch' : Arch) (c' : Coin) (bc' : BondingCurve),
      c'.mintAddress = c.mintAddress → c'.bondingCurveAddress = c.bondingCurveAddress →
      c'.associatedBondingCurve = c.associatedBondingCurve →
      ∃ data', BuyInstruction arch' c' ta Owner bc'
        = .NewInstruction ⟨"6EF8rrecthR5Dkzon8Nwu78hRvfCKubJ14M5uBEwF6P"⟩
            (buyAccountKeys c ta Owner) data') ∧
    (∀ (arch' : Arch) (c' : Coin) (bc' : BondingCurve),
      c'.mintAddress = c.mintAddress → c'.bondingCurveAddress = c.bondingCurveAddress →
      c'.associatedBondingCurve = c.associatedBondingCurve →
      c'.tokenAddress = c.tokenAddress →
      ∃ data', SellInstruction arch' c' Owner bc'
        = .NewInstruction ⟨"6EF8rrecthR5Dkzon8Nwu78hRvfCKubJ14M5uBEwF6P"⟩
            (sellAccountKeys c Owner) data') := by
  refine ⟨⟨_, rfl⟩, ⟨_, rfl⟩, rfl, rfl, ⟨_, _, _, _, _, _, _, rfl⟩,
    ⟨_, _, _, _, _, _, _, rfl⟩, rfl, rfl, rfl, rfl, ?_, ?_⟩
  · intro arch' c' bc' h1 h2 h3
    refine ⟨buyData (buyTokenAmoutInInt arch' c' bc') (lamportsInWithSlippage arch' c'), ?_⟩
    simp only [BuyInstruction, buyAccountKeys, h1, h2, h3]
    rfl
  · intro arch' c' bc' h1 h2 h3 h4
    refine ⟨sellData (sellTokenAmoutInInt arch' c') (lamportsOutWithSlippage arch' c' bc'), ?_⟩
    simp only [SellInstruction, sellAccountKeys, h1, h2, h3, h4]
    rfl

/-! ## Rounding to binary64 -/

theorem floor_le_roundHalfEven (x : ℚ) : ⌊x⌋ ≤ roundHalfEven x := by
  unfold roundHalfEven
  split_ifs <;> omega

theorem roundHalfEven_le_floor_add_one (x : ℚ) : roundHalfEven x ≤ ⌊x⌋ + 1 := by
  unfold roundHalfEven
  split_ifs <;> omega

theorem roundHalfEven_intCast (n : ℤ) : roundHalfEven (n : ℚ) = n := by
  unfold roundHalfEven
  simp

theorem intCast_le_roundHalfEven (x : ℚ) (n : ℤ) (h : (n : ℚ) ≤ x) : n ≤ roundHalfEven x :=
  le_trans (Int.le_floor.mpr h) (floor_le_roundHalfEven x)

theorem roundHalfEven_le_intCast (x : ℚ) (n : ℤ) (h : x ≤ (n : ℚ)) : roundHalfEven x ≤ n := by
  have hf : ⌊x⌋ ≤ n := Int.floor_le_iff.mpr (by linarith [Int.lt_floor_add_one x, h] : x < n + 1)
  rcases lt_or_eq_of_le hf with h1 | h1
  · exact le_trans (roundHalfEven_le_floor_add_one x) (by omega)
  · have hx : x = n := le_antisymm h (by rw [← h1]; exact Int.floor_le x)
    rw [hx, roundHalfEven_intCast]

theorem roundHalfEven_mono {x y : ℚ} (h : x ≤ y) : roundHalfEven x ≤ roundHalfEven y := by
  have hf : ⌊x⌋ ≤ ⌊y⌋ := Int.floor_le_floor h
  rcases lt_or_eq_of_le hf with h1 | h1
  · exact le_trans (roundHalfEven_le_floor_add_one x)
      (le_trans (by omega) (floor_le_roundHalfEven y))
  · have hxy : x - ⌊x⌋ ≤ y - ⌊y⌋ := by rw [h1]; linarith
    unfold roundHalfEven
    rw [h1] at hxy ⊢
    split_ifs <;> first | omega | linarith

theorem roundHalfEven_of_lt (x : ℚ) (n : ℤ) (h1 : (n : ℚ) - 1 / 2 < x) (h2 : x < n + 1 / 2) :
    roundHalfEven x = n := by
  unfold roundHalfEven
  rcases le_or_lt (n : ℚ) x with h | h
  · have hf : ⌊x⌋ = n := Int.floor_eq_iff.mpr ⟨h, by linarith⟩
    rw [hf, if_pos (by linarith)]
  · have hf : ⌊x⌋ = n - 1 := Int.floor_eq_iff.mpr ⟨by push_cast; linarith, by push_cast; linarith⟩
    rw [hf]
    push_cast
    rw [if_neg (by linarith), if_pos (by linarith)]
    ring

theorem roundHalfEven_tie_even (x : ℚ) (n : ℤ) (hx : x = n + 1 / 2) (hn : n % 2 = 0) :
    roundHalfEven x = n := by
  have hf : ⌊x⌋ = n := Int.floor_eq_iff.mpr ⟨by linarith, by linarith⟩
  unfold roundHalfEven
  rw [hf, if_neg (by linarith), if_neg (by linarith), if_pos hn]

theorem roundHalfEven_tie_odd (x : ℚ) (n : ℤ) (hx : x = n + 1 / 2) (hn : n % 2 = 1) :
    roundHalfEven x = n + 1 := by
  have hf : ⌊x⌋ = n := Int.floor_eq_iff.mpr ⟨by linarith, by linarith⟩
  unfold roundHalfEven
  rw [hf, if_neg (by linarith), if_neg (by linarith), if_neg (by omega)]

theorem abs_roundHalfEven_sub_le (x : ℚ) : |(roundHalfEven x : ℚ) - x| ≤ 1 / 2 := by
  have h1 := Int.floor_le x
  have h2 := Int.lt_floor_add_one x
  unfold roundHalfEven
  rw [abs_le]
  split_ifs <;> push_cast <;> constructor <;> linarith

theorem ulp_pos (x : ℚ) : 0 < ulp x := by
  unfold ulp
  positivity

theorem binade_ge (x : ℚ) : -1022 ≤ binade x := le_max_right _ _

/-- The binade of a positive number from explicit bounds. -/
theorem binade_eq (x : ℚ) (e : ℤ) (he : -1022 ≤ e) (hlo : (2 : ℚ) ^ e ≤ x)
    (hhi : x < (2 : ℚ) ^ (e + 1)) : binade x = e := by
  have hx : 0 < x := lt_of_lt_of_le (by positivity) hlo
  have h1 : e ≤ Int.log 2 |x| := by
    rw [abs_of_pos hx]
    exact (Int.zpow_le_iff_le_log (by norm_num) hx).mp (by exact_mod_cast hlo)
  have h2 : Int.log 2 |x| < e + 1 := by
    rw [abs_of_pos hx]
    exact (Int.lt_zpow_iff_log_lt (by norm_num) hx).mp (by exact_mod_cast hhi)
  unfold binade
  rw [max_eq_left (by omega)]
  omega

/-- Below the normal range the binade is the lowest one. -/
theorem binade_subnormal (x : ℚ) (h0 : 0 < x) (hhi : x < (2 : ℚ) ^ (-1022 : ℤ)) :
    binade x = -1022 := by
  have h2 : Int.log 2 |x| < -1022 := by
    rw [abs_of_pos h0]
    exact (Int.lt_zpow_iff_log_lt (by norm_num) h0).mp (by exact_mod_cast hhi)
  unfold binade
  rw [max_eq_right (by omega)]

theorem lt_zpow_binade_succ (x : ℚ) (h0 : 0 < x) : x < (2 : ℚ) ^ (binade x + 1) := by
  have h := Int.lt_zpow_succ_log_self (b := 2) (by norm_num) x
  have h' : x < (2 : ℚ) ^ (Int.log 2 x + 1) := by exact_mod_cast h
  refine lt_of_lt_of_le h' (zpow_le_zpow_right₀ (by norm_num) ?_)
  unfold binade
  rw [abs_of_pos h0]
  have := le_max_left (Int.log 2 x) (-1022)
  omega

theorem zpow_binade_le (x : ℚ) (h : (2 : ℚ) ^ (-1022 : ℤ) ≤ x) : (2 : ℚ) ^ binade x ≤ x := by
  have h0 : 0 < x := lt_of_lt_of_le (by positivity) h
  have h1 : (-1022 : ℤ) ≤ Int.log 2 x :=
    (Int.zpow_le_iff_le_log (by norm_num) h0).mp (by exact_mod_cast h)
  unfold binade
  rw [abs_of_pos h0, max_eq_left h1]
  exact_mod_cast Int.zpow_log_le_self (b := 2) (by norm_num) h0

theorem binade_mono (x y : ℚ) (h0 : 0 < x) (h : x ≤ y) : binade x ≤ binade y := by
  unfold binade
  rw [abs_of_pos h0, abs_of_pos (lt_of_lt_of_le h0 h)]
  exact max_le_max (Int.log_mono_right h0 h) le_rfl

theorem round64_zero : round64 0 = 0 := by
  simp [round64, roundHalfEven]

theorem round64_nonneg (x : ℚ) (h : 0 ≤ x) : 0 ≤ round64 x := by
  unfold round64
  have hu := ulp_pos x
  have : (0 : ℤ) ≤ roundHalfEven (x / ulp x) :=
    intCast_le_roundHalfEven _ 0 (by simpa using div_nonneg h hu.le)
  have h2 : (0 : ℚ) ≤ (roundHalfEven (x / ulp x) : ℚ) := by exact_mod_cast this
  positivity

/-- A rounded value does not leave its binade. -/
theorem round64_le_zpow (x : ℚ) (h0 : 0 < x) : round64 x ≤ (2 : ℚ) ^ (binade x + 1) := by
  unfold round64
  have hu := ulp_pos x
  have hx := lt_zpow_binade_succ x h0
  have e1 : (2 : ℚ) ^ (binade x + 1) = ((2 ^ 53 : ℤ) : ℚ) * ulp x := by
    unfold ulp
    rw [show binade x + 1 = 53 + (binade x - 52) by ring, zpow_add₀ (by norm_num)]
    norm_num
  rw [e1]
  apply mul_le_mul_of_nonneg_right _ hu.le
  have : roundHalfEven (x / ulp x) ≤ (2 ^ 53 : ℤ) := by
    apply roundHalfEven_le_intCast
    rw [div_le_iff₀ hu, ← e1]
    exact hx.le
  exact_mod_cast this

theorem zpow_le_round64 (x : ℚ) (h : (2 : ℚ) ^ (-1022 : ℤ) ≤ x) :
    (2 : ℚ) ^ binade x ≤ round64 x := by
  unfold round64
  have hu := ulp_pos x
  have hx := zpow_binade_le x h
  have e1 : (2 : ℚ) ^ binade x = ((2 ^ 52 : ℤ) : ℚ) * ulp x := by
    unfold ulp
    rw [show binade x = 52 + (binade x - 52) by ring, zpow_add₀ (by norm_num)]
    norm_num
  rw [e1]
  apply mul_le_mul_of_nonneg_right _ hu.le
  have : (2 ^ 52 : ℤ) ≤ roundHalfEven (x / ulp x) := by
    apply intCast_le_roundHalfEven
    rw [le_div_iff₀ hu, ← e1]
    exact hx
  exact_mod_cast this

/-- Rounding to nearest is monotone (on the non-negative values). -/
theorem round64_mono (x y : ℚ) (h0 : 0 ≤ x) (h : x ≤ y) : round64 x ≤ round64 y := by
  rcases eq_or_lt_of_le h0 with hx | hx
  · rw [← hx, round64_zero]
    exact round64_nonneg y (le_trans h0 h)
  have hy : 0 < y := lt_of_lt_of_le hx h
  rcases lt_or_eq_of_le (binade_mono x y hx h) with hb | hb
  · have hy' : (2 : ℚ) ^ (-1022 : ℤ) ≤ y := by
      by_contra hc
      have := binade_subnormal y hy (not_le.mp hc)
      have := binade_ge x
      omega
    calc round64 x ≤ (2 : ℚ) ^ (binade x + 1) := round64_le_zpow x hx
      _ ≤ (2 : ℚ) ^ binade y := zpow_le_zpow_right₀ (by norm_num) (by omega)
      _ ≤ round64 y := zpow_le_round64 y hy'
  · unfold round64
    have hu : ulp x = ulp y := by unfold ulp; rw [hb]
    rw [hu]
    have hpos := ulp_pos y
    apply mul_le_mul_of_nonneg_right _ hpos.le
    have : roundHalfEven (x / ulp y) ≤ roundHalfEven (y / ulp y) :=
      roundHalfEven_mono (div_le_div_of_nonneg_right h hpos.le)
    exact_mod_cast this

/-- Evaluation of a rounding from the binade and the rounded significand. -/
theorem round64_eval (x u : ℚ) (e n : ℤ) (he : -1022 ≤ e) (hu : u = (2 : ℚ) ^ (e - 52))
    (hlo : 2 ^ 52 * u ≤ x) (hhi : x < 2 ^ 53 * u) (hn : roundHalfEven (x / u) = n) :
    round64 x = n * u := by
  have e1 : (2 : ℚ) ^ e = 2 ^ 52 * u := by
    rw [hu, show e = 52 + (e - 52) by ring, zpow_add₀ (by norm_num)]
    norm_num
  have e2 : (2 : ℚ) ^ (e + 1) = 2 ^ 53 * u := by
    rw [hu, show e + 1 = 53 + (e - 52) by ring, zpow_add₀ (by norm_num)]
    norm_num
  have hb : binade x = e := binade_eq x e he (by rw [e1]; exact hlo) (by rw [e2]; exact hhi)
  unfold round64 ulp
  rw [hb, ← hu, hn]

/-- Evaluation of a rounding below the normal range. -/
theorem round64_eval_subnormal (x : ℚ) (n : ℤ) (h0 : 0 < x)
    (hhi : x < (2 : ℚ) ^ (-1022 : ℤ))
    (hn : roundHalfEven (x / (2 : ℚ) ^ (-1074 : ℤ)) = n) :
    round64 x = n * (2 : ℚ) ^ (-1074 : ℤ) := by
  unfold round64 ulp
  rw [binade_subnormal x h0 hhi]
  norm_num at hn ⊢
  rw [hn]

/-- A value with a significand below `2^53` and an exponent not below `-1074`
is a `float64` and rounds to itself. -/
theorem round64_dyadic (m : ℕ) (k : ℤ) (hm : m < 2 ^ 53) (hk : -1074 ≤ k) :
    round64 ((m : ℚ) * (2 : ℚ) ^ k) = (m : ℚ) * (2 : ℚ) ^ k := by
  rcases Nat.eq_zero_or_pos m with h0 | h0
  · simp [h0, round64_zero]
  have hx : 0 < (m : ℚ) * (2 : ℚ) ^ k := by positivity
  have hbk : binade ((m : ℚ) * (2 : ℚ) ^ k) - 52 ≤ k := by
    unfold binade
    rw [abs_of_pos hx]
    have h1 : Int.log 2 ((m : ℚ) * (2 : ℚ) ^ k) < k + 53 := by
      apply (Int.lt_zpow_iff_log_lt (by norm_num) hx).mp
      have : ((2 : ℕ) : ℚ) ^ (k + 53) = (2 : ℚ) ^ 53 * (2 : ℚ) ^ k := by
        rw [show k + 53 = 53 + k by ring, zpow_add₀ (by norm_num)]
        norm_num
      rw [this]
      apply mul_lt_mul_of_pos_right _ (by positivity)
      exact_mod_cast hm
    have := max_le (a := Int.log 2 ((m : ℚ) * (2 : ℚ) ^ k)) (b := -1022) (c := k + 52)
      (by omega) (by omega)
    omega
  obtain ⟨j, hj⟩ := Int.eq_ofNat_of_zero_le (sub_nonneg.mpr hbk)
  have hdiv : (m : ℚ) * (2 : ℚ) ^ k / ulp ((m : ℚ) * (2 : ℚ) ^ k) = ((m * 2 ^ j : ℕ) : ℤ) := by
    unfold ulp
    rw [mul_div_assoc, ← zpow_sub₀ (by norm_num), hj]
    push_cast
    rw [zpow_natCast]
  unfold round64
  rw [hdiv, roundHalfEven_intCast]
  unfold ulp
  push_cast
  rw [mul_assoc, ← zpow_natCast, ← hj, ← zpow_add₀ (by norm_num)]
  congr 2
  ring

theorem round64_natCast (n : ℕ) (hn : n < 2 ^ 53) : round64 (n : ℚ) = n := by
  have := round64_dyadic n 0 hn (by norm_num)
  simpa using this

/-- The result of a rounding is a `float64`: rounding it again changes nothing. -/
theorem round64_idem (x : ℚ) (h0 : 0 ≤ x) : round64 (round64 x) = round64 x := by
  rcases eq_or_lt_of_le h0 with hx | hx
  · rw [← hx, round64_zero, round64_zero]
  have hu := ulp_pos x
  have hn0 : (0 : ℤ) ≤ roundHalfEven (x / ulp x) :=
    intCast_le_roundHalfEven _ 0 (by simpa using div_nonneg h0 hu.le)
  have hn1 : roundHalfEven (x / ulp x) ≤ (2 ^ 53 : ℤ) := by
    apply roundHalfEven_le_intCast
    rw [div_le_iff₀ hu]
    have e1 : (2 : ℚ) ^ (binade x + 1) = ((2 ^ 53 : ℤ) : ℚ) * ulp x := by
      unfold ulp
      rw [show binade x + 1 = 53 + (binade x - 52) by ring, zpow_add₀ (by norm_num)]
      norm_num
    rw [← e1]
    exact (lt_zpow_binade_succ x hx).le
  obtain ⟨m, hm⟩ := Int.eq_ofNat_of_zero_le hn0
  have hb := binade_ge x
  have hr : round64 x = (m : ℚ) * (2 : ℚ) ^ (binade x - 52) := by
    unfold round64
    rw [hm]
    rfl
  rw [hr]
  rw [hm] at hn1
  have hm' : m ≤ 2 ^ 53 := by exact_mod_cast hn1
  rcases lt_or_eq_of_le hm' with h | h
  · exact round64_dyadic m _ h (by omega)
  · have e2 : (m : ℚ) * (2 : ℚ) ^ (binade x - 52) = ((1 : ℕ) : ℚ) * (2 : ℚ) ^ (binade x + 1) := by
      rw [h, show binade x + 1 = 53 + (binade x - 52) by ring, zpow_add₀ (by norm_num)]
      norm_num
    rw [e2]
    exact round64_dyadic 1 _ (by norm_num) (by omega)

/-- The error of a rounding in the normal range is at most `2^-53` of the value. -/
theorem abs_round64_sub_le (x : ℚ) (h : (2 : ℚ) ^ (-1022 : ℤ) ≤ x) :
    |round64 x - x| ≤ x / 2 ^ 53 := by
  have hu := ulp_pos x
  have h1 := abs_roundHalfEven_sub_le (x / ulp x)
  have h2 : round64 x - x = ((roundHalfEven (x / ulp x) : ℚ) - x / ulp x) * ulp x := by
    unfold round64
    field_simp
  rw [h2, abs_mul, abs_of_pos hu]
  have h3 : ulp x ≤ x / 2 ^ 52 := by
    rw [le_div_iff₀ (by positivity)]
    have e1 : (2 : ℚ) ^ binade x = ulp x * 2 ^ 52 := by
      unfold ulp
      rw [show binade x = (binade x - 52) + 52 by ring, zpow_add₀ (by norm_num)]
      norm_num
    rw [← e1]
    exact zpow_binade_le x h
  calc |(roundHalfEven (x / ulp x) : ℚ) - x / ulp x| * ulp x
      ≤ 1 / 2 * ulp x := mul_le_mul_of_nonneg_right h1 hu.le
    _ ≤ 1 / 2 * (x / 2 ^ 52) := by linarith
    _ = x / 2 ^ 53 := by ring


/-! ## Pricing -/

namespace F64

theorem fin_mul_fin (a b : ℚ) : fin a * fin b = ofRat (a * b) := rfl

theorem fin_add_fin (a b : ℚ) : fin a + fin b = ofRat (a + b) := rfl

theorem fin_sub_fin (a b : ℚ) : fin a - fin b = ofRat (a - b) := by
  show add (fin a) (neg (fin b)) = _
  simp [add, neg, sub_eq_add_neg]

theorem fin_div_fin (a b : ℚ) :
    fin a / fin b
      = if b = 0 then (if a = 0 then nan else inf (decide (a < 0))) else ofRat (a / b) := rfl

theorem fin_div_inf (a : ℚ) (s : Bool) : fin a / inf s = fin 0 := rfl

theorem Round_fin (q : ℚ) :
    Round (fin q) = if 0 ≤ q then fin (⌊q + 1 / 2⌋ : ℤ) else fin (⌈q - 1 / 2⌉ : ℤ) := rfl

theorem toUint64_fin (arch : Arch) (q : ℚ) (h0 : 0 ≤ q) (h1 : q < 2 ^ 64) :
    toUint64 arch (fin q) = ⌊q⌋.toNat := by
  have h : -1 < q := by linarith
  simp [toUint64, h, h1]

theorem toUint64_natCast (arch : Arch) (n : ℕ) (hn : n < 2 ^ 64) :
    toUint64 arch (fin (n : ℚ)) = n := by
  rw [toUint64_fin arch n (by positivity) (by exact_mod_cast hn)]
  simp

/-- An operation whose rounded result is known and finite. -/
theorem ofRat_eq (x v : ℚ) (h : round64 x = v) (hv : |v| < 2 ^ 1024) : ofRat x = fin v := by
  unfold ofRat
  rw [h, if_pos hv]

theorem two_pow_lt_max : (2 : ℚ) ^ 100 < 2 ^ 1024 :=
  pow_lt_pow_right₀ (by norm_num) (by norm_num)

/-- An operation whose rounded result is known and of moderate size. -/
theorem ofRat_eval (x v : ℚ) (h : round64 x = v) (h0 : 0 ≤ v) (hv : v < 2 ^ 100) :
    ofRat x = fin v :=
  ofRat_eq x v h (lt_trans (lt_of_le_of_lt (le_of_eq (abs_of_nonneg h0)) hv) two_pow_lt_max)

theorem ofRat_zero : ofRat 0 = fin 0 :=
  ofRat_eval 0 0 round64_zero (by norm_num) (by norm_num)

/-- An operation whose exact result is a `float64`. -/
theorem ofRat_dyadic (x : ℚ) (m : ℕ) (k : ℤ) (hm : m < 2 ^ 53) (hk : -1074 ≤ k)
    (hx : x = (m : ℚ) * (2 : ℚ) ^ k) (hlt : x < 2 ^ 1024) : ofRat x = fin x := by
  have h0 : 0 ≤ x := by
    rw [hx]
    exact mul_nonneg (Nat.cast_nonneg m) (zpow_nonneg (by norm_num) k)
  refine ofRat_eq x x ?_ (lt_of_le_of_lt (le_of_eq (abs_of_nonneg h0)) hlt)
  rw [hx]
  exact round64_dyadic m k hm hk

theorem ofRat_natCast (n : ℕ) (hn : n < 2 ^ 53) : ofRat (n : ℚ) = fin n := by
  refine ofRat_dyadic n n 0 hn (by norm_num) (by simp) ?_
  have h1 : (n : ℚ) < 2 ^ 53 := by exact_mod_cast hn
  have h2 : (2 : ℚ) ^ 53 < 2 ^ 1024 := pow_lt_pow_right₀ (by norm_num) (by norm_num)
  linarith

/-- The conversion of an unsigned integer is `0` for `0`, and otherwise a
positive value or, beyond the finite range, the positive infinity. -/
theorem ofUint64_cases (n : ℕ) :
    (n = 0 ∧ ofUint64 n = fin 0) ∨ (0 < n ∧ ∃ r, 0 < r ∧ ofUint64 n = fin r) ∨
      (0 < n ∧ ofUint64 n = inf false) := by
  rcases Nat.eq_zero_or_pos n with h | h
  · left
    subst h
    exact ⟨rfl, by simpa [ofUint64] using ofRat_zero⟩
  · right
    have h1 : (1 : ℚ) ≤ n := by exact_mod_cast h
    have hr : (1 : ℚ) ≤ round64 n := by
      have := round64_mono 1 n (by norm_num) h1
      rwa [show round64 1 = 1 by simpa using round64_natCast 1 (by norm_num)] at this
    unfold ofUint64 ofRat
    split_ifs with hlt
    · exact Or.inl ⟨h, _, by linarith, rfl⟩
    · refine Or.inr ⟨h, ?_⟩
      have : ¬ ((n : ℚ) < 0) := not_lt.mpr (by positivity)
      simp [this]

/-- A multiplication whose exact product rounds: the binade, the rounded
significand and the result are given and checked. -/
theorem mul_eval (a b v u : ℚ) (e n : ℤ) (he : -1022 ≤ e) (hu : u = (2 : ℚ) ^ (e - 52))
    (hlo : 2 ^ 52 * u ≤ a * b) (hhi : a * b < 2 ^ 53 * u)
    (hn : roundHalfEven (a * b / u) = n) (hv : (n : ℚ) * u = v) (h0 : 0 ≤ v) (hs : v < 2 ^ 100) :
    fin a * fin b = fin v :=
  ofRat_eval _ _ ((round64_eval _ u e n he hu hlo hhi hn).trans hv) h0 hs

/-- A division whose exact quotient rounds. -/
theorem div_eval (a b v u : ℚ) (e n : ℤ) (hb : b ≠ 0) (he : -1022 ≤ e)
    (hu : u = (2 : ℚ) ^ (e - 52)) (hlo : 2 ^ 52 * u ≤ a / b) (hhi : a / b < 2 ^ 53 * u)
    (hn : roundHalfEven (a / b / u) = n) (hv : (n : ℚ) * u = v) (h0 : 0 ≤ v) (hs : v < 2 ^ 100) :
    fin a / fin b = fin v := by
  rw [fin_div_fin, if_neg hb]
  exact ofRat_eval _ _ ((round64_eval _ u e n he hu hlo hhi hn).trans hv) h0 hs

/-- An addition whose exact sum rounds. -/
theorem add_eval (a b v u : ℚ) (e n : ℤ) (he : -1022 ≤ e) (hu : u = (2 : ℚ) ^ (e - 52))
    (hlo : 2 ^ 52 * u ≤ a + b) (hhi : a + b < 2 ^ 53 * u)
    (hn : roundHalfEven ((a + b) / u) = n) (hv : (n : ℚ) * u = v) (h0 : 0 ≤ v) (hs : v < 2 ^ 100) :
    fin a + fin b = fin v :=
  ofRat_eval _ _ ((round64_eval _ u e n he hu hlo hhi hn).trans hv) h0 hs

/-- A multiplication whose exact product is a `float64`. -/
theorem mul_exact (a b v : ℚ) (m : ℕ) (k : ℤ) (hm : m < 2 ^ 53) (hk : -1074 ≤ k)
    (hv : a * b = v) (hx : v = (m : ℚ) * (2 : ℚ) ^ k) (hs : v < 2 ^ 100) :
    fin a * fin b = fin v := by
  rw [fin_mul_fin, hv]
  exact ofRat_dyadic v m k hm hk hx (lt_trans hs two_pow_lt_max)

/-- A division whose exact quotient is a `float64`. -/
theorem div_exact (a b v : ℚ) (m : ℕ) (k : ℤ) (hb : b ≠ 0) (hm : m < 2 ^ 53) (hk : -1074 ≤ k)
    (hv : a / b = v) (hx : v = (m : ℚ) * (2 : ℚ) ^ k) (hs : v < 2 ^ 100) :
    fin a / fin b = fin v := by
  rw [fin_div_fin, if_neg hb, hv]
  exact ofRat_dyadic v m k hm hk hx (lt_trans hs two_pow_lt_max)

/-- An addition whose exact sum is a `float64`. -/
theorem add_exact (a b v : ℚ) (m : ℕ) (k : ℤ) (hm : m < 2 ^ 53) (hk : -1074 ≤ k)
    (hv : a + b = v) (hx : v = (m : ℚ) * (2 : ℚ) ^ k) (hs : v < 2 ^ 100) :
    fin a + fin b = fin v := by
  rw [fin_add_fin, hv]
  exact ofRat_dyadic v m k hm hk hx (lt_trans hs two_pow_lt_max)

/-- A subtraction whose exact difference is a `float64`. -/
theorem sub_exact (a b v : ℚ) (m : ℕ) (k : ℤ) (hm : m < 2 ^ 53) (hk : -1074 ≤ k)
    (hv : a - b = v) (hx : v = (m : ℚ) * (2 : ℚ) ^ k) (hs : v < 2 ^ 100) :
    fin a - fin b = fin v := by
  rw [fin_sub_fin, hv]
  exact ofRat_dyadic v m k hm hk hx (lt_trans hs two_pow_lt_max)

theorem ofUint64_small (n : ℕ) (hn : n < 2 ^ 53) : ofUint64 n = fin n :=
  ofRat_natCast n hn

end F64

/-- The price is computed from the whole number of sol in the virtual reserve:
snapshots with the same quotient by `LAMPORTS_PER_SOL` get the same price. -/
theorem solTokenPrice_congr (bc bc' : BondingCurve)
    (ht : bc.VirtualTokenReserves = bc'.VirtualTokenReserves)
    (hs : bc.VirtualSolReserves / LAMPORTS_PER_SOL = bc'.VirtualSolReserves / LAMPORTS_PER_SOL) :
    solTokenPrice bc = solTokenPrice bc' := by
  simp only [solTokenPrice, ht, hs]

/-- The price of the initial curve, 30 whole sol over 1073000000000000 virtual
tokens: the binary64 value nearest to `28 * 10^-9`. -/
theorem solTokenPrice_initial (bc : BondingCurve)
    (hv : bc.VirtualTokenReserves = 1073000000000000)
    (hr : bc.VirtualSolReserves / LAMPORTS_PER_SOL = 30) :
    solTokenPrice bc = .fin (2115620184325601 / 75557863725914323419136) := by
  have d1 : F64.fin 30 / F64.fin 1073000000000000 = F64.fin (4430279357740783 / 158456325028528675187087900672) :=
    F64.div_eval 30 1073000000000000 (4430279357740783 / 158456325028528675187087900672) (1 / 316912650057057350374175801344) (-46) 8860558715481566 (by norm_num) (by norm_num) (by norm_num) (by norm_num) (by norm_num)
      (roundHalfEven_of_lt _ _ (by norm_num) (by norm_num)) (by norm_num) (by norm_num) (by norm_num)
  have d2 : F64.fin (4430279357740783 / 158456325028528675187087900672) * F64.fin 1000000 = F64.fin (8450087275964323 / 302231454903657293676544) :=
    F64.mul_eval (4430279357740783 / 158456325028528675187087900672) 1000000 (8450087275964323 / 302231454903657293676544) (1 / 302231454903657293676544) (-26) 8450087275964323 (by norm_num) (by norm_num) (by norm_num) (by norm_num)
      (roundHalfEven_of_lt _ _ (by norm_num) (by norm_num)) (by norm_num) (by norm_num) (by norm_num)
  have d3 : F64.fin (8450087275964323 / 302231454903657293676544) * F64.fin 1000000000 = F64.fin (7869757037576589 / 281474976710656) :=
    F64.mul_eval (8450087275964323 / 302231454903657293676544) 1000000000 (7869757037576589 / 281474976710656) (1 / 281474976710656) (4) 7869757037576589 (by norm_num) (by norm_num) (by norm_num) (by norm_num)
      (roundHalfEven_of_lt _ _ (by norm_num) (by norm_num)) (by norm_num) (by norm_num) (by norm_num)
  have d4 : F64.fin 28 / F64.fin 1000000000 = F64.fin (2115620184325601 / 75557863725914323419136) :=
    F64.div_eval 28 1000000000 (2115620184325601 / 75557863725914323419136) (1 / 302231454903657293676544) (-26) 8462480737302404 (by norm_num) (by norm_num) (by norm_num) (by norm_num) (by norm_num)
      (roundHalfEven_of_lt _ _ (by norm_num) (by norm_num)) (by norm_num) (by norm_num) (by norm_num)
  have hfl : ⌊(7869757037576589 / 281474976710656 + 1 / 2 : ℚ)⌋ = 28 := by
    rw [Int.floor_eq_iff]
    constructor <;> norm_num
  have a1 : F64.ofUint64 30 = .fin 30 := by
    simpa using F64.ofUint64_small 30 (by norm_num)
  have a2 : F64.ofUint64 1073000000000000 = .fin 1073000000000000 := by
    simpa using F64.ofUint64_small 1073000000000000 (by norm_num)
  simp only [solTokenPrice, hv, hr]
  rw [a1, a2, d1, d2, d3, F64.Round_fin, if_pos (by norm_num), hfl]
  simpa using d4

theorem round64_28e9 : round64 (28 / 10 ^ 9) = 2115620184325601 / 75557863725914323419136 := by
  have h := round64_eval (28 / 10 ^ 9) (1 / 302231454903657293676544) (-26) 8462480737302404 (by norm_num) (by norm_num)
    (by norm_num) (by norm_num) (roundHalfEven_of_lt _ _ (by norm_num) (by norm_num))
  rw [h]
  norm_num

/-- C8: the claim is that the price is the rounded exact ratio of the reserves,
so that snapshots whose virtual sol reserves differ by less than `10^9` are not
forced to the same price.  The code divides the reserve by `LAMPORTS_PER_SOL`
as a `uint64` before converting it: with 1073000000000000 virtual tokens, the
reserves 30999999999 and 30000000000 both get the same price, the binary64
value nearest to `28 * 10^-9`, whereas the claimed formula gives `29 * 10^-9`
for the first. -/
theorem solTokenPrice_truncates_reserve :
    solTokenPrice ⟨1073000000000000, 30999999999, 0, 0, 0, false⟩
      = .fin (round64 (28 / 10 ^ 9)) ∧
    solTokenPrice ⟨1073000000000000, 30000000000, 0, 0, 0, false⟩
      = .fin (round64 (28 / 10 ^ 9)) ∧
    |round64 (28 / 10 ^ 9) - 28 / 10 ^ 9| < 1 / 10 ^ 24 ∧
    specUnitPrice ⟨1073000000000000, 30999999999, 0, 0, 0, false⟩ = 29 / 10 ^ 9 ∧
    specUnitPrice ⟨1073000000000000, 30000000000, 0, 0, 0, false⟩ = 28 / 10 ^ 9 := by
  refine ⟨?_, ?_, ?_, ?_, ?_⟩
  · rw [round64_28e9]
    exact solTokenPrice_initial _ rfl (by decide)
  · rw [round64_28e9]
    exact solTokenPrice_initial _ rfl (by decide)
  · rw [round64_28e9, abs_lt]
    constructor <;> norm_num
  · simp only [specUnitPrice, round9, round_eq]
    norm_num [Int.floor_eq_iff]
  · simp only [specUnitPrice, round9, round_eq]
    norm_num [Int.floor_eq_iff]

theorem solTokenPrice_zero_tokens (bc : BondingCurve) (h : bc.VirtualTokenReserves = 0) :
    solTokenPrice bc
      = if bc.VirtualSolReserves / LAMPORTS_PER_SOL = 0 then .nan else .inf false := by
  have hz : F64.ofUint64 0 = .fin 0 := by simpa [F64.ofUint64] using F64.ofRat_zero
  simp only [solTokenPrice, h, hz]
  rcases F64.ofUint64_cases (bc.VirtualSolReserves / LAMPORTS_PER_SOL) with
    ⟨h0, hv⟩ | ⟨h0, r, hr, hv⟩ | ⟨h0, hv⟩
  · rw [hv, if_pos h0]
    rfl
  · rw [hv, if_neg (by omega)]
    have hneg : ¬ r < 0 := not_lt.mpr hr.le
    have h1 : F64.fin r / F64.fin 0 = .inf false := by
      simp [F64.fin_div_fin, hr.ne', hneg]
    rw [h1]
    rfl
  · rw [hv, if_neg (by omega)]
    rfl

/-- C9, the claim refuted on an input: the curve account holds 0 virtual token
reserves and 30000000000 virtual sol reserves, the coin spends 1/2 with
slippage 1/4.  The decode succeeds, the price is `+Inf`, and `Buy` returns the
transaction identifier of the network with no error, after assembling the four
instructions with a swap payload whose token amount is 0 (the conversion of
`0.5 / +Inf`) and whose bound is 625000000. -/
theorem zero_reserve_buy_is_submitted :
    decodeBondingData (exampleAccount 0 30000000000)
      = .ok ⟨0, 30000000000, 793100000000000, 0, 1000000000000000, false⟩ ∧
    solTokenPrice ⟨0, 30000000000, 793100000000000, 0, 1000000000000000, false⟩
      = .inf false ∧
    (exampleCoin.Buy saturating exampleLibrary
        (exampleClient (exampleAccount 0 30000000000)) exampleOwner).ret
      = .values ⟨List.replicate 64 1⟩ none ∧
    (exampleCoin.Buy saturating exampleLibrary
        (exampleClient (exampleAccount 0 30000000000)) exampleOwner).calls.take 4
      = [ .FindAssociatedTokenAddress ⟨"OwnerWa11et"⟩ ⟨"ExampleMint"⟩,
          .GetAccountInfoWithOpts ⟨"ExampleCurve"⟩,
          .GetRecentBlockhash,
          .NewTransaction
            [ .SetComputeUnitPrice 517000,
              .SetComputeUnitLimit 72000,
              .CreateAssociatedTokenAccount ⟨"OwnerWa11et"⟩ ⟨"OwnerWa11et"⟩ ⟨"ExampleMint"⟩,
              .NewInstruction ⟨"6EF8rrecthR5Dkzon8Nwu78hRvfCKubJ14M5uBEwF6P"⟩
                (buyAccountKeys exampleCoin ⟨"OwnerTokenAccount"⟩ exampleOwner)
                (buyData 0 625000000) ]
            ⟨"ExampleBlockhash"⟩ ⟨"OwnerWa11et"⟩ ] := by
  have hd : decodeBondingData (exampleAccount 0 30000000000)
      = .ok ⟨0, 30000000000, 793100000000000, 0, 1000000000000000, false⟩ := by decide
  have hp : solTokenPrice ⟨0, 30000000000, 793100000000000, 0, 1000000000000000, false⟩
      = .inf false := by
    rw [solTokenPrice_zero_tokens _ rfl]
    simp [LAMPORTS_PER_SOL]
  have ht : ∀ c : Coin, c.buyAmount = .fin (1 / 2) →
      buyTokenAmoutInInt saturating c
        ⟨0, 30000000000, 793100000000000, 0, 1000000000000000, false⟩ = 0 := by
    intro c hc
    simp only [buyTokenAmoutInInt, buyTokenAmout, hp, hc, F64.fin_div_inf, F64.fin_mul_fin,
      zero_mul, F64.ofRat_zero]
    rw [F64.toUint64_fin _ _ (by norm_num) (by norm_num)]
    norm_num
  have hl : ∀ c : Coin, c.buyAmount = .fin (1 / 2) → c.slippage = .fin (1 / 4) →
      lamportsInWithSlippage saturating c = 625000000 := by
    intro c hc hs
    have e1 : F64.fin 1 + F64.fin (1 / 4) = F64.fin (5 / 4) :=
      F64.add_exact 1 (1 / 4) (5 / 4) 5 (-2) (by norm_num) (by norm_num) (by norm_num) (by norm_num) (by norm_num)
    have e2 : F64.fin (1 / 2) * F64.fin (5 / 4) = F64.fin (5 / 8) :=
      F64.mul_exact (1 / 2) (5 / 4) (5 / 8) 5 (-3) (by norm_num) (by norm_num) (by norm_num) (by norm_num) (by norm_num)
    have e3 : F64.fin (5 / 8) * F64.fin 1000000000 = F64.fin 625000000 :=
      F64.mul_exact (5 / 8) 1000000000 625000000 9765625 (6) (by norm_num) (by norm_num) (by norm_num) (by norm_num) (by norm_num)
    simp only [lamportsInWithSlippage, hc, hs]
    rw [e1, e2, e3]
    exact F64.toUint64_natCast _ 625000000 (by norm_num)
  refine ⟨hd, hp, ?_, ?_⟩
  · simp [Coin.Buy, getAssociatedTokenAddress, getBondingCurveInfos, exampleLibrary,
      exampleClient, hd]
  · simp only [Coin.Buy, getAssociatedTokenAddress, getBondingCurveInfos, exampleLibrary,
      exampleClient, hd, buyInstructions, BuyInstruction]
    rw [ht _ rfl, hl _ rfl rfl]
    rfl

/-- C9, as the code has it: there is no pricing check.  Whenever the address
derivation and the fetch and decode of the curve account succeed, whatever the
snapshot (zero virtual token reserves and a zero price included), the pricing
step does not fail: with zero virtual token reserves the price is `+Inf`, or
NaN when the reserve holds less than one whole sol, and with the price `+Inf`
a finite spend is converted to the token amount 0; `Buy` and `Sell` go on to
request a blockhash, hand the full instruction list to `NewTransaction` when
they get one, and succeed when the remaining steps do; the only errors they
return come from those later steps. -/
theorem pricing_step_never_fails (arch : Arch) (lib : Library) (c : Coin) (client : Client)
    (Owner : PrivateKey) (ta : PublicKey) (bc : BondingCurve)
    (hfind : lib.FindAssociatedTokenAddress Owner.PublicKey c.mintAddress = .ok ta)
    (hacct : getBondingCurveInfos client c.bondingCurveAddress = .ok bc) :
    (bc.VirtualTokenReserves = 0 → solTokenPrice bc
      = if bc.VirtualSolReserves / LAMPORTS_PER_SOL = 0 then .nan else .inf false) ∧
    (bc.VirtualTokenReserves = 0 → LAMPORTS_PER_SOL ≤ bc.VirtualSolReserves →
      ∀ a, c.buyAmount = .fin a → buyTokenAmoutInInt arch c bc = 0) ∧
    (c.Buy arch lib client Owner).calls.take 3
      = [ .FindAssociatedTokenAddress Owner.PublicKey c.mintAddress,
          .GetAccountInfoWithOpts c.bondingCurveAddress, .GetRecentBlockhash ] ∧
    (c.Sell arch lib client Owner).calls.take 2
      = [ .GetAccountInfoWithOpts c.bondingCurveAddress, .GetRecentBlockhash ] ∧
    (∀ bh, client.GetRecentBlockhash = .ok bh →
      (c.Buy arch lib client Owner).calls.get? 3
        = some (.NewTransaction (buyInstructions arch c ta Owner bc) bh Owner.PublicKey) ∧
      (c.Sell arch lib client Owner).calls.get? 2
        = some (.NewTransaction (sellInstructions arch c Owner bc) bh Owner.PublicKey)) ∧
    (∀ bh tx txID, client.GetRecentBlockhash = .ok bh →
      lib.NewTransaction (buyInstructions arch c ta Owner bc) bh Owner.PublicKey = .ok tx →
      client.SendTransactionWithOpts (tx.Sign Owner) = .ok txID →
      (c.Buy arch lib client Owner).ret = .values txID none) ∧
    (∀ bh tx txID, client.GetRecentBlockhash = .ok bh →
      lib.NewTransaction (sellInstructions arch c Owner bc) bh Owner.PublicKey = .ok tx →
      client.SendTransactionWithOpts (tx.Sign Owner) = .ok txID →
      (c.Sell arch lib client Owner).ret = .values txID none) ∧
    (∀ txID e, (c.Buy arch lib client Owner).ret = .values txID (some e) →
      (∃ e', client.GetRecentBlockhash = .error e' ∧
        e = "error getting recent blockhash: " ++ e') ∨
      (∃ bh e', lib.NewTransaction (buyInstructions arch c ta Owner bc) bh Owner.PublicKey
          = .error e' ∧ e = "error creating transaction: " ++ e') ∨
      (∃ tx e', client.SendTransactionWithOpts tx = .error e' ∧
        e = "error sending transaction: " ++ e')) ∧
    (∀ txID e, (c.Sell arch lib client Owner).ret = .values txID (some e) →
      client.GetRecentBlockhash = .error e ∨
      (∃ bh, lib.NewTransaction (sellInstructions arch c Owner bc) bh Owner.PublicKey
          = .error e) ∨
      (∃ tx, client.SendTransactionWithOpts tx = .error e)) := by
  have hB : buyInstructions arch { c with tokenAddress := ta } ta Owner bc
      = buyInstructions arch c ta Owner bc := rfl
  refine ⟨solTokenPrice_zero_tokens bc, ?_, ?_, ?_, ?_, ?_, ?_, ?_, ?_⟩
  · intro hz hs a ha
    have hq : ¬ bc.VirtualSolReserves / LAMPORTS_PER_SOL = 0 := by
      have := Nat.div_pos hs (by decide : 0 < LAMPORTS_PER_SOL)
      omega
    simp only [buyTokenAmoutInInt, buyTokenAmout, solTokenPrice_zero_tokens bc hz, hq,
      if_false, ha, F64.fin_div_inf, F64.fin_mul_fin, zero_mul, F64.ofRat_zero]
    rw [F64.toUint64_fin _ _ (by norm_num) (by norm_num)]
    norm_num
  · simp only [Coin.Buy, getAssociatedTokenAddress, hfind, hacct, hB]
    cases client.GetRecentBlockhash with
    | error e => rfl
    | ok bh =>
      dsimp only
      cases lib.NewTransaction (buyInstructions arch c ta Owner bc) bh Owner.PublicKey with
      | error e => rfl
      | ok tx =>
        dsimp only
        cases client.SendTransactionWithOpts (tx.Sign Owner) <;> rfl
  · simp only [Coin.Sell, hacct]
    cases client.GetRecentBlockhash with
    | error e => rfl
    | ok bh =>
      dsimp only
      cases lib.NewTransaction (sellInstructions arch c Owner bc) bh Owner.PublicKey with
      | error e => rfl
      | ok tx =>
        dsimp only
        cases client.SendTransactionWithOpts (tx.Sign Owner) <;> rfl
  · intro bh hbh
    constructor
    · simp only [Coin.Buy, getAssociatedTokenAddress, hfind, hacct, hbh, hB]
      cases lib.NewTransaction (buyInstructions arch c ta Owner bc) bh Owner.PublicKey with
      | error e => rfl
      | ok tx =>
        dsimp only
        cases client.SendTransactionWithOpts (tx.Sign Owner) <;> rfl
    · simp only [Coin.Sell, hacct, hbh]
      cases lib.NewTransaction (sellInstructions arch c Owner bc) bh Owner.PublicKey with
      | error e => rfl
      | ok tx =>
        dsimp only
        cases client.SendTransactionWithOpts (tx.Sign Owner) <;> rfl
  · intro bh tx txID hbh hnt hs
    simp only [Coin.Buy, getAssociatedTokenAddress, hfind, hacct, hbh, hB, hnt, hs]
  · intro bh tx txID hbh hnt hs
    simp only [Coin.Sell, hacct, hbh, hnt, hs]
  · intro txID e
    simp only [Coin.Buy, getAssociatedTokenAddress, hfind, hacct, hB]
    cases hbh : client.GetRecentBlockhash with
    | error e' =>
      intro h
      simp only [Return.values.injEq, Option.some.injEq] at h
      exact Or.inl ⟨e', rfl, h.2.symm⟩
    | ok bh =>
      dsimp only
      cases hnt : lib.NewTransaction (buyInstructions arch c ta Owner bc) bh Owner.PublicKey with
      | error e' =>
        intro h
        simp only [Return.values.injEq, Option.some.injEq] at h
        exact Or.inr (Or.inl ⟨bh, e', hnt, h.2.symm⟩)
      | ok tx =>
        dsimp only
        cases hs : client.SendTransactionWithOpts (tx.Sign Owner) with
        | error e' =>
          intro h
          simp only [Return.values.injEq, Option.some.injEq] at h
          exact Or.inr (Or.inr ⟨_, e', hs, h.2.symm⟩)
        | ok sig =>
          intro h
          simp at h
  · intro txID e
    simp only [Coin.Sell, hacct]
    cases hbh : client.GetRecentBlockhash with
    | error e' =>
      intro h
      simp only [Return.values.injEq, Option.some.injEq] at h
      exact Or.inl (by rw [h.2])
    | ok bh =>
      dsimp only
      cases hnt : lib.NewTransaction (sellInstructions arch c Owner bc) bh Owner.PublicKey with
      | error e' =>
        intro h
        simp only [Return.values.injEq, Option.some.injEq] at h
        exact Or.inr (Or.inl ⟨bh, by rw [hnt, h.2]⟩)
      | ok tx =>
        dsimp only
        cases hs : client.SendTransactionWithOpts (tx.Sign Owner) with
        | error e' =>
          intro h
          simp only [Return.values.injEq, Option.some.injEq] at h
          exact Or.inr (Or.inr ⟨_, by rw [hs, h.2]⟩)
        | ok sig =>
          intro h
          simp at h

theorem exampleAccount_zero_reserve :
    getBondingCurveInfos (exampleClient (exampleAccount 0 30000000000)) ⟨"ExampleCurve"⟩
      = .ok ⟨0, 30000000000, 793100000000000, 0, 1000000000000000, false⟩ := by
  have hd : decodeBondingData (exampleAccount 0 30000000000)
      = .ok ⟨0, 30000000000, 793100000000000, 0, 1000000000000000, false⟩ := by decide
  simp only [getBondingCurveInfos, exampleClient, hd]

theorem exampleAccount_initial_reserve :
    getBondingCurveInfos (exampleClient (exampleAccount 1073000000000000 30000000000))
        ⟨"ExampleCurve"⟩
      = .ok ⟨1073000000000000, 30000000000, 793100000000000, 0, 1000000000000000, false⟩ := by
  have hd : decodeBondingData (exampleAccount 1073000000000000 30000000000)
      = .ok ⟨1073000000000000, 30000000000, 793100000000000, 0, 1000000000000000, false⟩ := by
    decide
  simp only [getBondingCurveInfos, exampleClient, hd]

theorem pricing_step_never_fails_witness :
    solTokenPrice ⟨0, 30000000000, 793100000000000, 0, 1000000000000000, false⟩
      = (if 30000000000 / LAMPORTS_PER_SOL = 0 then .nan else .inf false) ∧
    (exampleCoin.Buy saturating exampleLibrary
        (exampleClient (exampleAccount 0 30000000000)) exampleOwner).calls.take 3
      = [ .FindAssociatedTokenAddress ⟨"OwnerWa11et"⟩ ⟨"ExampleMint"⟩,
          .GetAccountInfoWithOpts ⟨"ExampleCurve"⟩, .GetRecentBlockhash ] :=
  ⟨(pricing_step_never_fails saturating exampleLibrary exampleCoin
      (exampleClient (exampleAccount 0 30000000000)) exampleOwner ⟨"OwnerTokenAccount"⟩
      ⟨0, 30000000000, 793100000000000, 0, 1000000000000000, false⟩ rfl
      exampleAccount_zero_reserve).1 rfl,
   (pricing_step_never_fails saturating exampleLibrary exampleCoin
      (exampleClient (exampleAccount 0 30000000000)) exampleOwner ⟨"OwnerTokenAccount"⟩
      ⟨0, 30000000000, 793100000000000, 0, 1000000000000000, false⟩ rfl
      exampleAccount_zero_reserve).2.2.1⟩

theorem instruction_list_shape_witness :
    (exampleCoin.Sell saturating exampleLibrary
        (exampleClient (exampleAccount 1073000000000000 30000000000))
        exampleOwner).calls.take 3 =
      [ .GetAccountInfoWithOpts ⟨"ExampleCurve"⟩,
        .GetRecentBlockhash,
        .NewTransaction
          [ .NewInstruction ⟨"6EF8rrecthR5Dkzon8Nwu78hRvfCKubJ14M5uBEwF6P"⟩
              (sellAccountKeys exampleCoin exampleOwner)
              ([51, 230, 133, 164, 1, 127, 131, 173]
                ++ putUint64 (sellTokenAmoutInInt saturating exampleCoin)
                ++ putUint64 (lamportsOutWithSlippage saturating exampleCoin
                    ⟨1073000000000000, 30000000000, 793100000000000, 0, 1000000000000000,
                      false⟩)) ]
          ⟨"ExampleBlockhash"⟩ ⟨"OwnerWa11et"⟩ ] :=
  (instruction_list_shape saturating exampleLibrary exampleCoin
    (exampleClient (exampleAccount 1073000000000000 30000000000)) exampleOwner
    ⟨"OwnerTokenAccount"⟩
    ⟨1073000000000000, 30000000000, 793100000000000, 0, 1000000000000000, false⟩
    ⟨"ExampleBlockhash"⟩ rfl exampleAccount_initial_reserve rfl).2.2.2.2.1

/-! ## Slippage bounds -/

theorem round64_one : round64 1 = 1 := by
  simpa using round64_natCast 1 (by norm_num)

theorem round64_two : round64 2 = 2 := by
  simpa using round64_natCast 2 (by norm_num)

/-- A literal `float64`: the value is given with its significand and exponent. -/
theorem round64_of_dyadic (x : ℚ) (m : ℕ) (k : ℤ) (hm : m < 2 ^ 53) (hk : -1074 ≤ k)
    (hx : x = (m : ℚ) * (2 : ℚ) ^ k) : round64 x = x := by
  rw [hx]
  exact round64_dyadic m k hm hk

theorem round64_ge_of_normal (x : ℚ) (h : (2 : ℚ) ^ (-1022 : ℤ) ≤ x) :
    x * (1 - 1 / 2 ^ 53) ≤ round64 x := by
  have := (abs_le.mp (abs_round64_sub_le x h)).1
  linarith

theorem round64_le_of_normal (x : ℚ) (h : (2 : ℚ) ^ (-1022 : ℤ) ≤ x) :
    round64 x ≤ x * (1 + 1 / 2 ^ 53) := by
  have := (abs_le.mp (abs_round64_sub_le x h)).2
  linarith

namespace F64

/-- The result of an operation with a non-negative exact result is the rounded
value or, beyond the finite range, the positive infinity. -/
theorem ofRat_nonneg_cases (x : ℚ) (h0 : 0 ≤ x) :
    (ofRat x = fin (round64 x) ∧ round64 x < 2 ^ 1024) ∨ ofRat x = inf false := by
  unfold ofRat
  rw [abs_of_nonneg (round64_nonneg x h0)]
  split_ifs with h
  · exact Or.inl ⟨rfl, h⟩
  · right
    have : ¬ x < 0 := not_lt.mpr h0
    simp [this]

theorem ofRat_of_le (x b : ℚ) (h0 : 0 ≤ x) (hb : round64 x ≤ b) (hb' : b < 2 ^ 1024) :
    ofRat x = fin (round64 x) := by
  unfold ofRat
  rw [abs_of_nonneg (round64_nonneg x h0), if_pos (lt_of_le_of_lt hb hb')]

theorem not_inUint64_inf_mul (s : Bool) (b : ℚ) : ¬ inUint64 (inf s * fin b) := by
  have h : inf s * fin b = if b = 0 then nan else inf (xor s (decide (b < 0))) := rfl
  rw [h]
  split_ifs <;> simp [inUint64]

theorem toUint64_of_inUint64 (arch : Arch) (q : ℚ) (h : inUint64 (fin q)) :
    toUint64 arch (fin q) = ⌊q⌋.toNat := by
  have h' : -1 < q ∧ q < 2 ^ 64 := h
  simp [toUint64, h'.1, h'.2]

end F64

/-- The three roundings of the max-in computation: when the slipped lamport
amount is a value whose truncation is a `uint64`, every intermediate result
is finite. -/
theorem lamportsIn_finite (spend s : ℚ) (hspend : 0 ≤ spend) (h0 : 0 ≤ s) (h1 : s < 1)
    (hr : F64.inUint64 (F64.fin spend * (F64.fin 1 + F64.fin s) * F64.fin 1000000000)) :
    F64.fin 1 + F64.fin s = .fin (round64 (1 + s)) ∧
    F64.fin spend * F64.fin (round64 (1 + s)) = .fin (round64 (spend * round64 (1 + s))) ∧
    round64 (spend * round64 (1 + s)) < 2 ^ 1024 ∧
    F64.fin (round64 (spend * round64 (1 + s))) * F64.fin 1000000000
      = .fin (round64 (round64 (spend * round64 (1 + s)) * 1000000000)) ∧
    round64 (round64 (spend * round64 (1 + s)) * 1000000000) < 2 ^ 64 := by
  have hX1 : 1 ≤ round64 (1 + s) := by
    have := round64_mono 1 (1 + s) (by norm_num) (by linarith)
    rwa [round64_one] at this
  have hX2 : round64 (1 + s) ≤ 2 := by
    have := round64_mono (1 + s) 2 (by linarith) (by linarith)
    rwa [round64_two] at this
  have e1 : F64.fin 1 + F64.fin s = .fin (round64 (1 + s)) := by
    rw [F64.fin_add_fin]
    exact F64.ofRat_of_le _ 2 (by linarith) hX2
      (lt_trans (by norm_num) F64.two_pow_lt_max)
  rw [e1] at hr
  have hW0 : 0 ≤ spend * round64 (1 + s) := mul_nonneg hspend (by linarith)
  rcases F64.ofRat_nonneg_cases (spend * round64 (1 + s)) hW0 with ⟨e2, hW⟩ | e2
  · rw [F64.fin_mul_fin, e2] at hr
    have hY0 : 0 ≤ round64 (spend * round64 (1 + s)) * 1000000000 :=
      mul_nonneg (round64_nonneg _ hW0) (by norm_num)
    rcases F64.ofRat_nonneg_cases _ hY0 with ⟨e3, _⟩ | e3
    · rw [F64.fin_mul_fin, e3] at hr
      exact ⟨e1, by rw [F64.fin_mul_fin, e2], hW, by rw [F64.fin_mul_fin, e3], hr.2⟩
    · rw [F64.fin_mul_fin, e3] at hr
      exact absurd hr (by simp [F64.inUint64])
  · rw [F64.fin_mul_fin, e2] at hr
    exact absurd hr (F64.not_inUint64_inf_mul _ _)

/-- The rounding error of a non-negative value: a relative `2^-53`, or in the
subnormal range at most the smallest normal number. -/
theorem round64_le_add (x : ℚ) (h0 : 0 ≤ x) :
    round64 x ≤ x * (1 + 1 / 2 ^ 53) + (2 : ℚ) ^ (-1022 : ℤ) := by
  have hd : (0 : ℚ) < (2 : ℚ) ^ (-1022 : ℤ) := zpow_pos (by norm_num) _
  by_cases h : (2 : ℚ) ^ (-1022 : ℤ) ≤ x
  · have := round64_le_of_normal x h
    generalize (2 : ℚ) ^ (-1022 : ℤ) = d at *
    linarith
  · have h1 := round64_mono x ((2 : ℚ) ^ (-1022 : ℤ)) h0 (not_le.mp h).le
    have h2 : round64 ((2 : ℚ) ^ (-1022 : ℤ)) = (2 : ℚ) ^ (-1022 : ℤ) := by
      simpa using round64_dyadic 1 (-1022) (by norm_num) (by norm_num)
    rw [h2] at h1
    have h3 : 0 ≤ x * (1 + 1 / 2 ^ 53) := mul_nonneg h0 (by norm_num)
    generalize (2 : ℚ) ^ (-1022 : ℤ) = d at *
    linarith

theorem round64_ge_sub (x : ℚ) (h0 : 0 ≤ x) :
    x * (1 - 1 / 2 ^ 53) - (2 : ℚ) ^ (-1022 : ℤ) ≤ round64 x := by
  have hd : (0 : ℚ) < (2 : ℚ) ^ (-1022 : ℤ) := zpow_pos (by norm_num) _
  by_cases h : (2 : ℚ) ^ (-1022 : ℤ) ≤ x
  · have := round64_ge_of_normal x h
    generalize (2 : ℚ) ^ (-1022 : ℤ) = d at *
    linarith
  · have h1 := round64_nonneg x h0
    have h3 : x * (1 - 1 / 2 ^ 53) ≤ x * 1 := mul_le_mul_of_nonneg_left (by norm_num) h0
    have h4 := not_le.mp h
    generalize (2 : ℚ) ^ (-1022 : ℤ) = d at *
    linarith

/-- A value whose lamport amount rounds below `2^64` is below `2^35`. -/
theorem lt_of_round64_lamports_lt (a : ℚ) (h : round64 (a * 1000000000) < 2 ^ 64) :
    a < 2 ^ 35 := by
  by_contra hc
  have ha : (2 : ℚ) ^ 35 ≤ a := not_lt.mp hc
  have h1 : (2 : ℚ) ^ 64 ≤ a * 1000000000 := by
    have : (2 : ℚ) ^ 35 * 1000000000 ≤ a * 1000000000 :=
      mul_le_mul_of_nonneg_right ha (by norm_num)
    have h2 : (2 : ℚ) ^ 64 ≤ (2 : ℚ) ^ 35 * 1000000000 := by norm_num
    linarith
  have h3 := round64_mono _ _ (by norm_num) h1
  have h4 : round64 ((2 : ℚ) ^ 64) = (2 : ℚ) ^ 64 :=
    round64_of_dyadic _ 1 64 (by norm_num) (by norm_num) (by norm_num)
  rw [h4] at h3
  linarith

/-- The accumulated error of `fl(fl(a * fl(b)) * 10^9)`. -/
theorem round64_chain (a b : ℚ) (ha : 0 ≤ a) (ha' : a < 2 ^ 35) (hb : 0 ≤ b) :
    a * b * 1000000000 * (1 - 3 / 2 ^ 53) - 2 ^ 70 * (2 : ℚ) ^ (-1022 : ℤ)
      ≤ round64 (round64 (a * round64 b) * 1000000000) ∧
    round64 (round64 (a * round64 b) * 1000000000)
      ≤ a * b * 1000000000 * (1 + 4 / 2 ^ 53) + 2 ^ 70 * (2 : ℚ) ^ (-1022 : ℤ) := by
  have hd : (0 : ℚ) < (2 : ℚ) ^ (-1022 : ℤ) := zpow_pos (by norm_num) _
  have hX0 : 0 ≤ round64 b := round64_nonneg b hb
  have haX0 : 0 ≤ a * round64 b := mul_nonneg ha hX0
  have hW0 : 0 ≤ round64 (a * round64 b) := round64_nonneg _ haX0
  have hW9 : 0 ≤ round64 (a * round64 b) * 1000000000 := mul_nonneg hW0 (by norm_num)
  have l1 := round64_ge_sub b hb
  have l2 := round64_ge_sub _ haX0
  have l3 := round64_ge_sub _ hW9
  have u1 := round64_le_add b hb
  have u2 := round64_le_add _ haX0
  have u3 := round64_le_add _ hW9
  generalize (2 : ℚ) ^ (-1022 : ℤ) = d at *
  have hab : 0 ≤ a * b := mul_nonneg ha hb
  have had : a * d ≤ 2 ^ 35 * d := mul_le_mul_of_nonneg_right ha'.le hd.le
  have had0 : 0 ≤ a * d := mul_nonneg ha hd.le
  constructor
  · have m1 : a * (b * (1 - 1 / 2 ^ 53) - d) ≤ a * round64 b :=
      mul_le_mul_of_nonneg_left l1 ha
    have k : a * b * 1000000000 * (1 - 3 / 2 ^ 53)
        ≤ a * b * 1000000000 * (1 - 1 / 2 ^ 53) ^ 3 :=
      mul_le_mul_of_nonneg_left (by norm_num) (mul_nonneg hab (by norm_num))
    have e : a * (b * (1 - 1 / 2 ^ 53) - d) = a * b * (1 - 1 / 2 ^ 53) - a * d := by ring
    rw [e] at m1
    have t1 : a * b * (1 - 1 / 2 ^ 53) - 2 ^ 35 * d ≤ a * round64 b := by linarith
    have t2 : (a * b * (1 - 1 / 2 ^ 53) - 2 ^ 35 * d) * (1 - 1 / 2 ^ 53) - d
        ≤ round64 (a * round64 b) := by
      have := mul_le_mul_of_nonneg_right t1 (by norm_num : (0 : ℚ) ≤ 1 - 1 / 2 ^ 53)
      linarith
    have t3 : ((a * b * (1 - 1 / 2 ^ 53) - 2 ^ 35 * d) * (1 - 1 / 2 ^ 53) - d) * 1000000000
          * (1 - 1 / 2 ^ 53) - d
        ≤ round64 (round64 (a * round64 b) * 1000000000) := by
      have := mul_le_mul_of_nonneg_right
        (mul_le_mul_of_nonneg_right t2 (by norm_num : (0 : ℚ) ≤ 1000000000))
        (by norm_num : (0 : ℚ) ≤ 1 - 1 / 2 ^ 53)
      linarith
    have t4 : a * b * 1000000000 * (1 - 1 / 2 ^ 53) ^ 3 - 2 ^ 70 * d
        ≤ ((a * b * (1 - 1 / 2 ^ 53) - 2 ^ 35 * d) * (1 - 1 / 2 ^ 53) - d) * 1000000000
          * (1 - 1 / 2 ^ 53) - d := by
      have e2 : ((a * b * (1 - 1 / 2 ^ 53) - 2 ^ 35 * d) * (1 - 1 / 2 ^ 53) - d) * 1000000000
          * (1 - 1 / 2 ^ 53) - d
          = a * b * 1000000000 * (1 - 1 / 2 ^ 53) ^ 3
            - (2 ^ 35 * (1 - 1 / 2 ^ 53) ^ 2 * 1000000000
                + 1000000000 * (1 - 1 / 2 ^ 53) + 1) * d := by ring
      rw [e2]
      have c : (2 ^ 35 * (1 - 1 / 2 ^ 53) ^ 2 * 1000000000
          + 1000000000 * (1 - 1 / 2 ^ 53) + 1 : ℚ) ≤ 2 ^ 70 := by norm_num
      have := mul_le_mul_of_nonneg_right c hd.le
      linarith
    linarith
  · have m1 : a * round64 b ≤ a * (b * (1 + 1 / 2 ^ 53) + d) :=
      mul_le_mul_of_nonneg_left u1 ha
    have k : a * b * 1000000000 * (1 + 1 / 2 ^ 53) ^ 3
        ≤ a * b * 1000000000 * (1 + 4 / 2 ^ 53) :=
      mul_le_mul_of_nonneg_left (by norm_num) (mul_nonneg hab (by norm_num))
    have e : a * (b * (1 + 1 / 2 ^ 53) + d) = a * b * (1 + 1 / 2 ^ 53) + a * d := by ring
    rw [e] at m1
    have t1 : a * round64 b ≤ a * b * (1 + 1 / 2 ^ 53) + 2 ^ 35 * d := by linarith
    have t2 : round64 (a * round64 b)
        ≤ (a * b * (1 + 1 / 2 ^ 53) + 2 ^ 35 * d) * (1 + 1 / 2 ^ 53) + d := by
      have := mul_le_mul_of_nonneg_right t1 (by norm_num : (0 : ℚ) ≤ 1 + 1 / 2 ^ 53)
      linarith
    have t3 : round64 (round64 (a * round64 b) * 1000000000)
        ≤ ((a * b * (1 + 1 / 2 ^ 53) + 2 ^ 35 * d) * (1 + 1 / 2 ^ 53) + d) * 1000000000
          * (1 + 1 / 2 ^ 53) + d := by
      have := mul_le_mul_of_nonneg_right
        (mul_le_mul_of_nonneg_right t2 (by norm_num : (0 : ℚ) ≤ 1000000000))
        (by norm_num : (0 : ℚ) ≤ 1 + 1 / 2 ^ 53)
      linarith
    have t4 : ((a * b * (1 + 1 / 2 ^ 53) + 2 ^ 35 * d) * (1 + 1 / 2 ^ 53) + d) * 1000000000
          * (1 + 1 / 2 ^ 53) + d
        ≤ a * b * 1000000000 * (1 + 1 / 2 ^ 53) ^ 3 + 2 ^ 70 * d := by
      have e2 : ((a * b * (1 + 1 / 2 ^ 53) + 2 ^ 35 * d) * (1 + 1 / 2 ^ 53) + d) * 1000000000
          * (1 + 1 / 2 ^ 53) + d
          = a * b * 1000000000 * (1 + 1 / 2 ^ 53) ^ 3
            + (2 ^ 35 * (1 + 1 / 2 ^ 53) ^ 2 * 1000000000
                + 1000000000 * (1 + 1 / 2 ^ 53) + 1) * d := by ring
      rw [e2]
      have c : (2 ^ 35 * (1 + 1 / 2 ^ 53) ^ 2 * 1000000000
          + 1000000000 * (1 + 1 / 2 ^ 53) + 1 : ℚ) ≤ 2 ^ 70 := by norm_num
      have := mul_le_mul_of_nonneg_right c hd.le
      linarith
    linarith

/-- From the accumulated rounding error to the truncated lamport amount: it is
within one lamport and a relative `2^-50` of the exact amount `E`. -/
theorem floor_toNat_bounds (E Y : ℚ) (hE : 0 ≤ E) (hY0 : 0 ≤ Y)
    (hlo : E * (1 - 6 / 2 ^ 53) - 2 ^ 80 * (2 : ℚ) ^ (-1022 : ℤ) ≤ Y)
    (hhi : Y ≤ E * (1 + 6 / 2 ^ 53) + 2 ^ 80 * (2 : ℚ) ^ (-1022 : ℤ)) :
    E * (1 - 1 / 2 ^ 50) - 1 < ((⌊Y⌋.toNat : ℕ) : ℚ) ∧
    ((⌊Y⌋.toNat : ℕ) : ℚ) ≤ E * (1 + 1 / 2 ^ 50) := by
  have hd : (2 : ℚ) ^ 80 * (2 : ℚ) ^ (-1022 : ℤ) ≤ 1 / 2 ^ 54 := by
    have h5 : (2 : ℚ) ^ (-1022 : ℤ) ≤ (2 : ℚ) ^ (-134 : ℤ) :=
      zpow_le_zpow_right₀ (by norm_num) (by norm_num)
    have h6 : (2 : ℚ) ^ 80 * (2 : ℚ) ^ (-134 : ℤ) = 1 / 2 ^ 54 := by norm_num
    have := mul_le_mul_of_nonneg_left h5 (by norm_num : (0 : ℚ) ≤ 2 ^ 80)
    linarith
  generalize (2 : ℚ) ^ 80 * (2 : ℚ) ^ (-1022 : ℤ) = j at hd hlo hhi
  have hpos : 0 ≤ ⌊Y⌋ := Int.floor_nonneg.mpr hY0
  rw [← Int.cast_natCast, Int.toNat_of_nonneg hpos]
  have hfl := Int.lt_floor_add_one Y
  have hfl' := Int.floor_le Y
  have hposq : (0 : ℚ) ≤ ⌊Y⌋ := by exact_mod_cast hpos
  constructor
  · by_cases h : 1 / 2 ≤ E
    · linarith
    · have : E * (1 - 1 / 2 ^ 50) ≤ E * 1 := mul_le_mul_of_nonneg_left (by norm_num) hE
      linarith [not_le.mp h]
  · by_cases h : ⌊Y⌋ ≤ 0
    · have h0 : ⌊Y⌋ = 0 := le_antisymm h hpos
      rw [h0]
      have : 0 ≤ E * (1 + 1 / 2 ^ 50) := mul_nonneg hE (by norm_num)
      simpa using this
    · have h1 : (1 : ℤ) ≤ ⌊Y⌋ := by omega
      have h1q : (1 : ℚ) ≤ ⌊Y⌋ := by exact_mod_cast h1
      have hE2 : 1 / 2 ≤ E := by
        by_contra hc
        have : E * (1 + 6 / 2 ^ 53) ≤ 1 / 2 * (1 + 6 / 2 ^ 53) :=
          mul_le_mul_of_nonneg_right (not_le.mp hc).le (by norm_num)
        linarith
      linarith

/-- C10, as the code has it, in binary64 arithmetic: for a `float64` spend above
0 and slippages `0 ≤ s1 ≤ s2 < 1` such that the slipped lamport amount computed
for `s2` is a value whose truncation is a `uint64`, the max-in of the buy
payload is the truncation of the three-times rounded product
`fl(fl(spend * fl(1 + s)) * 10^9)`, within one lamport and `2^-50` of the exact
amount `spend * (1 + s) * 10^9`; it is at least the truncated lamport amount
`uint64(spend * 10^9)` that the same arithmetic gives the unslipped spend, and
falls short of the exact amount `spend * 10^9` by less than one lamport plus
`2^-53` of the amount; it does not decrease when the slippage grows; and it
strictly increases as soon as the exact slipped amounts are more than one
lamport plus `2^-50` of the amount apart. -/
theorem lamportsInWithSlippage_monotone (arch : Arch) (c : Coin) (spend s1 s2 : ℚ)
    (hrep : round64 spend = spend) (hspend : 0 < spend) (h0 : 0 ≤ s1) (h12 : s1 ≤ s2)
    (h2 : s2 < 1)
    (hr : F64.inUint64 (F64.fin spend * (F64.fin 1 + F64.fin s2) * F64.fin 1000000000)) :
    lamportsInWithSlippage arch { c with buyAmount := .fin spend, slippage := .fin s1 }
      = ⌊round64 (round64 (spend * round64 (1 + s1)) * 1000000000)⌋.toNat ∧
    lamportsInWithSlippage arch { c with buyAmount := .fin spend, slippage := .fin s2 }
      = ⌊round64 (round64 (spend * round64 (1 + s2)) * 1000000000)⌋.toNat ∧
    spend * (1 + s1) * 10 ^ 9 * (1 - 1 / 2 ^ 50) - 1
      < (lamportsInWithSlippage arch
          { c with buyAmount := .fin spend, slippage := .fin s1 } : ℚ) ∧
    (lamportsInWithSlippage arch
        { c with buyAmount := .fin spend, slippage := .fin s1 } : ℚ)
      ≤ spend * (1 + s1) * 10 ^ 9 * (1 + 1 / 2 ^ 50) ∧
    F64.toUint64 arch (F64.fin spend * F64.fin 1000000000)
      ≤ lamportsInWithSlippage arch { c with buyAmount := .fin spend, slippage := .fin s1 } ∧
    spend * 10 ^ 9 * (1 - 1 / 2 ^ 53) - 1
      < (lamportsInWithSlippage arch
          { c with buyAmount := .fin spend, slippage := .fin s1 } : ℚ) ∧
    lamportsInWithSlippage arch { c with buyAmount := .fin spend, slippage := .fin s1 }
      ≤ lamportsInWithSlippage arch { c with buyAmount := .fin spend, slippage := .fin s2 } ∧
    (1 + spend * (1 + s2) * 10 ^ 9 / 2 ^ 50 ≤ spend * (s2 - s1) * 10 ^ 9 →
      lamportsInWithSlippage arch { c with buyAmount := .fin spend, slippage := .fin s1 }
        < lamportsInWithSlippage arch
            { c with buyAmount := .fin spend, slippage := .fin s2 }) := by
  obtain ⟨a2, b2, hW2, c2, hY2⟩ := lamportsIn_finite spend s2 hspend.le (le_trans h0 h12) h2 hr
  -- the roundings are ordered
  have hX1 : 1 ≤ round64 (1 + s1) := by
    have := round64_mono 1 (1 + s1) (by norm_num) (by linarith)
    rwa [round64_one] at this
  have hX12 : round64 (1 + s1) ≤ round64 (1 + s2) :=
    round64_mono _ _ (by linarith) (by linarith)
  have hX2 : round64 (1 + s2) ≤ 2 := by
    have := round64_mono (1 + s2) 2 (by linarith) (by linarith)
    rwa [round64_two] at this
  have hP1 : spend ≤ spend * round64 (1 + s1) := by
    have := mul_le_mul_of_nonneg_left hX1 hspend.le
    linarith
  have hP12 : spend * round64 (1 + s1) ≤ spend * round64 (1 + s2) :=
    mul_le_mul_of_nonneg_left hX12 hspend.le
  have hW01 : spend ≤ round64 (spend * round64 (1 + s1)) := by
    have := round64_mono spend _ hspend.le hP1
    rwa [hrep] at this
  have hW12 : round64 (spend * round64 (1 + s1)) ≤ round64 (spend * round64 (1 + s2)) :=
    round64_mono _ _ (le_trans hspend.le hP1) hP12
  have hY01 : round64 (spend * 1000000000)
      ≤ round64 (round64 (spend * round64 (1 + s1)) * 1000000000) :=
    round64_mono _ _ (by positivity) (by linarith)
  have hY12 : round64 (round64 (spend * round64 (1 + s1)) * 1000000000)
      ≤ round64 (round64 (spend * round64 (1 + s2)) * 1000000000) :=
    round64_mono _ _ (by linarith [le_trans hspend.le hW01]) (by linarith)
  have hY0 : 0 ≤ round64 (spend * 1000000000) := round64_nonneg _ (by positivity)
  have h64 : (2 : ℚ) ^ 64 < 2 ^ 1024 := pow_lt_pow_right₀ (by norm_num) (by norm_num)
  -- the three computed values
  have v0 : F64.fin spend * F64.fin 1000000000 = .fin (round64 (spend * 1000000000)) := by
    rw [F64.fin_mul_fin]
    exact F64.ofRat_of_le _ _ (by positivity) (le_trans hY01 (le_trans hY12 hY2.le)) h64
  have a1 : F64.fin 1 + F64.fin s1 = .fin (round64 (1 + s1)) := by
    rw [F64.fin_add_fin]
    exact F64.ofRat_of_le _ 2 (by linarith) (le_trans hX12 hX2)
      (lt_trans (by norm_num) F64.two_pow_lt_max)
  have b1 : F64.fin spend * F64.fin (round64 (1 + s1))
      = .fin (round64 (spend * round64 (1 + s1))) := by
    rw [F64.fin_mul_fin]
    exact F64.ofRat_of_le _ _ (le_trans hspend.le hP1) hW12 hW2
  have c1 : F64.fin (round64 (spend * round64 (1 + s1))) * F64.fin 1000000000
      = .fin (round64 (round64 (spend * round64 (1 + s1)) * 1000000000)) := by
    rw [F64.fin_mul_fin]
    exact F64.ofRat_of_le _ _ (by linarith [le_trans hspend.le hW01]) (le_trans hY12 hY2.le) h64
  have L1 : lamportsInWithSlippage arch { c with buyAmount := .fin spend, slippage := .fin s1 }
      = ⌊round64 (round64 (spend * round64 (1 + s1)) * 1000000000)⌋.toNat := by
    simp only [lamportsInWithSlippage]
    rw [a1, b1, c1]
    exact F64.toUint64_fin arch _ (le_trans hY0 hY01) (lt_of_le_of_lt hY12 hY2)
  have L2 : lamportsInWithSlippage arch { c with buyAmount := .fin spend, slippage := .fin s2 }
      = ⌊round64 (round64 (spend * round64 (1 + s2)) * 1000000000)⌋.toNat := by
    simp only [lamportsInWithSlippage]
    rw [a2, b2, c2]
    exact F64.toUint64_fin arch _ (le_trans hY0 (le_trans hY01 hY12)) hY2
  have L0 : F64.toUint64 arch (F64.fin spend * F64.fin 1000000000)
      = ⌊round64 (spend * 1000000000)⌋.toNat := by
    rw [v0]
    exact F64.toUint64_fin arch _ hY0 (lt_of_le_of_lt (le_trans hY01 hY12) hY2)
  have hpos : 0 ≤ ⌊round64 (round64 (spend * round64 (1 + s1)) * 1000000000)⌋ :=
    Int.floor_nonneg.mpr (le_trans hY0 hY01)
  have hbounds : spend * (1 + s1) * 1000000000 * (1 - 1 / 2 ^ 50) - 1
        < ((⌊round64 (round64 (spend * round64 (1 + s1)) * 1000000000)⌋.toNat : ℕ) : ℚ) ∧
      ((⌊round64 (round64 (spend * round64 (1 + s1)) * 1000000000)⌋.toNat : ℕ) : ℚ)
        ≤ spend * (1 + s1) * 1000000000 * (1 + 1 / 2 ^ 50) := by
    have hsp35 : spend < 2 ^ 35 :=
      lt_of_le_of_lt (le_trans hW01 hW12) (lt_of_round64_lamports_lt _ hY2)
    have hE : 0 ≤ spend * (1 + s1) * 1000000000 :=
      mul_nonneg (mul_nonneg hspend.le (by linarith)) (by norm_num)
    obtain ⟨c1, c2⟩ := round64_chain spend (1 + s1) hspend.le hsp35 (by linarith)
    have hd : (0 : ℚ) < (2 : ℚ) ^ (-1022 : ℤ) := zpow_pos (by norm_num) _
    apply floor_toNat_bounds _ _ hE (le_trans hY0 hY01)
    · generalize (2 : ℚ) ^ (-1022 : ℤ) = d at *
      linarith
    · generalize (2 : ℚ) ^ (-1022 : ℤ) = d at *
      linarith
  have e9 : (10 : ℚ) ^ 9 = 1000000000 := by norm_num
  refine ⟨L1, L2, ?_, ?_, ?_, ?_, ?_, ?_⟩
  · rw [L1, e9]
    exact hbounds.1
  · rw [L1, e9]
    exact hbounds.2
  · rw [L0, L1]
    exact Int.toNat_le_toNat (Int.floor_le_floor hY01)
  · rw [L1, ← Int.cast_natCast, Int.toNat_of_nonneg hpos, e9]
    have hfl := Int.lt_floor_add_one (round64 (round64 (spend * round64 (1 + s1)) * 1000000000))
    have hx0 : (0 : ℚ) ≤ spend * 1000000000 := by positivity
    by_cases hn : (2 : ℚ) ^ (-1022 : ℤ) ≤ spend * 1000000000
    · have := round64_ge_of_normal _ hn
      linarith
    · have h5 : (2 : ℚ) ^ (-1022 : ℤ) ≤ (2 : ℚ) ^ (0 : ℤ) :=
        zpow_le_zpow_right₀ (by norm_num) (by norm_num)
      have h6 : spend * 1000000000 < 1 := by
        have := lt_of_lt_of_le (not_le.mp hn) h5
        simpa using this
      have h7 : (0 : ℚ) ≤ ⌊round64 (round64 (spend * round64 (1 + s1)) * 1000000000)⌋ := by
        exact_mod_cast hpos
      have h8 : spend * 1000000000 * (1 - 1 / 2 ^ 53) ≤ spend * 1000000000 * 1 :=
        mul_le_mul_of_nonneg_left (by norm_num) hx0
      linarith
  · rw [L1, L2]
    exact Int.toNat_le_toNat (Int.floor_le_floor hY12)
  · intro hgap
    rw [L1, L2]
    rw [e9] at hgap
    -- the spend is at least one lamport, so every product is in the normal range
    have hsp : (1 : ℚ) / 1000000000 ≤ spend := by
      have hd : s2 - s1 ≤ 1 := by linarith
      have hE : 0 ≤ spend * (1 + s2) * 1000000000 / 2 ^ 50 := by
        apply div_nonneg _ (by norm_num)
        exact mul_nonneg (mul_nonneg hspend.le (by linarith)) (by norm_num)
      have h3 : spend * (s2 - s1) ≤ spend * 1 := mul_le_mul_of_nonneg_left hd hspend.le
      have h4 : 1 ≤ spend * 1000000000 := by nlinarith
      rw [div_le_iff₀ (by norm_num)]
      linarith
    have hmin : (2 : ℚ) ^ (-1022 : ℤ) ≤ 1 / 1000000000 := by
      have h5 : (2 : ℚ) ^ (-1022 : ℤ) ≤ (2 : ℚ) ^ (-30 : ℤ) :=
        zpow_le_zpow_right₀ (by norm_num) (by norm_num)
      have h6 : (2 : ℚ) ^ (-30 : ℤ) ≤ 1 / 1000000000 := by norm_num
      exact le_trans h5 h6
    have hn1 : (2 : ℚ) ^ (-1022 : ℤ) ≤ 1 + s1 := le_trans hmin (by linarith)
    have hn2 : (2 : ℚ) ^ (-1022 : ℤ) ≤ 1 + s2 := le_trans hmin (by linarith)
    have hn3 : (2 : ℚ) ^ (-1022 : ℤ) ≤ spend * round64 (1 + s1) :=
      le_trans hmin (by linarith)
    have hn4 : (2 : ℚ) ^ (-1022 : ℤ) ≤ spend * round64 (1 + s2) :=
      le_trans hmin (by linarith)
    have hn5 : (2 : ℚ) ^ (-1022 : ℤ) ≤ round64 (spend * round64 (1 + s1)) * 1000000000 :=
      le_trans hmin (by linarith)
    have hn6 : (2 : ℚ) ^ (-1022 : ℤ) ≤ round64 (spend * round64 (1 + s2)) * 1000000000 :=
      le_trans hmin (by linarith)
    -- upper bound for `s1`, lower bound for `s2`
    have u1 := round64_le_of_normal _ hn1
    have u2 := round64_le_of_normal _ hn3
    have u3 := round64_le_of_normal _ hn5
    have l1 := round64_ge_of_normal _ hn2
    have l2 := round64_ge_of_normal _ hn4
    have l3 := round64_ge_of_normal _ hn6
    have hup : round64 (round64 (spend * round64 (1 + s1)) * 1000000000)
        ≤ spend * (1 + s1) * 1000000000 * (1 + 1 / 2 ^ 53) ^ 3 := by
      have q1 : spend * round64 (1 + s1) ≤ spend * ((1 + s1) * (1 + 1 / 2 ^ 53)) :=
        mul_le_mul_of_nonneg_left u1 hspend.le
      have q2 : round64 (spend * round64 (1 + s1))
          ≤ spend * ((1 + s1) * (1 + 1 / 2 ^ 53)) * (1 + 1 / 2 ^ 53) :=
        le_trans u2 (mul_le_mul_of_nonneg_right q1 (by norm_num))
      have q3 : round64 (spend * round64 (1 + s1)) * 1000000000 * (1 + 1 / 2 ^ 53)
          ≤ spend * ((1 + s1) * (1 + 1 / 2 ^ 53)) * (1 + 1 / 2 ^ 53) * 1000000000
              * (1 + 1 / 2 ^ 53) :=
        mul_le_mul_of_nonneg_right (mul_le_mul_of_nonneg_right q2 (by norm_num)) (by norm_num)
      calc round64 (round64 (spend * round64 (1 + s1)) * 1000000000)
          ≤ round64 (spend * round64 (1 + s1)) * 1000000000 * (1 + 1 / 2 ^ 53) := u3
        _ ≤ spend * ((1 + s1) * (1 + 1 / 2 ^ 53)) * (1 + 1 / 2 ^ 53) * 1000000000
              * (1 + 1 / 2 ^ 53) := q3
        _ = spend * (1 + s1) * 1000000000 * (1 + 1 / 2 ^ 53) ^ 3 := by ring
    have hlow : spend * (1 + s2) * 1000000000 * (1 - 1 / 2 ^ 53) ^ 3
        ≤ round64 (round64 (spend * round64 (1 + s2)) * 1000000000) := by
      have q1 : spend * ((1 + s2) * (1 - 1 / 2 ^ 53)) ≤ spend * round64 (1 + s2) :=
        mul_le_mul_of_nonneg_left l1 hspend.le
      have q2 : spend * ((1 + s2) * (1 - 1 / 2 ^ 53)) * (1 - 1 / 2 ^ 53)
          ≤ round64 (spend * round64 (1 + s2)) :=
        le_trans (mul_le_mul_of_nonneg_right q1 (by norm_num)) l2
      have q3 : spend * ((1 + s2) * (1 - 1 / 2 ^ 53)) * (1 - 1 / 2 ^ 53) * 1000000000
              * (1 - 1 / 2 ^ 53)
          ≤ round64 (spend * round64 (1 + s2)) * 1000000000 * (1 - 1 / 2 ^ 53) :=
        mul_le_mul_of_nonneg_right (mul_le_mul_of_nonneg_right q2 (by norm_num)) (by norm_num)
      calc spend * (1 + s2) * 1000000000 * (1 - 1 / 2 ^ 53) ^ 3
          = spend * ((1 + s2) * (1 - 1 / 2 ^ 53)) * (1 - 1 / 2 ^ 53) * 1000000000
              * (1 - 1 / 2 ^ 53) := by ring
        _ ≤ round64 (spend * round64 (1 + s2)) * 1000000000 * (1 - 1 / 2 ^ 53) := q3
        _ ≤ round64 (round64 (spend * round64 (1 + s2)) * 1000000000) := l3
    have k1 : (1 : ℚ) - 3 / 2 ^ 53 ≤ (1 - 1 / 2 ^ 53) ^ 3 := by norm_num
    have k2 : ((1 : ℚ) + 1 / 2 ^ 53) ^ 3 ≤ 1 + 4 / 2 ^ 53 := by norm_num
    have hE1 : 0 ≤ spend * (1 + s1) * 1000000000 :=
      mul_nonneg (mul_nonneg hspend.le (by linarith)) (by norm_num)
    have hE2 : 0 ≤ spend * (1 + s2) * 1000000000 :=
      mul_nonneg (mul_nonneg hspend.le (by linarith)) (by norm_num)
    have m1 := mul_le_mul_of_nonneg_left k2 hE1
    have m2 := mul_le_mul_of_nonneg_left k1 hE2
    have hE12 : spend * (1 + s1) * 1000000000 ≤ spend * (1 + s2) * 1000000000 := by
      have := mul_le_mul_of_nonneg_left (by linarith : 1 + s1 ≤ 1 + s2) hspend.le
      linarith
    have hstep : round64 (round64 (spend * round64 (1 + s1)) * 1000000000) + 1
        ≤ round64 (round64 (spend * round64 (1 + s2)) * 1000000000) := by
      have g : spend * (s2 - s1) * 1000000000
          = spend * (1 + s2) * 1000000000 - spend * (1 + s1) * 1000000000 := by ring
      rw [g] at hgap
      have t1 : spend * (1 + s2) * 1000000000 / 2 ^ 50
          = spend * (1 + s2) * 1000000000 * (8 / 2 ^ 53) := by ring
      rw [t1] at hgap
      linarith
    have hfl : ⌊round64 (round64 (spend * round64 (1 + s1)) * 1000000000)⌋ + 1
        ≤ ⌊round64 (round64 (spend * round64 (1 + s2)) * 1000000000)⌋ := by
      apply Int.le_floor.mpr
      push_cast
      have := Int.floor_le (round64 (round64 (spend * round64 (1 + s1)) * 1000000000))
      linarith
    omega

theorem lamportsInWithSlippage_monotone_witness :
    F64.toUint64 saturating (F64.fin (1 / 2) * F64.fin 1000000000)
      ≤ lamportsInWithSlippage saturating
          { exampleCoin with buyAmount := .fin (1 / 2), slippage := .fin (1 / 16) } ∧
    lamportsInWithSlippage saturating
        { exampleCoin with buyAmount := .fin (1 / 2), slippage := .fin (1 / 16) }
      < lamportsInWithSlippage saturating
          { exampleCoin with buyAmount := .fin (1 / 2), slippage := .fin (1 / 4) } := by
  have wa : F64.fin 1 + F64.fin (1 / 4) = F64.fin (5 / 4) :=
    F64.add_exact 1 (1 / 4) (5 / 4) 5 (-2) (by norm_num) (by norm_num) (by norm_num) (by norm_num) (by norm_num)
  have wb : F64.fin (1 / 2) * F64.fin (5 / 4) = F64.fin (5 / 8) :=
    F64.mul_exact (1 / 2) (5 / 4) (5 / 8) 5 (-3) (by norm_num) (by norm_num) (by norm_num) (by norm_num) (by norm_num)
  have wc : F64.fin (5 / 8) * F64.fin 1000000000 = F64.fin 625000000 :=
    F64.mul_exact (5 / 8) 1000000000 625000000 9765625 (6) (by norm_num) (by norm_num) (by norm_num) (by norm_num) (by norm_num)
  have hr : F64.inUint64 (F64.fin (1 / 2) * (F64.fin 1 + F64.fin (1 / 4)) * F64.fin 1000000000) := by
    rw [wa, wb, wc]
    exact ⟨by norm_num, by norm_num⟩
  have h := lamportsInWithSlippage_monotone saturating exampleCoin (1 / 2) (1 / 16) (1 / 4)
    (round64_of_dyadic _ 1 (-1) (by norm_num) (by norm_num) (by norm_num))
    (by norm_num) (by norm_num) (by norm_num) (by norm_num) hr
  exact ⟨h.2.2.2.2.1, h.2.2.2.2.2.2.2 (by norm_num)⟩

/-- C10, the claim refuted on inputs.  With spend 1 the slippages 0 and
`2^-31` are both in `[0,1)` and the second is larger, yet both give the max-in
1000000000, on either platform: the truncation to whole lamports makes the
bound non-decreasing, not strictly increasing.  With the `float64` spend
`4611686021 / 512` and slippage 0 the exact lamport amount is
9007199259765625, halfway between two `float64` values, and the max-in is the
even neighbour 9007199259765624, one lamport less.  And with spend `10^10` and
slippage 7/8 the slipped amount `1.875 * 10^19` is beyond `uint64`, and the
amd64 conversion yields `2^63`, which is below the `10^19` lamports of the
unslipped spend. -/
theorem lamportsInWithSlippage_not_strict :
    (0 : ℚ) < 1 / 2 ^ 31 ∧ (1 : ℚ) / 2 ^ 31 < 1 ∧
    round64 (1 / 2 ^ 31) = 1 / 2 ^ 31 ∧
    ¬ (lamportsInWithSlippage saturating { exampleCoin with buyAmount := .fin 1, slippage := .fin 0 }
        < lamportsInWithSlippage saturating
            { exampleCoin with buyAmount := .fin 1, slippage := .fin (1 / 2 ^ 31) }) ∧
    lamportsInWithSlippage saturating { exampleCoin with buyAmount := .fin 1, slippage := .fin 0 } = 1000000000 ∧
    lamportsInWithSlippage saturating
      { exampleCoin with buyAmount := .fin 1, slippage := .fin (1 / 2 ^ 31) } = 1000000000 ∧
    lamportsInWithSlippage amd64 { exampleCoin with buyAmount := .fin 1, slippage := .fin 0 } = 1000000000 ∧
    lamportsInWithSlippage amd64
      { exampleCoin with buyAmount := .fin 1, slippage := .fin (1 / 2 ^ 31) } = 1000000000 ∧
    round64 (4611686021 / 512) = 4611686021 / 512 ∧
    (4611686021 / 512 : ℚ) * 10 ^ 9 = 9007199259765625 ∧
    lamportsInWithSlippage saturating
      { exampleCoin with buyAmount := .fin (4611686021 / 512), slippage := .fin 0 } = 9007199259765624 ∧
    lamportsInWithSlippage amd64
      { exampleCoin with buyAmount := .fin (4611686021 / 512), slippage := .fin 0 } = 9007199259765624 ∧
    ¬ (F64.toUint64 amd64 (F64.fin 10000000000 * F64.fin 1000000000)
        ≤ lamportsInWithSlippage amd64
            { exampleCoin with buyAmount := .fin 10000000000, slippage := .fin (7 / 8) }) ∧
    lamportsInWithSlippage amd64
      { exampleCoin with buyAmount := .fin 10000000000, slippage := .fin (7 / 8) } = 9223372036854775808 ∧
    F64.toUint64 amd64 (F64.fin 10000000000 * F64.fin 1000000000) = 10000000000000000000 := by
  have pa : F64.fin 1 + F64.fin 0 = F64.fin 1 :=
    F64.add_exact 1 0 1 1 (0) (by norm_num) (by norm_num) (by norm_num) (by norm_num) (by norm_num)
  have pb : F64.fin 1 * F64.fin 1 = F64.fin 1 :=
    F64.mul_exact 1 1 1 1 (0) (by norm_num) (by norm_num) (by norm_num) (by norm_num) (by norm_num)
  have pc : F64.fin 1 * F64.fin 1000000000 = F64.fin 1000000000 :=
    F64.mul_exact 1 1000000000 1000000000 1953125 (9) (by norm_num) (by norm_num) (by norm_num) (by norm_num) (by norm_num)
  have qa : F64.fin 1 + F64.fin (1 / 2147483648) = F64.fin (2147483649 / 2147483648) :=
    F64.add_exact 1 (1 / 2147483648) (2147483649 / 2147483648) 2147483649 (-31) (by norm_num) (by norm_num) (by norm_num) (by norm_num) (by norm_num)
  have qb : F64.fin 1 * F64.fin (2147483649 / 2147483648) = F64.fin (2147483649 / 2147483648) :=
    F64.mul_exact 1 (2147483649 / 2147483648) (2147483649 / 2147483648) 2147483649 (-31) (by norm_num) (by norm_num) (by norm_num) (by norm_num) (by norm_num)
  have qc : F64.fin (2147483649 / 2147483648) * F64.fin 1000000000 = F64.fin (4194304001953125 / 4194304) :=
    F64.mul_exact (2147483649 / 2147483648) 1000000000 (4194304001953125 / 4194304) 4194304001953125 (-22) (by norm_num) (by norm_num) (by norm_num) (by norm_num) (by norm_num)
  have ra : F64.fin 1 + F64.fin 0 = F64.fin 1 :=
    F64.add_exact 1 0 1 1 (0) (by norm_num) (by norm_num) (by norm_num) (by norm_num) (by norm_num)
  have rb : F64.fin (4611686021 / 512) * F64.fin 1 = F64.fin (4611686021 / 512) :=
    F64.mul_exact (4611686021 / 512) 1 (4611686021 / 512) 4611686021 (-9) (by norm_num) (by norm_num) (by norm_num) (by norm_num) (by norm_num)
  have rc : F64.fin (4611686021 / 512) * F64.fin 1000000000 = F64.fin 9007199259765624 :=
    F64.mul_eval (4611686021 / 512) 1000000000 9007199259765624 2 (53) 4503599629882812 (by norm_num) (by norm_num) (by norm_num) (by norm_num)
      (roundHalfEven_tie_even _ 4503599629882812 (by norm_num) (by decide)) (by norm_num) (by norm_num) (by norm_num)
  have sa : F64.fin 1 + F64.fin (7 / 8) = F64.fin (15 / 8) :=
    F64.add_exact 1 (7 / 8) (15 / 8) 15 (-3) (by norm_num) (by norm_num) (by norm_num) (by norm_num) (by norm_num)
  have sb : F64.fin 10000000000 * F64.fin (15 / 8) = F64.fin 18750000000 :=
    F64.mul_exact 10000000000 (15 / 8) 18750000000 146484375 (7) (by norm_num) (by norm_num) (by norm_num) (by norm_num) (by norm_num)
  have sc : F64.fin 18750000000 * F64.fin 1000000000 = F64.fin 18750000000000000000 :=
    F64.mul_exact 18750000000 1000000000 18750000000000000000 286102294921875 (16) (by norm_num) (by norm_num) (by norm_num) (by norm_num) (by norm_num)
  have u : F64.fin 10000000000 * F64.fin 1000000000 = F64.fin 10000000000000000000 :=
    F64.mul_exact 10000000000 1000000000 10000000000000000000 19073486328125 (19) (by norm_num) (by norm_num) (by norm_num) (by norm_num) (by norm_num)
  have f0s : F64.toUint64 saturating (.fin 1000000000) = 1000000000 := by
    rw [F64.toUint64_fin _ _ (by norm_num) (by norm_num)]
    have hfl : ⌊(1000000000 : ℚ)⌋ = 1000000000 := by
      rw [Int.floor_eq_iff]
      constructor <;> norm_num
    rw [hfl]
    rfl
  have f0a : F64.toUint64 amd64 (.fin 1000000000) = 1000000000 := by
    rw [F64.toUint64_fin _ _ (by norm_num) (by norm_num)]
    have hfl : ⌊(1000000000 : ℚ)⌋ = 1000000000 := by
      rw [Int.floor_eq_iff]
      constructor <;> norm_num
    rw [hfl]
    rfl
  have f1s : F64.toUint64 saturating (.fin (4194304001953125 / 4194304)) = 1000000000 := by
    rw [F64.toUint64_fin _ _ (by norm_num) (by norm_num)]
    have hfl : ⌊(4194304001953125 / 4194304 : ℚ)⌋ = 1000000000 := by
      rw [Int.floor_eq_iff]
      constructor <;> norm_num
    rw [hfl]
    rfl
  have f1a : F64.toUint64 amd64 (.fin (4194304001953125 / 4194304)) = 1000000000 := by
    rw [F64.toUint64_fin _ _ (by norm_num) (by norm_num)]
    have hfl : ⌊(4194304001953125 / 4194304 : ℚ)⌋ = 1000000000 := by
      rw [Int.floor_eq_iff]
      constructor <;> norm_num
    rw [hfl]
    rfl
  have f2s : F64.toUint64 saturating (.fin 9007199259765624) = 9007199259765624 := by
    rw [F64.toUint64_fin _ _ (by norm_num) (by norm_num)]
    have hfl : ⌊(9007199259765624 : ℚ)⌋ = 9007199259765624 := by
      rw [Int.floor_eq_iff]
      constructor <;> norm_num
    rw [hfl]
    rfl
  have f2a : F64.toUint64 amd64 (.fin 9007199259765624) = 9007199259765624 := by
    rw [F64.toUint64_fin _ _ (by norm_num) (by norm_num)]
    have hfl : ⌊(9007199259765624 : ℚ)⌋ = 9007199259765624 := by
      rw [Int.floor_eq_iff]
      constructor <;> norm_num
    rw [hfl]
    rfl
  have fu : F64.toUint64 amd64 (.fin 10000000000000000000) = 10000000000000000000 := by
    rw [F64.toUint64_fin _ _ (by norm_num) (by norm_num)]
    have hfl : ⌊(10000000000000000000 : ℚ)⌋ = 10000000000000000000 := by
      rw [Int.floor_eq_iff]
      constructor <;> norm_num
    rw [hfl]
    rfl
  have hq : (1 : ℚ) / 2 ^ 31 = 1 / 2147483648 := by norm_num
  have g0s : lamportsInWithSlippage saturating { exampleCoin with buyAmount := .fin 1, slippage := .fin 0 } = 1000000000 := by
    simp only [lamportsInWithSlippage]
    rw [pa, pb, pc, f0s]
  have g0a : lamportsInWithSlippage amd64 { exampleCoin with buyAmount := .fin 1, slippage := .fin 0 } = 1000000000 := by
    simp only [lamportsInWithSlippage]
    rw [pa, pb, pc, f0a]
  have g1s : lamportsInWithSlippage saturating
      { exampleCoin with buyAmount := .fin 1, slippage := .fin (1 / 2 ^ 31) } = 1000000000 := by
    simp only [lamportsInWithSlippage]
    rw [hq, qa, qb, qc, f1s]
  have g1a : lamportsInWithSlippage amd64
      { exampleCoin with buyAmount := .fin 1, slippage := .fin (1 / 2 ^ 31) } = 1000000000 := by
    simp only [lamportsInWithSlippage]
    rw [hq, qa, qb, qc, f1a]
  have g2s : lamportsInWithSlippage saturating
      { exampleCoin with buyAmount := .fin (4611686021 / 512), slippage := .fin 0 } = 9007199259765624 := by
    simp only [lamportsInWithSlippage]
    rw [ra, rb, rc, f2s]
  have g2a : lamportsInWithSlippage amd64
      { exampleCoin with buyAmount := .fin (4611686021 / 512), slippage := .fin 0 } = 9007199259765624 := by
    simp only [lamportsInWithSlippage]
    rw [ra, rb, rc, f2a]
  have g3 : lamportsInWithSlippage amd64
      { exampleCoin with buyAmount := .fin 10000000000, slippage := .fin (7 / 8) } = 9223372036854775808 := by
    simp only [lamportsInWithSlippage]
    rw [sa, sb, sc]
    norm_num [F64.toUint64, amd64]
  have g4 : F64.toUint64 amd64 (F64.fin 10000000000 * F64.fin 1000000000)
      = 10000000000000000000 := by
    rw [u, fu]
  refine ⟨by norm_num, by norm_num, ?_, ?_, g0s, g1s, g0a, g1a, ?_, by norm_num, g2s, g2a, ?_,
    g3, g4⟩
  · exact round64_of_dyadic _ 1 (-31) (by norm_num) (by norm_num) (by norm_num)
  · rw [g0s, g1s]
    decide
  · exact round64_of_dyadic _ 4611686021 (-9) (by norm_num) (by norm_num) (by norm_num)
  · rw [g3, g4]
    decide

/-- The price of a snapshot with one whole sol and 1000000 virtual tokens is 1:
`fl(10^-6) * 10^6` rounds to 1. -/
theorem solTokenPrice_unit (bc : BondingCurve)
    (hv : bc.VirtualTokenReserves = 1000000)
    (hr : bc.VirtualSolReserves / LAMPORTS_PER_SOL = 1) :
    solTokenPrice bc = .fin 1 := by
  have d1 : F64.fin 1 / F64.fin 1000000 = F64.fin (4722366482869645 / 4722366482869645213696) :=
    F64.div_eval 1 1000000 (4722366482869645 / 4722366482869645213696) (1 / 4722366482869645213696) (-20) 4722366482869645 (by norm_num) (by norm_num) (by norm_num) (by norm_num) (by norm_num)
      (roundHalfEven_of_lt _ _ (by norm_num) (by norm_num)) (by norm_num) (by norm_num) (by norm_num)
  have d2 : F64.fin (4722366482869645 / 4722366482869645213696) * F64.fin 1000000 = F64.fin 1 :=
    F64.mul_eval (4722366482869645 / 4722366482869645213696) 1000000 1 (1 / 9007199254740992) (-1) 9007199254740992 (by norm_num) (by norm_num) (by norm_num) (by norm_num)
      (roundHalfEven_of_lt _ _ (by norm_num) (by norm_num)) (by norm_num) (by norm_num) (by norm_num)
  have d3 : F64.fin 1 * F64.fin 1000000000 = F64.fin 1000000000 :=
    F64.mul_exact 1 1000000000 1000000000 1953125 (9) (by norm_num) (by norm_num) (by norm_num) (by norm_num) (by norm_num)
  have d4 : F64.fin 1000000000 / F64.fin 1000000000 = F64.fin 1 :=
    F64.div_exact 1000000000 1000000000 1 1 (0) (by norm_num) (by norm_num) (by norm_num) (by norm_num) (by norm_num) (by norm_num)
  have hfl : ⌊(1000000000 + 1 / 2 : ℚ)⌋ = 1000000000 := by
    rw [Int.floor_eq_iff]
    constructor <;> norm_num
  have a1 : F64.ofUint64 1 = .fin 1 := by
    simpa using F64.ofUint64_small 1 (by norm_num)
  have a2 : F64.ofUint64 1000000 = .fin 1000000 := by
    simpa using F64.ofUint64_small 1000000 (by norm_num)
  simp only [solTokenPrice, hv, hr]
  rw [a1, a2, d1, d2, d3, F64.Round_fin, if_pos (by norm_num), hfl]
  simpa using d4

/-- The accumulated error of `fl(fl(fl(t) * fl(b)) * 10^9)` for a factor `b` of
`[0,1]`. -/
theorem round64_chain_rounded (t b : ℚ) (ht : 0 ≤ t) (hb0 : 0 ≤ b) (hb1 : b ≤ 1)
    (hP : round64 t < 2 ^ 35) :
    t * b * 1000000000 * (1 - 6 / 2 ^ 53) - 2 ^ 80 * (2 : ℚ) ^ (-1022 : ℤ)
      ≤ round64 (round64 (round64 t * round64 b) * 1000000000) ∧
    round64 (round64 (round64 t * round64 b) * 1000000000)
      ≤ t * b * 1000000000 * (1 + 6 / 2 ^ 53) + 2 ^ 80 * (2 : ℚ) ^ (-1022 : ℤ) := by
  have hd : (0 : ℚ) < (2 : ℚ) ^ (-1022 : ℤ) := zpow_pos (by norm_num) _
  have hP0 : 0 ≤ round64 t := round64_nonneg t ht
  obtain ⟨c1, c2⟩ := round64_chain (round64 t) b hP0 hP hb0
  have l := round64_ge_sub t ht
  have u := round64_le_add t ht
  have htb : 0 ≤ t * b := mul_nonneg ht hb0
  generalize (2 : ℚ) ^ (-1022 : ℤ) = d at *
  have hdb : d * b ≤ d * 1 := mul_le_mul_of_nonneg_left hb1 hd.le
  have hi : round64 t * b ≤ t * b * (1 + 1 / 2 ^ 53) + d := by
    have := mul_le_mul_of_nonneg_right u hb0
    have e : (t * (1 + 1 / 2 ^ 53) + d) * b = t * b * (1 + 1 / 2 ^ 53) + d * b := by ring
    rw [e] at this
    linarith
  have lo : t * b * (1 - 1 / 2 ^ 53) - d ≤ round64 t * b := by
    have := mul_le_mul_of_nonneg_right l hb0
    have e : (t * (1 - 1 / 2 ^ 53) - d) * b = t * b * (1 - 1 / 2 ^ 53) - d * b := by ring
    rw [e] at this
    linarith
  generalize round64 t * b = pb at *
  generalize t * b = tb at *
  constructor
  · linarith
  · linarith

/-- C11, as the code has it, in binary64 arithmetic: for a held amount
`tokens ≥ 0`, a price `≥ 0` and slippages `0 ≤ s1 ≤ s2 < 1` such that the
unslipped lamport amount the code computes, `fl(fl(tokens * price) * 10^9)`, is
a value whose truncation is a `uint64`, the min-out of the sell payload is the
truncation of the four-times rounded product
`fl(fl(fl(tokens * price) * fl(1 - s)) * 10^9)`, within one lamport and `2^-50`
of the exact amount `tokens * price * (1 - s) * 10^9`; the min-out for `s2` is
at most the one for `s1`, which is at most the truncated unslipped proceeds
`uint64(tokens * price * 10^9)` of the same arithmetic, and equal to them at
slippage 0. -/
theorem lamportsOutWithSlippage_antitone (arch : Arch) (c : Coin) (bc : BondingCurve)
    (tokens price s1 s2 : ℚ) (hp : solTokenPrice bc = .fin price)
    (ht : 0 ≤ tokens) (hprice : 0 ≤ price) (h0 : 0 ≤ s1) (h12 : s1 ≤ s2) (h2 : s2 < 1)
    (hr : F64.inUint64 (F64.fin tokens * F64.fin price * F64.fin 1000000000)) :
    lamportsOutWithSlippage arch { c with coinBought := .fin tokens, slippage := .fin s1 } bc
      = ⌊round64 (round64 (round64 (tokens * price) * round64 (1 - s1)) * 1000000000)⌋.toNat ∧
    lamportsOutWithSlippage arch { c with coinBought := .fin tokens, slippage := .fin s2 } bc
      = ⌊round64 (round64 (round64 (tokens * price) * round64 (1 - s2)) * 1000000000)⌋.toNat ∧
    tokens * price * (1 - s1) * 10 ^ 9 * (1 - 1 / 2 ^ 50) - 1
      < (lamportsOutWithSlippage arch
          { c with coinBought := .fin tokens, slippage := .fin s1 } bc : ℚ) ∧
    (lamportsOutWithSlippage arch
        { c with coinBought := .fin tokens, slippage := .fin s1 } bc : ℚ)
      ≤ tokens * price * (1 - s1) * 10 ^ 9 * (1 + 1 / 2 ^ 50) ∧
    lamportsOutWithSlippage arch { c with coinBought := .fin tokens, slippage := .fin s2 } bc
      ≤ lamportsOutWithSlippage arch
          { c with coinBought := .fin tokens, slippage := .fin s1 } bc ∧
    lamportsOutWithSlippage arch { c with coinBought := .fin tokens, slippage := .fin s1 } bc
      ≤ F64.toUint64 arch (F64.fin tokens * F64.fin price * F64.fin 1000000000) ∧
    lamportsOutWithSlippage arch { c with coinBought := .fin tokens, slippage := .fin 0 } bc
      = F64.toUint64 arch (F64.fin tokens * F64.fin price * F64.fin 1000000000) := by
  have hP0 : 0 ≤ tokens * price := mul_nonneg ht hprice
  have hR0 : 0 ≤ round64 (tokens * price) := round64_nonneg _ hP0
  have h64 : (2 : ℚ) ^ 64 < 2 ^ 1024 := pow_lt_pow_right₀ (by norm_num) (by norm_num)
  -- the unslipped proceeds are finite
  have hfin : F64.fin tokens * F64.fin price = .fin (round64 (tokens * price)) ∧
      round64 (tokens * price) < 2 ^ 1024 ∧
      F64.fin (round64 (tokens * price)) * F64.fin 1000000000
        = .fin (round64 (round64 (tokens * price) * 1000000000)) ∧
      round64 (round64 (tokens * price) * 1000000000) < 2 ^ 64 := by
    rcases F64.ofRat_nonneg_cases (tokens * price) hP0 with ⟨e2, hW⟩ | e2
    · rw [F64.fin_mul_fin, e2] at hr
      rcases F64.ofRat_nonneg_cases _ (mul_nonneg hR0 (by norm_num : (0 : ℚ) ≤ 1000000000))
        with ⟨e3, _⟩ | e3
      · rw [F64.fin_mul_fin, e3] at hr
        exact ⟨by rw [F64.fin_mul_fin, e2], hW, by rw [F64.fin_mul_fin, e3], hr.2⟩
      · rw [F64.fin_mul_fin, e3] at hr
        exact absurd hr (by simp [F64.inUint64])
    · rw [F64.fin_mul_fin, e2] at hr
      exact absurd hr (F64.not_inUint64_inf_mul _ _)
  obtain ⟨p1, hP, p2, hU⟩ := hfin
  have hU0 : 0 ≤ round64 (round64 (tokens * price) * 1000000000) :=
    round64_nonneg _ (mul_nonneg hR0 (by norm_num))
  have hidem := round64_idem (tokens * price) hP0
  -- the computation at a slippage of `[0,1)`
  have step : ∀ s : ℚ, 0 ≤ s → s < 1 →
      0 ≤ round64 (1 - s) ∧ round64 (1 - s) ≤ 1 ∧
      0 ≤ round64 (round64 (round64 (tokens * price) * round64 (1 - s)) * 1000000000) ∧
      round64 (round64 (round64 (tokens * price) * round64 (1 - s)) * 1000000000)
        ≤ round64 (round64 (tokens * price) * 1000000000) ∧
      lamportsOutWithSlippage arch { c with coinBought := .fin tokens, slippage := .fin s } bc
        = ⌊round64 (round64 (round64 (tokens * price) * round64 (1 - s))
            * 1000000000)⌋.toNat := by
    intro s hs0 hs1
    have hX0 : 0 ≤ round64 (1 - s) := round64_nonneg _ (by linarith)
    have hX1 : round64 (1 - s) ≤ 1 := by
      have := round64_mono (1 - s) 1 (by linarith) (by linarith)
      rwa [round64_one] at this
    have hPX0 : 0 ≤ round64 (tokens * price) * round64 (1 - s) := mul_nonneg hR0 hX0
    have hPX : round64 (tokens * price) * round64 (1 - s) ≤ round64 (tokens * price) := by
      have := mul_le_mul_of_nonneg_left hX1 hR0
      linarith
    have hW : round64 (round64 (tokens * price) * round64 (1 - s))
        ≤ round64 (tokens * price) := by
      have := round64_mono _ _ hPX0 hPX
      rwa [hidem] at this
    have hW0 : 0 ≤ round64 (round64 (tokens * price) * round64 (1 - s)) :=
      round64_nonneg _ hPX0
    have hY : round64 (round64 (round64 (tokens * price) * round64 (1 - s)) * 1000000000)
        ≤ round64 (round64 (tokens * price) * 1000000000) :=
      round64_mono _ _ (mul_nonneg hW0 (by norm_num)) (by linarith)
    have hY0 : 0 ≤ round64 (round64 (round64 (tokens * price) * round64 (1 - s))
        * 1000000000) := round64_nonneg _ (mul_nonneg hW0 (by norm_num))
    have a1 : F64.fin 1 - F64.fin s = .fin (round64 (1 - s)) := by
      rw [F64.fin_sub_fin]
      exact F64.ofRat_of_le _ 1 (by linarith) hX1 (lt_trans (by norm_num) F64.two_pow_lt_max)
    have b1 : F64.fin (round64 (tokens * price)) * F64.fin (round64 (1 - s))
        = .fin (round64 (round64 (tokens * price) * round64 (1 - s))) := by
      rw [F64.fin_mul_fin]
      exact F64.ofRat_of_le _ _ hPX0 hW hP
    have c1 : F64.fin (round64 (round64 (tokens * price) * round64 (1 - s)))
          * F64.fin 1000000000
        = .fin (round64 (round64 (round64 (tokens * price) * round64 (1 - s))
            * 1000000000)) := by
      rw [F64.fin_mul_fin]
      exact F64.ofRat_of_le _ _ (mul_nonneg hW0 (by norm_num)) (le_trans hY hU.le) h64
    refine ⟨hX0, hX1, hY0, hY, ?_⟩
    simp only [lamportsOutWithSlippage, hp]
    rw [p1, a1, b1, c1]
    exact F64.toUint64_fin arch _ hY0 (lt_of_le_of_lt hY hU)
  obtain ⟨hX10, hX11, hY10, hY1U, L1⟩ := step s1 h0 (lt_of_le_of_lt h12 h2)
  obtain ⟨hX20, hX21, hY20, hY2U, L2⟩ := step s2 (le_trans h0 h12) h2
  obtain ⟨_, _, _, _, L0⟩ := step 0 le_rfl (by norm_num)
  have LU : F64.toUint64 arch (F64.fin tokens * F64.fin price * F64.fin 1000000000)
      = ⌊round64 (round64 (tokens * price) * 1000000000)⌋.toNat := by
    rw [p1, p2]
    exact F64.toUint64_fin arch _ hU0 hU
  have hX12 : round64 (1 - s2) ≤ round64 (1 - s1) :=
    round64_mono _ _ (by linarith) (by linarith)
  have hW12 : round64 (round64 (tokens * price) * round64 (1 - s2))
      ≤ round64 (round64 (tokens * price) * round64 (1 - s1)) :=
    round64_mono _ _ (mul_nonneg hR0 hX20) (mul_le_mul_of_nonneg_left hX12 hR0)
  have hY12 : round64 (round64 (round64 (tokens * price) * round64 (1 - s2)) * 1000000000)
      ≤ round64 (round64 (round64 (tokens * price) * round64 (1 - s1)) * 1000000000) :=
    round64_mono _ _
      (mul_nonneg (round64_nonneg _ (mul_nonneg hR0 hX20)) (by norm_num)) (by linarith)
  have hbounds := floor_toNat_bounds (tokens * price * (1 - s1) * 1000000000) _
    (mul_nonneg (mul_nonneg hP0 (by linarith)) (by norm_num)) hY10
    (round64_chain_rounded (tokens * price) (1 - s1) hP0 (by linarith) (by linarith)
      (lt_of_round64_lamports_lt _ hU)).1
    (round64_chain_rounded (tokens * price) (1 - s1) hP0 (by linarith) (by linarith)
      (lt_of_round64_lamports_lt _ hU)).2
  have e9 : (10 : ℚ) ^ 9 = 1000000000 := by norm_num
  refine ⟨L1, L2, ?_, ?_, ?_, ?_, ?_⟩
  · rw [L1, e9]
    exact hbounds.1
  · rw [L1, e9]
    exact hbounds.2
  · rw [L1, L2]
    exact Int.toNat_le_toNat (Int.floor_le_floor hY12)
  · rw [L1, LU]
    exact Int.toNat_le_toNat (Int.floor_le_floor hY1U)
  · rw [L0, LU]
    have e1 : round64 ((1 : ℚ) - 0) = 1 := by
      rw [sub_zero, round64_one]
    rw [e1, mul_one, hidem]

theorem lamportsOutWithSlippage_antitone_witness :
    lamportsOutWithSlippage saturating
        { exampleCoin with coinBought := .fin 1000, slippage := .fin (1 / 4) }
        ⟨1000000, 1000000000, 0, 0, 0, false⟩
      ≤ lamportsOutWithSlippage saturating
          { exampleCoin with coinBought := .fin 1000, slippage := .fin (1 / 16) }
          ⟨1000000, 1000000000, 0, 0, 0, false⟩ ∧
    lamportsOutWithSlippage saturating
        { exampleCoin with coinBought := .fin 1000, slippage := .fin (1 / 16) }
        ⟨1000000, 1000000000, 0, 0, 0, false⟩
      ≤ F64.toUint64 saturating (F64.fin 1000 * F64.fin 1 * F64.fin 1000000000) := by
  have wa : F64.fin 1000 * F64.fin 1 = F64.fin 1000 :=
    F64.mul_exact 1000 1 1000 125 (3) (by norm_num) (by norm_num) (by norm_num) (by norm_num) (by norm_num)
  have wb : F64.fin 1000 * F64.fin 1000000000 = F64.fin 1000000000000 :=
    F64.mul_exact 1000 1000000000 1000000000000 244140625 (12) (by norm_num) (by norm_num) (by norm_num) (by norm_num) (by norm_num)
  have hr : F64.inUint64 (F64.fin 1000 * F64.fin 1 * F64.fin 1000000000) := by
    rw [wa, wb]
    exact ⟨by norm_num, by norm_num⟩
  have h := lamportsOutWithSlippage_antitone saturating exampleCoin
    ⟨1000000, 1000000000, 0, 0, 0, false⟩ 1000 1 (1 / 16) (1 / 4)
    (solTokenPrice_unit _ rfl (by decide))
    (by norm_num) (by norm_num) (by norm_num) (by norm_num) (by norm_num) hr
  exact ⟨h.2.2.2.2.1, h.2.2.2.2.2.1⟩

/-- C11, the claim refuted on inputs.  The snapshot has price 1.  With `2^35`
tokens held the unslipped proceeds `2^35 * 10^9` lamports are beyond `uint64`,
and the amd64 conversion yields `2^63` for them and for the min-out at
slippage 0; at slippage 1/2 the min-out `2^34 * 10^9` fits and is larger than
both.  And with the `float64` amount 0.009 held and slippage 0 the exact
proceeds are just below 9000000 lamports, truncated 8999999, while the product
rounds up to 9000000, which is the min-out of the payload on either
platform. -/
theorem lamportsOutWithSlippage_not_antitone :
    solTokenPrice ⟨1000000, 1000000000, 0, 0, 0, false⟩ = .fin 1 ∧
    ¬ (lamportsOutWithSlippage amd64 { exampleCoin with coinBought := .fin 34359738368, slippage := .fin (1 / 2) }
          ⟨1000000, 1000000000, 0, 0, 0, false⟩
        ≤ lamportsOutWithSlippage amd64 { exampleCoin with coinBought := .fin 34359738368, slippage := .fin 0 }
          ⟨1000000, 1000000000, 0, 0, 0, false⟩) ∧
    ¬ (lamportsOutWithSlippage amd64 { exampleCoin with coinBought := .fin 34359738368, slippage := .fin (1 / 2) }
          ⟨1000000, 1000000000, 0, 0, 0, false⟩
        ≤ F64.toUint64 amd64 (F64.fin 34359738368 * F64.fin 1 * F64.fin 1000000000)) ∧
    lamportsOutWithSlippage amd64 { exampleCoin with coinBought := .fin 34359738368, slippage := .fin 0 }
        ⟨1000000, 1000000000, 0, 0, 0, false⟩ = 9223372036854775808 ∧
    lamportsOutWithSlippage amd64 { exampleCoin with coinBought := .fin 34359738368, slippage := .fin (1 / 2) }
        ⟨1000000, 1000000000, 0, 0, 0, false⟩ = 17179869184000000000 ∧
    F64.toUint64 amd64 (F64.fin 34359738368 * F64.fin 1 * F64.fin 1000000000)
      = 9223372036854775808 ∧
    round64 (9 / 1000) = 5188146770730811 / 576460752303423488 ∧
    ⌊(5188146770730811 / 576460752303423488 : ℚ) * 1 * 10 ^ 9⌋ = 8999999 ∧
    lamportsOutWithSlippage saturating
        { exampleCoin with coinBought := .fin (5188146770730811 / 576460752303423488), slippage := .fin 0 }
        ⟨1000000, 1000000000, 0, 0, 0, false⟩ = 9000000 ∧
    lamportsOutWithSlippage amd64
        { exampleCoin with coinBought := .fin (5188146770730811 / 576460752303423488), slippage := .fin 0 }
        ⟨1000000, 1000000000, 0, 0, 0, false⟩ = 9000000 := by
  have hp : solTokenPrice ⟨1000000, 1000000000, 0, 0, 0, false⟩ = .fin 1 :=
    solTokenPrice_unit _ rfl (by decide)
  have a0 : F64.fin 1 - F64.fin 0 = F64.fin 1 :=
    F64.sub_exact 1 0 1 1 (0) (by norm_num) (by norm_num) (by norm_num) (by norm_num) (by norm_num)
  have ah : F64.fin 1 - F64.fin (1 / 2) = F64.fin (1 / 2) :=
    F64.sub_exact 1 (1 / 2) (1 / 2) 1 (-1) (by norm_num) (by norm_num) (by norm_num) (by norm_num) (by norm_num)
  have m1 : F64.fin 34359738368 * F64.fin 1 = F64.fin 34359738368 :=
    F64.mul_exact 34359738368 1 34359738368 1 (35) (by norm_num) (by norm_num) (by norm_num) (by norm_num) (by norm_num)
  have c0 : F64.fin 34359738368 * F64.fin 1000000000 = F64.fin 34359738368000000000 :=
    F64.mul_exact 34359738368 1000000000 34359738368000000000 1953125 (44) (by norm_num) (by norm_num) (by norm_num) (by norm_num) (by norm_num)
  have mh : F64.fin 34359738368 * F64.fin (1 / 2) = F64.fin 17179869184 :=
    F64.mul_exact 34359738368 (1 / 2) 17179869184 1 (34) (by norm_num) (by norm_num) (by norm_num) (by norm_num) (by norm_num)
  have ch : F64.fin 17179869184 * F64.fin 1000000000 = F64.fin 17179869184000000000 :=
    F64.mul_exact 17179869184 1000000000 17179869184000000000 1953125 (43) (by norm_num) (by norm_num) (by norm_num) (by norm_num) (by norm_num)
  have k1 : F64.fin (5188146770730811 / 576460752303423488) * F64.fin 1 = F64.fin (5188146770730811 / 576460752303423488) :=
    F64.mul_exact (5188146770730811 / 576460752303423488) 1 (5188146770730811 / 576460752303423488) 5188146770730811 (-59) (by norm_num) (by norm_num) (by norm_num) (by norm_num) (by norm_num)
  have kc : F64.fin (5188146770730811 / 576460752303423488) * F64.fin 1000000000 = F64.fin 9000000 :=
    F64.mul_eval (5188146770730811 / 576460752303423488) 1000000000 9000000 (1 / 536870912) (23) 4831838208000000 (by norm_num) (by norm_num) (by norm_num) (by norm_num)
      (roundHalfEven_of_lt _ _ (by norm_num) (by norm_num)) (by norm_num) (by norm_num) (by norm_num)
  have fh : F64.toUint64 amd64 (.fin 17179869184000000000) = 17179869184000000000 := by
    rw [F64.toUint64_fin _ _ (by norm_num) (by norm_num)]
    have hfl : ⌊(17179869184000000000 : ℚ)⌋ = 17179869184000000000 := by
      rw [Int.floor_eq_iff]
      constructor <;> norm_num
    rw [hfl]
    rfl
  have fks : F64.toUint64 saturating (.fin 9000000) = 9000000 := by
    rw [F64.toUint64_fin _ _ (by norm_num) (by norm_num)]
    have hfl : ⌊(9000000 : ℚ)⌋ = 9000000 := by
      rw [Int.floor_eq_iff]
      constructor <;> norm_num
    rw [hfl]
    rfl
  have fka : F64.toUint64 amd64 (.fin 9000000) = 9000000 := by
    rw [F64.toUint64_fin _ _ (by norm_num) (by norm_num)]
    have hfl : ⌊(9000000 : ℚ)⌋ = 9000000 := by
      rw [Int.floor_eq_iff]
      constructor <;> norm_num
    rw [hfl]
    rfl
  have e0 : lamportsOutWithSlippage amd64 { exampleCoin with coinBought := .fin 34359738368, slippage := .fin 0 }
      ⟨1000000, 1000000000, 0, 0, 0, false⟩ = 9223372036854775808 := by
    simp only [lamportsOutWithSlippage, hp]
    rw [a0, m1, m1, c0]
    norm_num [F64.toUint64, amd64]
  have e1 : lamportsOutWithSlippage amd64 { exampleCoin with coinBought := .fin 34359738368, slippage := .fin (1 / 2) }
      ⟨1000000, 1000000000, 0, 0, 0, false⟩ = 17179869184000000000 := by
    simp only [lamportsOutWithSlippage, hp]
    rw [ah, m1, mh, ch, fh]
  have e2 : F64.toUint64 amd64 (F64.fin 34359738368 * F64.fin 1 * F64.fin 1000000000)
      = 9223372036854775808 := by
    rw [m1, c0]
    norm_num [F64.toUint64, amd64]
  have e3 : lamportsOutWithSlippage saturating
      { exampleCoin with coinBought := .fin (5188146770730811 / 576460752303423488), slippage := .fin 0 }
      ⟨1000000, 1000000000, 0, 0, 0, false⟩ = 9000000 := by
    simp only [lamportsOutWithSlippage, hp]
    rw [a0, k1, k1, kc, fks]
  have e4 : lamportsOutWithSlippage amd64
      { exampleCoin with coinBought := .fin (5188146770730811 / 576460752303423488), slippage := .fin 0 }
      ⟨1000000, 1000000000, 0, 0, 0, false⟩ = 9000000 := by
    simp only [lamportsOutWithSlippage, hp]
    rw [a0, k1, k1, kc, fka]
  refine ⟨hp, ?_, ?_, e0, e1, e2, ?_, ?_, e3, e4⟩
  · rw [e0, e1]
    decide
  · rw [e1, e2]
    decide
  · have h := round64_eval (9 / 1000) (1 / 576460752303423488) (-7) 5188146770730811 (by norm_num) (by norm_num)
      (by norm_num) (by norm_num) (roundHalfEven_of_lt _ _ (by norm_num) (by norm_num))
    rw [h]
    norm_num
  · rw [Int.floor_eq_iff]
    constructor <;> norm_num

/-! ## The end-to-end buy example -/

/-- C12: end-to-end buy example, in binary64 arithmetic.  For a snapshot with
30000000000 virtual sol reserves and 1073000000000000 virtual token reserves
the unit price is the positive `float64` value of `28 * 10^-9`; with the
`float64` spend 0.01 and the `float64` slippage 0.05 the token amount of the
buy payload is 357142857142 and its max-in is 10500000, on every platform,
which are the truncations `trunc(0.01 / (28 * 10^-9) * 10^6)` and
`trunc(0.01 * 1.05 * 10^9)` of exact arithmetic; the swap carries the payload
made of these two numbers, and any other computation from the same reserves and
the same request gives the same payload. -/
theorem buy_example (arch : Arch) (c : Coin) (bc : BondingCurve)
    (hb : c.buyAmount = .fin (round64 (1 / 100))) (hs : c.slippage = .fin (round64 (1 / 20)))
    (hv : bc.VirtualTokenReserves = 1073000000000000)
    (hr : bc.VirtualSolReserves = 30000000000) :
    solTokenPrice bc = .fin (round64 (28 / 10 ^ 9)) ∧ 0 < round64 (28 / 10 ^ 9) ∧
    |round64 (28 / 10 ^ 9) - 28 / 10 ^ 9| < 1 / 10 ^ 24 ∧
    buyTokenAmoutInInt arch c bc = 357142857142 ∧
    lamportsInWithSlippage arch c = 10500000 ∧
    ⌊((1 : ℚ) / 100 / (28 / 10 ^ 9) * 10 ^ 6)⌋ = 357142857142 ∧
    ⌊((1 : ℚ) / 100 * (1 + 1 / 20) * 10 ^ 9)⌋ = 10500000 ∧
    (∀ (ta : PublicKey) (Owner : PrivateKey),
      BuyInstruction arch c ta Owner bc
        = .NewInstruction ⟨"6EF8rrecthR5Dkzon8Nwu78hRvfCKubJ14M5uBEwF6P"⟩
            (buyAccountKeys c ta Owner) (buyData 357142857142 10500000)) ∧
    (∀ (arch' : Arch) (c' : Coin) (bc' : BondingCurve),
      c'.buyAmount = c.buyAmount → c'.slippage = c.slippage →
      bc'.VirtualTokenReserves = bc.VirtualTokenReserves →
      bc'.VirtualSolReserves = bc.VirtualSolReserves →
      buyData (buyTokenAmoutInInt arch' c' bc') (lamportsInWithSlippage arch' c')
        = buyData (buyTokenAmoutInInt arch c bc) (lamportsInWithSlippage arch c)) := by
  have hprice : ∀ bc' : BondingCurve, bc'.VirtualTokenReserves = 1073000000000000 →
      bc'.VirtualSolReserves = 30000000000 →
      solTokenPrice bc' = .fin (2115620184325601 / 75557863725914323419136) := by
    intro bc' hv' hr'
    exact solTokenPrice_initial bc' hv' (by rw [hr']; decide)
  have key : ∀ (arch' : Arch) (c' : Coin) (bc' : BondingCurve),
      c'.buyAmount = .fin (round64 (1 / 100)) → c'.slippage = .fin (round64 (1 / 20)) →
      bc'.VirtualTokenReserves = 1073000000000000 →
      bc'.VirtualSolReserves = 30000000000 →
      buyTokenAmoutInInt arch' c' bc' = 357142857142 ∧
      lamportsInWithSlippage arch' c' = 10500000 := by
    intro arch' c' bc' hb' hs' hv' hr'
    have rA : round64 (1 / 100) = 5764607523034235 / 576460752303423488 := by
      have h := round64_eval (1 / 100) (1 / 576460752303423488) (-7) 5764607523034235 (by norm_num) (by norm_num)
        (by norm_num) (by norm_num) (roundHalfEven_of_lt _ _ (by norm_num) (by norm_num))
      rw [h]
      norm_num
    have rS : round64 (1 / 20) = 3602879701896397 / 72057594037927936 := by
      have h := round64_eval (1 / 20) (1 / 144115188075855872) (-5) 7205759403792794 (by norm_num) (by norm_num)
        (by norm_num) (by norm_num) (roundHalfEven_of_lt _ _ (by norm_num) (by norm_num))
      rw [h]
      norm_num
    have q1 : F64.fin (5764607523034235 / 576460752303423488) / F64.fin (2115620184325601 / 75557863725914323419136) = F64.fin (3067833782857143 / 8589934592) :=
      F64.div_eval (5764607523034235 / 576460752303423488) (2115620184325601 / 75557863725914323419136) (3067833782857143 / 8589934592) (1 / 17179869184) (18) 6135667565714286 (by norm_num) (by norm_num) (by norm_num) (by norm_num) (by norm_num)
      (roundHalfEven_of_lt _ _ (by norm_num) (by norm_num)) (by norm_num) (by norm_num) (by norm_num)
    have q2 : F64.fin (3067833782857143 / 8589934592) * F64.fin 1000000 = F64.fin (1462857142857143 / 4096) :=
      F64.mul_eval (3067833782857143 / 8589934592) 1000000 (1462857142857143 / 4096) (1 / 16384) (38) 5851428571428572 (by norm_num) (by norm_num) (by norm_num) (by norm_num)
      (roundHalfEven_of_lt _ _ (by norm_num) (by norm_num)) (by norm_num) (by norm_num) (by norm_num)
    have q3 : F64.fin 1 + F64.fin (3602879701896397 / 72057594037927936) = F64.fin (4728779608739021 / 4503599627370496) :=
      F64.add_eval 1 (3602879701896397 / 72057594037927936) (4728779608739021 / 4503599627370496) (1 / 4503599627370496) (0) 4728779608739021 (by norm_num) (by norm_num) (by norm_num) (by norm_num)
      (roundHalfEven_of_lt _ _ (by norm_num) (by norm_num)) (by norm_num) (by norm_num) (by norm_num)
    have q4 : F64.fin (5764607523034235 / 576460752303423488) * F64.fin (4728779608739021 / 4503599627370496) = F64.fin (6052837899185947 / 576460752303423488) :=
      F64.mul_eval (5764607523034235 / 576460752303423488) (4728779608739021 / 4503599627370496) (6052837899185947 / 576460752303423488) (1 / 576460752303423488) (-7) 6052837899185947 (by norm_num) (by norm_num) (by norm_num) (by norm_num)
      (roundHalfEven_of_lt _ _ (by norm_num) (by norm_num)) (by norm_num) (by norm_num) (by norm_num)
    have q5 : F64.fin (6052837899185947 / 576460752303423488) * F64.fin 1000000000 = F64.fin 10500000 :=
      F64.mul_eval (6052837899185947 / 576460752303423488) 1000000000 10500000 (1 / 536870912) (23) 5637144576000000 (by norm_num) (by norm_num) (by norm_num) (by norm_num)
      (roundHalfEven_of_lt _ _ (by norm_num) (by norm_num)) (by norm_num) (by norm_num) (by norm_num)
    have f1 : F64.toUint64 arch' (.fin (1462857142857143 / 4096)) = 357142857142 := by
      rw [F64.toUint64_fin _ _ (by norm_num) (by norm_num)]
      have hfl : ⌊(1462857142857143 / 4096 : ℚ)⌋ = 357142857142 := by
        rw [Int.floor_eq_iff]
        constructor <;> norm_num
      rw [hfl]
      rfl
    have f2 : F64.toUint64 arch' (.fin 10500000) = 10500000 := by
      rw [F64.toUint64_fin _ _ (by norm_num) (by norm_num)]
      have hfl : ⌊(10500000 : ℚ)⌋ = 10500000 := by
        rw [Int.floor_eq_iff]
        constructor <;> norm_num
      rw [hfl]
      rfl
    rw [rA] at hb'
    rw [rS] at hs'
    constructor
    · simp only [buyTokenAmoutInInt, buyTokenAmout, hprice bc' hv' hr', hb']
      rw [q1, q2, f1]
    · simp only [lamportsInWithSlippage, hb', hs']
      rw [q3, q4, q5, f2]
  obtain ⟨k1, k2⟩ := key arch c bc hb hs hv hr
  refine ⟨?_, ?_, ?_, k1, k2, ?_, ?_, ?_, ?_⟩
  · rw [round64_28e9]
    exact hprice bc hv hr
  · rw [round64_28e9]
    norm_num
  · rw [round64_28e9, abs_lt]
    constructor <;> norm_num
  · rw [Int.floor_eq_iff]
    constructor <;> norm_num
  · rw [Int.floor_eq_iff]
    constructor <;> norm_num
  · intro ta Owner
    simp only [BuyInstruction, k1, k2]
    rfl
  · intro arch' c' bc' hb' hs' hv' hr'
    obtain ⟨k1', k2'⟩ := key arch' c' bc' (hb'.trans hb) (hs'.trans hs) (hv'.trans hv)
      (hr'.trans hr)
    rw [k1, k2, k1', k2']

theorem buy_example_witness :
    buyTokenAmoutInInt saturating
        { exampleCoin with buyAmount := .fin (round64 (1 / 100)),
                           slippage := .fin (round64 (1 / 20)) }
        ⟨1073000000000000, 30000000000, 793100000000000, 0, 1000000000000000, false⟩
      = 357142857142 ∧
    lamportsInWithSlippage saturating
        { exampleCoin with buyAmount := .fin (round64 (1 / 100)),
                           slippage := .fin (round64 (1 / 20)) }
      = 10500000 :=
  ⟨(buy_example saturating
      { exampleCoin with buyAmount := .fin (round64 (1 / 100)),
                         slippage := .fin (round64 (1 / 20)) }
      ⟨1073000000000000, 30000000000, 793100000000000, 0, 1000000000000000, false⟩
      rfl rfl rfl rfl).2.2.2.1,
   (buy_example saturating
      { exampleCoin with buyAmount := .fin (round64 (1 / 100)),
                         slippage := .fin (round64 (1 / 20)) }
      ⟨1073000000000000, 30000000000, 793100000000000, 0, 1000000000000000, false⟩
      rfl rfl rfl rfl).2.2.2.2.1⟩

/-! ## The orchestrator: state, errors and the resolved token account -/

/-- What `Buy` leaves in the address fields once the derivation has succeeded,
whatever happens afterwards. -/
theorem Buy_coin_addresses (arch : Arch) (lib : Library) (c : Coin) (client : Client)
    (Owner : PrivateKey) (ta : PublicKey)
    (hfind : lib.FindAssociatedTokenAddress Owner.PublicKey c.mintAddress = .ok ta) :
    (c.Buy arch lib client Owner).coin.tokenAddress = ta ∧
    (c.Buy arch lib client Owner).coin.mintAddress = c.mintAddress ∧
    (c.Buy arch lib client Owner).coin.bondingCurveAddress = c.bondingCurveAddress ∧
    (c.Buy arch lib client Owner).coin.associatedBondingCurve = c.associatedBondingCurve := by
  simp only [Coin.Buy, getAssociatedTokenAddress, hfind]
  cases getBondingCurveInfos client c.bondingCurveAddress with
  | panic m => simp
  | err e => simp
  | ok bc =>
    dsimp only
    cases client.GetRecentBlockhash with
    | error e => simp
    | ok bh =>
      dsimp only
      cases lib.NewTransaction (buyInstructions arch { c with tokenAddress := ta } ta Owner bc)
          bh Owner.PublicKey with
      | error e => simp
      | ok tx =>
        dsimp only
        cases client.SendTransactionWithOpts (tx.Sign Owner) <;> simp

/-- The instruction list `Buy` hands to `NewTransaction`. -/
theorem Buy_calls_newTransaction (arch : Arch) (lib : Library) (c : Coin) (client : Client)
    (Owner : PrivateKey) (ta : PublicKey) (bc : BondingCurve) (bh : Hash)
    (hfind : lib.FindAssociatedTokenAddress Owner.PublicKey c.mintAddress = .ok ta)
    (hacct : getBondingCurveInfos client c.bondingCurveAddress = .ok bc)
    (hbh : client.GetRecentBlockhash = .ok bh) :
    (c.Buy arch lib client Owner).calls.get? 3
      = some (.NewTransaction (buyInstructions arch c ta Owner bc) bh Owner.PublicKey) := by
  have hB : buyInstructions arch { c with tokenAddress := ta } ta Owner bc
      = buyInstructions arch c ta Owner bc := rfl
  simp only [Coin.Buy, getAssociatedTokenAddress, hfind, hacct, hbh, hB]
  cases lib.NewTransaction (buyInstructions arch c ta Owner bc) bh Owner.PublicKey with
  | error e => rfl
  | ok tx =>
    dsimp only
    cases client.SendTransactionWithOpts (tx.Sign Owner) <;> rfl

/-- The instruction list `Sell` hands to `NewTransaction`. -/
theorem Sell_calls_newTransaction (arch : Arch) (lib : Library) (c : Coin) (client : Client)
    (Owner : PrivateKey) (bc : BondingCurve) (bh : Hash)
    (hacct : getBondingCurveInfos client c.bondingCurveAddress = .ok bc)
    (hbh : client.GetRecentBlockhash = .ok bh) :
    (c.Sell arch lib client Owner).calls.get? 2
      = some (.NewTransaction (sellInstructions arch c Owner bc) bh Owner.PublicKey) := by
  simp only [Coin.Sell, hacct, hbh]
  cases lib.NewTransaction (sellInstructions arch c Owner bc) bh Owner.PublicKey with
  | error e => rfl
  | ok tx =>
    dsimp only
    cases client.SendTransactionWithOpts (tx.Sign Owner) <;> rfl

/-- C13, as the code has it: `Buy` never touches the spend, the slippage, the
mint and the two curve addresses; it leaves the whole state unchanged when the
address derivation fails; it overwrites `tokenAddress` with the derived address
as soon as the derivation succeeds, also when a later step fails; and it
writes `coinBought` only when the submission succeeds (on an error or a panic
`coinBought` keeps its value). -/
theorem buy_state_frame (arch : Arch) (lib : Library) (c : Coin) (client : Client)
    (Owner : PrivateKey) :
    (c.Buy arch lib client Owner).coin.buyAmount = c.buyAmount ∧
    (c.Buy arch lib client Owner).coin.slippage = c.slippage ∧
    (c.Buy arch lib client Owner).coin.mintAddress = c.mintAddress ∧
    (c.Buy arch lib client Owner).coin.bondingCurveAddress = c.bondingCurveAddress ∧
    (c.Buy arch lib client Owner).coin.associatedBondingCurve = c.associatedBondingCurve ∧
    (∀ e, lib.FindAssociatedTokenAddress Owner.PublicKey c.mintAddress = .error e →
      (c.Buy arch lib client Owner).coin = c) ∧
    (∀ ta, lib.FindAssociatedTokenAddress Owner.PublicKey c.mintAddress = .ok ta →
      (c.Buy arch lib client Owner).coin.tokenAddress = ta) ∧
    (∀ txID e, (c.Buy arch lib client Owner).ret = .values txID (some e) →
      (c.Buy arch lib client Owner).coin.coinBought = c.coinBought) ∧
    (∀ msg, (c.Buy arch lib client Owner).ret = .panic msg →
      (c.Buy arch lib client Owner).coin.coinBought = c.coinBought) ∧
    (∀ txID, (c.Buy arch lib client Owner).ret = .values txID none →
      ∃ bc, getBondingCurveInfos client c.bondingCurveAddress = .ok bc ∧
        (c.Buy arch lib client Owner).coin.coinBought = buyTokenAmout c bc) := by
  simp only [Coin.Buy, getAssociatedTokenAddress]
  cases lib.FindAssociatedTokenAddress Owner.PublicKey c.mintAddress with
  | error e => simp
  | ok ta =>
    dsimp only
    cases getBondingCurveInfos client c.bondingCurveAddress with
    | panic m => simp
    | err e => simp
    | ok bc =>
      dsimp only
      cases client.GetRecentBlockhash with
      | error e => simp
      | ok bh =>
        dsimp only
        cases lib.NewTransaction (buyInstructions arch { c with tokenAddress := ta } ta Owner bc)
            bh Owner.PublicKey with
        | error e => simp
        | ok tx =>
          dsimp only
          cases client.SendTransactionWithOpts (tx.Sign Owner) with
          | error e => simp
          | ok txID => simp [buyTokenAmout]

/-- C13, the claim refuted on an input: the derivation succeeds and the account
request fails.  `Buy` returns the zero identifier with an error, and the coin
after the call holds the derived token account where it held the zero key
before. -/
theorem buy_error_changes_tokenAddress :
    (exampleCoin.Buy saturating exampleLibrary exampleUnreachableClient exampleOwner).ret
      = .values Signature.zero
          (some "error getting bonding curve data: connection refused") ∧
    exampleCoin.tokenAddress = ⟨"11111111111111111111111111111111"⟩ ∧
    (exampleCoin.Buy saturating exampleLibrary exampleUnreachableClient exampleOwner).coin.tokenAddress
      = ⟨"OwnerTokenAccount"⟩ ∧
    (exampleCoin.Buy saturating exampleLibrary exampleUnreachableClient exampleOwner).coin
      ≠ exampleCoin := by
  have hc : (exampleCoin.Buy saturating exampleLibrary exampleUnreachableClient
      exampleOwner).coin.tokenAddress = ⟨"OwnerTokenAccount"⟩ := rfl
  refine ⟨rfl, rfl, hc, ?_⟩
  intro h
  have h2 := congrArg Coin.tokenAddress h
  rw [hc] at h2
  exact absurd h2 (by decide)

/-- C14: the claim is that `Buy` and `Sell` alike return a failing step's
error wrapped with a prefix naming the step, never the bare error.  `Sell` does
not: whenever it returns an error, the identifier is the zero one and the
error is exactly, character for character, the error of the call that failed
(the account request, the decoding, the blockhash request, the transaction
assembly or the submission).  `Buy`, on the same failing account request,
returns the error behind the prefix `error getting bonding curve data: `. -/
theorem sell_error_is_bare (arch : Arch) (lib : Library) (c : Coin) (client : Client)
    (Owner : PrivateKey) (txID : Signature) (e : String)
    (h : (c.Sell arch lib client Owner).ret = .values txID (some e)) :
    txID = Signature.zero ∧
    (client.GetAccountInfoWithOpts c.bondingCurveAddress = .error e ∨
      (∃ data, client.GetAccountInfoWithOpts c.bondingCurveAddress = .ok data ∧
        decodeBondingData data = .err e) ∨
      client.GetRecentBlockhash = .error e ∨
      (∃ bc bh, lib.NewTransaction (sellInstructions arch c Owner bc) bh Owner.PublicKey
        = .error e) ∨
      (∃ tx, client.SendTransactionWithOpts tx = .error e)) ∧
    (∀ ta e', lib.FindAssociatedTokenAddress Owner.PublicKey c.mintAddress = .ok ta →
      client.GetAccountInfoWithOpts c.bondingCurveAddress = .error e' →
      (c.Buy arch lib client Owner).ret
        = .values Signature.zero (some ("error getting bonding curve data: " ++ e')) ∧
      (c.Buy arch lib client Owner).calls
        = [ .FindAssociatedTokenAddress Owner.PublicKey c.mintAddress,
            .GetAccountInfoWithOpts c.bondingCurveAddress ]) := by
  have hbuy : ∀ ta e', lib.FindAssociatedTokenAddress Owner.PublicKey c.mintAddress = .ok ta →
      client.GetAccountInfoWithOpts c.bondingCurveAddress = .error e' →
      (c.Buy arch lib client Owner).ret
        = .values Signature.zero (some ("error getting bonding curve data: " ++ e')) ∧
      (c.Buy arch lib client Owner).calls
        = [ .FindAssociatedTokenAddress Owner.PublicKey c.mintAddress,
            .GetAccountInfoWithOpts c.bondingCurveAddress ] := by
    intro ta e' hf ha
    simp [Coin.Buy, getAssociatedTokenAddress, hf, getBondingCurveInfos, ha]
  have key : txID = Signature.zero ∧
      (client.GetAccountInfoWithOpts c.bondingCurveAddress = .error e ∨
        (∃ data, client.GetAccountInfoWithOpts c.bondingCurveAddress = .ok data ∧
          decodeBondingData data = .err e) ∨
        client.GetRecentBlockhash = .error e ∨
        (∃ bc bh, lib.NewTransaction (sellInstructions arch c Owner bc) bh Owner.PublicKey
          = .error e) ∨
        (∃ tx, client.SendTransactionWithOpts tx = .error e)) := by
    revert h
    simp only [Coin.Sell, getBondingCurveInfos]
    cases ha : client.GetAccountInfoWithOpts c.bondingCurveAddress with
    | error e0 =>
      intro h
      simp only [Return.values.injEq, Option.some.injEq] at h
      exact ⟨h.1.symm, Or.inl (by rw [h.2])⟩
    | ok data =>
      dsimp only
      cases hd : decodeBondingData data with
      | panic m => intro h; simp at h
      | err e0 =>
        intro h
        simp only [Return.values.injEq, Option.some.injEq] at h
        exact ⟨h.1.symm, Or.inr (Or.inl ⟨data, rfl, by rw [hd, h.2]⟩)⟩
      | ok bc =>
        dsimp only
        cases hb : client.GetRecentBlockhash with
        | error e0 =>
          intro h
          simp only [Return.values.injEq, Option.some.injEq] at h
          exact ⟨h.1.symm, Or.inr (Or.inr (Or.inl (by rw [h.2])))⟩
        | ok bh =>
          dsimp only
          cases hn : lib.NewTransaction (sellInstructions arch c Owner bc) bh
              Owner.PublicKey with
          | error e0 =>
            intro h
            simp only [Return.values.injEq, Option.some.injEq] at h
            exact ⟨h.1.symm, Or.inr (Or.inr (Or.inr (Or.inl ⟨bc, bh, by rw [hn, h.2]⟩)))⟩
          | ok tx =>
            dsimp only
            cases hs : client.SendTransactionWithOpts (tx.Sign Owner) with
            | error e0 =>
              intro h
              simp only [Return.values.injEq, Option.some.injEq] at h
              exact ⟨h.1.symm, Or.inr (Or.inr (Or.inr (Or.inr ⟨_, by rw [hs, h.2]⟩)))⟩
            | ok sig => intro h; simp at h
  exact ⟨key.1, key.2, hbuy⟩

theorem sell_error_is_bare_witness :
    (exampleCoin.Sell saturating exampleLibrary exampleUnreachableClient exampleOwner).ret
      = .values Signature.zero (some "connection refused") ∧
    (exampleCoin.Buy saturating exampleLibrary exampleUnreachableClient exampleOwner).ret
      = .values Signature.zero
          (some ("error getting bonding curve data: " ++ "connection refused")) :=
  ⟨rfl, ((sell_error_is_bare saturating exampleLibrary exampleCoin exampleUnreachableClient
      exampleOwner Signature.zero "connection refused" rfl).2.2
      ⟨"OwnerTokenAccount"⟩ "connection refused" rfl rfl).1⟩

/-- C15, as the code has it: only `Buy` resolves the token account.  When the
derivation, the fetch and the blockhash request succeed, position 5 of the
buy swap holds the address derived in that trade from the owner and the
configured mint; position 5 of the sell swap holds the coin's `tokenAddress`
field, whatever it is; and a `Sell` that follows a `Buy` of the same owner on
the coin that `Buy` left holds the address that `Buy` derived. -/
theorem swap_token_account (arch : Arch) (lib : Library) (c : Coin) (client : Client)
    (Owner : PrivateKey) (ta : PublicKey) (bc : BondingCurve) (bh : Hash)
    (hfind : lib.FindAssociatedTokenAddress Owner.PublicKey c.mintAddress = .ok ta)
    (hacct : getBondingCurveInfos client c.bondingCurveAddress = .ok bc)
    (hbh : client.GetRecentBlockhash = .ok bh) :
    (∃ i0 i1 i2 accounts data,
      (c.Buy arch lib client Owner).calls.get? 3
        = some (.NewTransaction
            [i0, i1, i2,
             .NewInstruction ⟨"6EF8rrecthR5Dkzon8Nwu78hRvfCKubJ14M5uBEwF6P"⟩ accounts data]
            bh Owner.PublicKey) ∧
      accounts.get? 5 = some ⟨ta, false, true⟩) ∧
    (∃ accounts data,
      (c.Sell arch lib client Owner).calls.get? 2
        = some (.NewTransaction
            [.NewInstruction ⟨"6EF8rrecthR5Dkzon8Nwu78hRvfCKubJ14M5uBEwF6P"⟩ accounts data]
            bh Owner.PublicKey) ∧
      accounts.get? 5 = some ⟨c.tokenAddress, false, true⟩) ∧
    (∃ accounts data,
      ((c.Buy arch lib client Owner).coin.Sell arch lib client Owner).calls.get? 2
        = some (.NewTransaction
            [.NewInstruction ⟨"6EF8rrecthR5Dkzon8Nwu78hRvfCKubJ14M5uBEwF6P"⟩ accounts data]
            bh Owner.PublicKey) ∧
      accounts.get? 5 = some ⟨ta, false, true⟩) := by
  obtain ⟨h1, _, h3, _⟩ := Buy_coin_addresses arch lib c client Owner ta hfind
  refine ⟨⟨_, _, _, buyAccountKeys c ta Owner, _,
      Buy_calls_newTransaction arch lib c client Owner ta bc bh hfind hacct hbh, rfl⟩,
    ⟨sellAccountKeys c Owner, _,
      Sell_calls_newTransaction arch lib c client Owner bc bh hacct hbh, rfl⟩,
    ⟨sellAccountKeys (c.Buy arch lib client Owner).coin Owner, _,
      Sell_calls_newTransaction arch lib _ client Owner bc bh (by rw [h3]; exact hacct) hbh,
      ?_⟩⟩
  simp only [sellAccountKeys, h1]
  rfl

theorem swap_token_account_witness :
    ∃ accounts data,
      (exampleCoin.Sell saturating exampleLibrary
          (exampleClient (exampleAccount 1073000000000000 30000000000))
          exampleOwner).calls.get? 2
        = some (.NewTransaction
            [.NewInstruction ⟨"6EF8rrecthR5Dkzon8Nwu78hRvfCKubJ14M5uBEwF6P"⟩ accounts data]
            ⟨"ExampleBlockhash"⟩ ⟨"OwnerWa11et"⟩) ∧
      accounts.get? 5 = some ⟨⟨"11111111111111111111111111111111"⟩, false, true⟩ :=
  (swap_token_account saturating exampleLibrary exampleCoin
    (exampleClient (exampleAccount 1073000000000000 30000000000)) exampleOwner
    ⟨"OwnerTokenAccount"⟩
    ⟨1073000000000000, 30000000000, 793100000000000, 0, 1000000000000000, false⟩
    ⟨"ExampleBlockhash"⟩ rfl exampleAccount_initial_reserve rfl).2.1

/-- C15, the claim refuted on an input: a coin on which `Buy` has never run,
so that its `tokenAddress` is the zero key.  The address derived from the
owner and the configured mint is `OwnerTokenAccount`, but the swap that `Sell`
hands to `NewTransaction` has the zero key at position 5. -/
theorem sell_uses_stored_token_account :
    exampleLibrary.FindAssociatedTokenAddress exampleOwner.PublicKey exampleCoin.mintAddress
      = .ok ⟨"OwnerTokenAccount"⟩ ∧
    (∃ data,
      (exampleCoin.Sell saturating exampleLibrary
          (exampleClient (exampleAccount 1073000000000000 30000000000))
          exampleOwner).calls.get? 2
        = some (.NewTransaction
            [.NewInstruction ⟨"6EF8rrecthR5Dkzon8Nwu78hRvfCKubJ14M5uBEwF6P"⟩
              (sellAccountKeys exampleCoin exampleOwner) data]
            ⟨"ExampleBlockhash"⟩ ⟨"OwnerWa11et"⟩)) ∧
    (sellAccountKeys exampleCoin exampleOwner).get? 5
      = some ⟨⟨"11111111111111111111111111111111"⟩, false, true⟩ ∧
    (⟨"11111111111111111111111111111111"⟩ : PublicKey) ≠ ⟨"OwnerTokenAccount"⟩ := by
  refine ⟨rfl, ⟨_, Sell_calls_newTransaction saturating exampleLibrary exampleCoin
      (exampleClient (exampleAccount 1073000000000000 30000000000)) exampleOwner
      ⟨1073000000000000, 30000000000, 793100000000000, 0, 1000000000000000, false⟩
      ⟨"ExampleBlockhash"⟩ exampleAccount_initial_reserve rfl⟩, rfl, by decide⟩

/-! ## Fields of the snapshot that are not consulted -/

/-- C16: the completion flag is not consulted.  For two snapshots that agree on
the virtual token reserves and on the virtual sol reserves, whatever their
`Complete`, `RealTokenReserves`, `RealSolReserves` and `TokenTotalSupply`, and
for the same coin, owner and platform, `Buy` builds the same instruction list
(payload included) and so does `Sell`; and two networks that serve these two
snapshots and answer alike otherwise make `Buy` and `Sell` run to the same
result, the same final coin and the same external calls. -/
theorem complete_flag_not_consulted (arch : Arch) (lib : Library) (c : Coin)
    (client client' : Client) (Owner : PrivateKey) (ta : PublicKey) (bc bc' : BondingCurve)
    (hv : bc.VirtualTokenReserves = bc'.VirtualTokenReserves)
    (hs : bc.VirtualSolReserves = bc'.VirtualSolReserves)
    (hacct : getBondingCurveInfos client c.bondingCurveAddress = .ok bc)
    (hacct' : getBondingCurveInfos client' c.bondingCurveAddress = .ok bc')
    (hbh : client'.GetRecentBlockhash = client.GetRecentBlockhash)
    (hsend : client'.SendTransactionWithOpts = client.SendTransactionWithOpts) :
    buyInstructions arch c ta Owner bc = buyInstructions arch c ta Owner bc' ∧
    sellInstructions arch c Owner bc = sellInstructions arch c Owner bc' ∧
    (c.Buy arch lib client Owner).ret = (c.Buy arch lib client' Owner).ret ∧
    (c.Buy arch lib client Owner).coin = (c.Buy arch lib client' Owner).coin ∧
    (c.Buy arch lib client Owner).calls = (c.Buy arch lib client' Owner).calls ∧
    (c.Sell arch lib client Owner).ret = (c.Sell arch lib client' Owner).ret ∧
    (c.Sell arch lib client Owner).coin = (c.Sell arch lib client' Owner).coin ∧
    (c.Sell arch lib client Owner).calls = (c.Sell arch lib client' Owner).calls := by
  have hp : solTokenPrice bc = solTokenPrice bc' :=
    solTokenPrice_congr bc bc' hv (by rw [hs])
  have hB : ∀ (c₀ : Coin) (t : PublicKey),
      buyInstructions arch c₀ t Owner bc = buyInstructions arch c₀ t Owner bc' := by
    intro c₀ t
    simp only [buyInstructions, BuyInstruction, buyTokenAmoutInInt, buyTokenAmout, hp]
  have hT : ∀ c₀ : Coin, buyTokenAmout c₀ bc = buyTokenAmout c₀ bc' := by
    intro c₀
    simp only [buyTokenAmout, hp]
  have hS : sellInstructions arch c Owner bc = sellInstructions arch c Owner bc' := by
    simp only [sellInstructions, SellInstruction, lamportsOutWithSlippage, hp]
  have buyEq : c.Buy arch lib client Owner = c.Buy arch lib client' Owner := by
    simp only [Coin.Buy, hacct, hacct', hbh, hsend, hB, hT]
  have sellEq : c.Sell arch lib client Owner = c.Sell arch lib client' Owner := by
    simp only [Coin.Sell, hacct, hacct', hbh, hsend, hS]
  exact ⟨hB c ta, hS, by rw [buyEq], by rw [buyEq], by rw [buyEq], by rw [sellEq],
    by rw [sellEq], by rw [sellEq]⟩

theorem exampleCompletedAccount_initial_reserve :
    getBondingCurveInfos
        (exampleClient (exampleCompletedAccount 1073000000000000 30000000000)) ⟨"ExampleCurve"⟩
      = .ok ⟨1073000000000000, 30000000000, 0, 85000000000, 1000000000000000, true⟩ := by
  have hd : decodeBondingData (exampleCompletedAccount 1073000000000000 30000000000)
      = .ok ⟨1073000000000000, 30000000000, 0, 85000000000, 1000000000000000, true⟩ := by
    decide
  simp only [getBondingCurveInfos, exampleClient, hd]

theorem complete_flag_not_consulted_witness :
    (exampleCoin.Buy saturating exampleLibrary
        (exampleClient (exampleAccount 1073000000000000 30000000000)) exampleOwner).calls
      = (exampleCoin.Buy saturating exampleLibrary
          (exampleClient (exampleCompletedAccount 1073000000000000 30000000000))
          exampleOwner).calls :=
  (complete_flag_not_consulted saturating exampleLibrary exampleCoin
    (exampleClient (exampleAccount 1073000000000000 30000000000))
    (exampleClient (exampleCompletedAccount 1073000000000000 30000000000))
    exampleOwner ⟨"OwnerTokenAccount"⟩
    ⟨1073000000000000, 30000000000, 793100000000000, 0, 1000000000000000, false⟩
    ⟨1073000000000000, 30000000000, 0, 85000000000, 1000000000000000, true⟩
    rfl rfl exampleAccount_initial_reserve exampleCompletedAccount_initial_reserve
    rfl rfl).2.2.2.2.1

/-! ## The token amount that `Sell` offers -/

/-- A positive `float64` is an integer multiple, below `2^53`, of its unit in
the last place. -/
theorem float_eq_mul_ulp (x : ℚ) (h0 : 0 < x) (hx : round64 x = x) :
    ∃ n : ℤ, x = n * ulp x ∧ (n : ℚ) < 2 ^ 53 := by
  have hu := ulp_pos x
  have hn : (roundHalfEven (x / ulp x) : ℚ) * ulp x = x := hx
  refine ⟨roundHalfEven (x / ulp x), hn.symm, ?_⟩
  have h1 : (roundHalfEven (x / ulp x) : ℚ) = x / ulp x := by
    rw [eq_div_iff hu.ne']
    exact hn
  rw [h1, div_lt_iff₀ hu]
  have e : (2 : ℚ) ^ 53 * ulp x = (2 : ℚ) ^ (binade x + 1) := by
    unfold ulp
    rw [show binade x + 1 = 53 + (binade x - 52) by ring, zpow_add₀ (by norm_num)]
    norm_num
  rw [e]
  exact lt_zpow_binade_succ x h0

/-- The `float64` values from `2^52` on are integers. -/
theorem round64_isInt (x : ℚ) (h : 2 ^ 52 ≤ x) : ∃ z : ℤ, round64 x = z := by
  have hb : 52 ≤ binade x := by
    have h1 : binade ((2 : ℚ) ^ 52) = 52 :=
      binade_eq _ 52 (by norm_num) (by norm_num) (by norm_num)
    have := binade_mono _ _ (by norm_num) h
    rwa [h1] at this
  obtain ⟨j, hj⟩ := Int.eq_ofNat_of_zero_le (by omega : 0 ≤ binade x - 52)
  obtain ⟨n, hn⟩ : ∃ n : ℤ, round64 x = n * ulp x := ⟨_, rfl⟩
  have hu : ulp x = (2 : ℚ) ^ j := by
    unfold ulp
    rw [hj]
    simp
  refine ⟨n * 2 ^ j, ?_⟩
  rw [hn, hu]
  push_cast
  rfl

/-- A `float64` that is not an integer has a fractional part above `2^-53` of
its value. -/
theorem fract_gt_of_float (x : ℚ) (h0 : 0 ≤ x) (hx : round64 x = x) (hf : Int.fract x ≠ 0) :
    x / 2 ^ 53 < Int.fract x := by
  have hpos : 0 < x := by
    rcases eq_or_lt_of_le h0 with h | h
    · exfalso
      apply hf
      rw [← h]
      simp
    · exact h
  obtain ⟨n, hn, hn53⟩ := float_eq_mul_ulp x hpos hx
  have hu := ulp_pos x
  have h1 : x / 2 ^ 53 < ulp x := by
    rw [div_lt_iff₀ (by norm_num)]
    calc x = n * ulp x := hn
      _ < 2 ^ 53 * ulp x := mul_lt_mul_of_pos_right hn53 hu
      _ = ulp x * 2 ^ 53 := mul_comm _ _
  by_cases hb : 52 ≤ binade x
  · exfalso
    obtain ⟨j, hj⟩ := Int.eq_ofNat_of_zero_le (by omega : 0 ≤ binade x - 52)
    have hu2 : ulp x = (2 : ℚ) ^ j := by
      unfold ulp
      rw [hj]
      simp
    have hxz : x = ((n * 2 ^ j : ℤ) : ℚ) := by
      push_cast
      rw [← hu2]
      exact hn
    apply hf
    rw [hxz]
    exact Int.fract_intCast _
  · obtain ⟨j, hj⟩ := Int.eq_ofNat_of_zero_le (by omega : 0 ≤ 52 - binade x)
    have h2j : (0 : ℚ) < 2 ^ j := by positivity
    have hu2 : ulp x * 2 ^ j = 1 := by
      unfold ulp
      rw [show binade x - 52 = -(j : ℤ) by omega, zpow_neg, zpow_natCast]
      field_simp
    have hxj : x * 2 ^ j = n := by
      calc x * 2 ^ j = n * ulp x * 2 ^ j := by rw [← hn]
        _ = n * (ulp x * 2 ^ j) := by ring
        _ = n := by rw [hu2, mul_one]
    have hfr : Int.fract x * 2 ^ j = ((n - ⌊x⌋ * 2 ^ j : ℤ) : ℚ) := by
      push_cast
      rw [← hxj]
      unfold Int.fract
      ring
    have hfpos : 0 < Int.fract x := lt_of_le_of_ne (Int.fract_nonneg x) (Ne.symm hf)
    have hz : (1 : ℤ) ≤ n - ⌊x⌋ * 2 ^ j := by
      have h3 : (0 : ℚ) < ((n - ⌊x⌋ * 2 ^ j : ℤ) : ℚ) := by
        rw [← hfr]
        positivity
      have := Int.cast_pos.mp h3
      omega
    have h4 : (1 : ℚ) ≤ Int.fract x * 2 ^ j := by
      rw [hfr]
      exact_mod_cast hz
    have h5 : ulp x ≤ Int.fract x := by
      have : ulp x * 2 ^ j ≤ Int.fract x * 2 ^ j := by
        rw [hu2]
        exact h4
      exact le_of_mul_le_mul_right this h2j
    linarith

/-- The truncation of an amount below 576460752304, scaled by `10^6`, is a
`float64`: it is `15625 * trunc(cb)`, which is below `2^53`, times `2^6`. -/
theorem trunc_scaled_representable (cb : ℚ) (h0 : 0 ≤ cb) (h : cb < 576460752304) :
    round64 ((⌊cb⌋ : ℚ) * 1000000) = (⌊cb⌋ : ℚ) * 1000000 := by
  have hn0 : 0 ≤ ⌊cb⌋ := Int.floor_nonneg.mpr h0
  obtain ⟨n, hn⟩ := Int.eq_ofNat_of_zero_le hn0
  have hlt : ⌊cb⌋ < 576460752304 := Int.floor_lt.mpr (by exact_mod_cast h)
  have hn' : n < 576460752304 := by omega
  rw [hn]
  have h1 := round64_dyadic (n * 15625) 6 (by omega) (by norm_num)
  have e : (((n * 15625 : ℕ) : ℚ)) * (2 : ℚ) ^ (6 : ℤ) = ((n : ℤ) : ℚ) * 1000000 := by
    push_cast
    norm_num
    ring
  rw [e] at h1
  exact h1

/-- C17, as the code has it, in binary64 arithmetic: let the `float64` value
`cb ≥ 0` be the token amount `Buy` computes and records as `coinBought`, such
that the product `fl(cb * 10^6)` the buy converts is a value whose truncation is
a `uint64`, and such that `trunc(cb) * 10^6` is itself a `float64` value, as it
is for every `cb` below 576460752304.  Then the buy encoded the truncation of
the rounded product `fl(cb * 10^6)`, which is within one unit and `2^-50` of
`cb * 10^6`; the token amount of the sell payload is `trunc(cb) * 10^6`, a
multiple of `10^6`, at most the amount the buy encoded, and equal to it only
when the fractional part of `cb` is below `10^-6`; the min-out of the sell is
computed from the whole `cb`. -/
theorem sell_amount_le_buy_amount (arch : Arch) (c : Coin) (bc : BondingCurve) (cb : ℚ)
    (hcb : buyTokenAmout c bc = .fin cb) (hfl : round64 cb = cb) (h0 : 0 ≤ cb)
    (hr : F64.inUint64 (F64.fin cb * F64.fin 1000000))
    (hrep : round64 ((⌊cb⌋ : ℚ) * 1000000) = (⌊cb⌋ : ℚ) * 1000000) :
    buyTokenAmoutInInt arch c bc = ⌊round64 (cb * 1000000)⌋.toNat ∧
    cb * 10 ^ 6 * (1 - 1 / 2 ^ 50) - 1 < (buyTokenAmoutInInt arch c bc : ℚ) ∧
    (buyTokenAmoutInInt arch c bc : ℚ) ≤ cb * 10 ^ 6 * (1 + 1 / 2 ^ 50) ∧
    sellTokenAmoutInInt arch { c with coinBought := .fin cb } = ⌊cb⌋.toNat * 1000000 ∧
    1000000 ∣ sellTokenAmoutInInt arch { c with coinBought := .fin cb } ∧
    sellTokenAmoutInInt arch { c with coinBought := .fin cb }
      ≤ buyTokenAmoutInInt arch c bc ∧
    (sellTokenAmoutInInt arch { c with coinBought := .fin cb } = buyTokenAmoutInInt arch c bc
      → Int.fract cb < 1 / 10 ^ 6) ∧
    (∀ bc' : BondingCurve,
      lamportsOutWithSlippage arch { c with coinBought := .fin cb } bc'
        = F64.toUint64 arch
            (F64.fin cb * solTokenPrice bc' * (F64.fin 1 - c.slippage)
              * F64.fin 1000000000)) := by
  have hx0 : 0 ≤ cb * 1000000 := by positivity
  have hY0 : 0 ≤ round64 (cb * 1000000) := round64_nonneg _ hx0
  obtain ⟨e1, hY64⟩ : F64.fin cb * F64.fin 1000000 = .fin (round64 (cb * 1000000)) ∧
      round64 (cb * 1000000) < 2 ^ 64 := by
    rcases F64.ofRat_nonneg_cases (cb * 1000000) hx0 with ⟨e, _⟩ | e
    · rw [F64.fin_mul_fin, e] at hr
      exact ⟨by rw [F64.fin_mul_fin, e], hr.2⟩
    · rw [F64.fin_mul_fin, e] at hr
      exact absurd hr (by simp [F64.inUint64])
  have hx64 : cb * 1000000 < 2 ^ 64 := by
    by_contra hc
    have h1 := round64_mono _ _ (by norm_num) (not_lt.mp hc)
    have h2 : round64 ((2 : ℚ) ^ 64) = (2 : ℚ) ^ 64 :=
      round64_of_dyadic _ 1 64 (by norm_num) (by norm_num) (by norm_num)
    rw [h2] at h1
    linarith
  have hcb64 : cb < 2 ^ 64 := by linarith
  have hn0 : 0 ≤ ⌊cb⌋ := Int.floor_nonneg.mpr h0
  have hm0 : 0 ≤ ⌊round64 (cb * 1000000)⌋ := Int.floor_nonneg.mpr hY0
  have hnq : (0 : ℚ) ≤ ⌊cb⌋ := by exact_mod_cast hn0
  have hN : (⌊cb⌋ : ℚ) * 1000000 ≤ cb * 1000000 := by
    have := Int.floor_le cb
    linarith
  have hNY : (⌊cb⌋ : ℚ) * 1000000 ≤ round64 (cb * 1000000) := by
    have := round64_mono _ _ (mul_nonneg hnq (by norm_num)) hN
    rwa [hrep] at this
  have hle : ⌊cb⌋ * 1000000 ≤ ⌊round64 (cb * 1000000)⌋ := by
    apply Int.le_floor.mpr
    push_cast
    exact hNY
  have hlt : ⌊round64 (cb * 1000000)⌋ < 2 ^ 64 := by
    have h1 : ((⌊round64 (cb * 1000000)⌋ : ℤ) : ℚ) < ((2 ^ 64 : ℤ) : ℚ) := by
      push_cast
      exact lt_of_le_of_lt (Int.floor_le _) hY64
    exact_mod_cast h1
  have hbuy : buyTokenAmoutInInt arch c bc = ⌊round64 (cb * 1000000)⌋.toNat := by
    simp only [buyTokenAmoutInInt, hcb]
    rw [e1]
    exact F64.toUint64_fin arch _ hY0 hY64
  have hsell : sellTokenAmoutInInt arch { c with coinBought := .fin cb }
      = ⌊cb⌋.toNat * 1000000 := by
    simp only [sellTokenAmoutInInt]
    rw [F64.toUint64_fin arch cb h0 hcb64]
    apply Nat.mod_eq_of_lt
    omega
  have hbounds := floor_toNat_bounds (cb * 1000000) (round64 (cb * 1000000)) hx0 hY0
    (by
      have l := round64_ge_sub _ hx0
      have hd : (0 : ℚ) < (2 : ℚ) ^ (-1022 : ℤ) := zpow_pos (by norm_num) _
      generalize (2 : ℚ) ^ (-1022 : ℤ) = d at *
      linarith)
    (by
      have u := round64_le_add _ hx0
      have hd : (0 : ℚ) < (2 : ℚ) ^ (-1022 : ℤ) := zpow_pos (by norm_num) _
      generalize (2 : ℚ) ^ (-1022 : ℤ) = d at *
      linarith)
  have e6 : (10 : ℚ) ^ 6 = 1000000 := by norm_num
  refine ⟨hbuy, ?_, ?_, hsell, ?_, ?_, ?_, fun _ => rfl⟩
  · rw [hbuy, e6]
    exact hbounds.1
  · rw [hbuy, e6]
    exact hbounds.2
  · rw [hsell]
    exact Dvd.intro_left _ rfl
  · rw [hsell, hbuy]
    omega
  · rw [hsell, hbuy]
    intro heq
    by_contra hfr
    have hf1 : (1 : ℚ) ≤ Int.fract cb * 1000000 := by
      have h1 := not_lt.mp hfr
      rw [e6, div_le_iff₀ (by norm_num)] at h1
      exact h1
    have hx : cb * 1000000 = (⌊cb⌋ : ℚ) * 1000000 + Int.fract cb * 1000000 := by
      rw [← add_mul, Int.floor_add_fract]
    have hstep : ⌊cb⌋ * 1000000 + 1 ≤ ⌊round64 (cb * 1000000)⌋ := by
      by_cases hsmall : cb * 1000000 < 2 ^ 53
      · have hnat : ((⌊cb⌋.toNat * 1000000 + 1 : ℕ) : ℚ) = (⌊cb⌋ : ℚ) * 1000000 + 1 := by
          push_cast
          rw [← Int.cast_natCast, Int.toNat_of_nonneg hn0]
        have h1 : ((⌊cb⌋.toNat * 1000000 + 1 : ℕ) : ℚ) ≤ cb * 1000000 := by
          rw [hnat]
          linarith
        have h2 : ⌊cb⌋.toNat * 1000000 + 1 < 2 ^ 53 := by
          have : ((⌊cb⌋.toNat * 1000000 + 1 : ℕ) : ℚ) < ((2 ^ 53 : ℕ) : ℚ) := by
            push_cast at h1 ⊢
            linarith
          exact_mod_cast this
        have h3 := round64_mono _ _ (Nat.cast_nonneg _) h1
        rw [round64_natCast _ h2, hnat] at h3
        apply Int.le_floor.mpr
        push_cast
        exact h3
      · have hbig : (2 : ℚ) ^ 53 ≤ cb * 1000000 := not_lt.mp hsmall
        obtain ⟨z, hz⟩ := round64_isInt (cb * 1000000) (by linarith)
        have hnorm : (2 : ℚ) ^ (-1022 : ℤ) ≤ cb * 1000000 := by
          have h5 : (2 : ℚ) ^ (-1022 : ℤ) ≤ (2 : ℚ) ^ (0 : ℤ) :=
            zpow_le_zpow_right₀ (by norm_num) (by norm_num)
          have h6 : (2 : ℚ) ^ (0 : ℤ) ≤ cb * 1000000 := by
            rw [zpow_zero]
            linarith
          exact le_trans h5 h6
        have herr := round64_ge_of_normal _ hnorm
        have hne : Int.fract cb ≠ 0 := by
          intro h
          rw [h] at hf1
          norm_num at hf1
        have hfg := fract_gt_of_float cb h0 hfl hne
        rw [div_lt_iff₀ (by norm_num)] at hfg
        have hgt : (⌊cb⌋ : ℚ) * 1000000 < round64 (cb * 1000000) := by
          have e : cb * 1000000 * (1 - 1 / 2 ^ 53)
              = (⌊cb⌋ : ℚ) * 1000000
                + (Int.fract cb * 2 ^ 53 - cb) * (1000000 / 2 ^ 53) := by
            rw [hx]
            have := Int.floor_add_fract cb
            linear_combination (-(1000000 : ℚ) / 2 ^ 53) * this
          rw [e] at herr
          have : 0 < (Int.fract cb * 2 ^ 53 - cb) * (1000000 / 2 ^ 53) :=
            mul_pos (by linarith) (by norm_num)
          linarith
        rw [hz] at hgt ⊢
        rw [Int.floor_intCast]
        have : ((⌊cb⌋ * 1000000 : ℤ) : ℚ) < (z : ℚ) := by
          push_cast
          exact hgt
        have := Int.cast_lt.mp this
        omega
    omega

theorem sell_amount_le_buy_amount_witness :
    sellTokenAmoutInInt saturating
        { { exampleCoin with buyAmount := .fin (3 / 2) } with coinBought := .fin (3 / 2) }
      ≤ buyTokenAmoutInInt saturating { exampleCoin with buyAmount := .fin (3 / 2) }
          ⟨1000000, 1000000000, 0, 0, 0, false⟩ := by
  have w1 : F64.fin (3 / 2) / F64.fin 1 = F64.fin (3 / 2) :=
    F64.div_exact (3 / 2) 1 (3 / 2) 3 (-1) (by norm_num) (by norm_num) (by norm_num) (by norm_num) (by norm_num) (by norm_num)
  have w2 : F64.fin (3 / 2) * F64.fin 1000000 = F64.fin 1500000 :=
    F64.mul_exact (3 / 2) 1000000 1500000 46875 (5) (by norm_num) (by norm_num) (by norm_num) (by norm_num) (by norm_num)
  have hp : solTokenPrice ⟨1000000, 1000000000, 0, 0, 0, false⟩ = .fin 1 :=
    solTokenPrice_unit _ rfl (by decide)
  have hcb : buyTokenAmout { exampleCoin with buyAmount := .fin (3 / 2) }
      ⟨1000000, 1000000000, 0, 0, 0, false⟩ = .fin (3 / 2) := by
    simp only [buyTokenAmout, hp]
    exact w1
  have hr : F64.inUint64 (F64.fin (3 / 2) * F64.fin 1000000) := by
    rw [w2]
    exact ⟨by norm_num, by norm_num⟩
  exact (sell_amount_le_buy_amount saturating { exampleCoin with buyAmount := .fin (3 / 2) }
    ⟨1000000, 1000000000, 0, 0, 0, false⟩ (3 / 2) hcb
    (round64_of_dyadic _ 3 (-1) (by norm_num) (by norm_num) (by norm_num)) (by norm_num) hr
    (trunc_scaled_representable _ (by norm_num) (by norm_num))).2.2.2.2.2.1

/-- C17, the claim refuted on inputs.  The snapshot has price 1, so that `Buy`
records its spend as `coinBought`.  With 576460752305 tokens the product
`576460752305 * 10^6` lies halfway between two `float64` values and is rounded
to the even one: the buy encodes 576460752304999936, and the sell that follows
offers 576460752305000000, which is more, on either platform.  With
`18446744073709 + 3/4` tokens the truncation times `10^6` is below `2^64`, as
the claim requires, but the product the buy converts is not: the amd64
conversion makes the buy encode `2^63`, and the sell offers
18446744073709000000.  And with the `float64` amount
`(2361750978661871 / 2199023255552)`, just below `1074 + 10^-6`, the buy
encodes 1074000001, which is not the truncation 1074000000 of the exact
product. -/
theorem sell_offers_more_than_buy_encoded :
    buyTokenAmout { exampleCoin with buyAmount := .fin 576460752305 }
        ⟨1000000, 1000000000, 0, 0, 0, false⟩ = .fin 576460752305 ∧
    ⌊(576460752305 : ℚ)⌋.toNat * 10 ^ 6 < 2 ^ 64 ∧
    buyTokenAmoutInInt saturating { exampleCoin with buyAmount := .fin 576460752305 }
        ⟨1000000, 1000000000, 0, 0, 0, false⟩ = 576460752304999936 ∧
    buyTokenAmoutInInt amd64 { exampleCoin with buyAmount := .fin 576460752305 }
        ⟨1000000, 1000000000, 0, 0, 0, false⟩ = 576460752304999936 ∧
    sellTokenAmoutInInt saturating
        { exampleCoin with buyAmount := .fin 576460752305, coinBought := .fin 576460752305 }
      = 576460752305000000 ∧
    sellTokenAmoutInInt amd64
        { exampleCoin with buyAmount := .fin 576460752305, coinBought := .fin 576460752305 }
      = 576460752305000000 ∧
    ¬ (sellTokenAmoutInInt saturating
          { exampleCoin with buyAmount := .fin 576460752305, coinBought := .fin 576460752305 }
        ≤ buyTokenAmoutInInt saturating { exampleCoin with buyAmount := .fin 576460752305 }
            ⟨1000000, 1000000000, 0, 0, 0, false⟩) ∧
    buyTokenAmout { exampleCoin with buyAmount := .fin (73786976294839 / 4) }
        ⟨1000000, 1000000000, 0, 0, 0, false⟩ = .fin (73786976294839 / 4) ∧
    ⌊((73786976294839 / 4) : ℚ)⌋.toNat * 10 ^ 6 < 2 ^ 64 ∧
    buyTokenAmoutInInt amd64 { exampleCoin with buyAmount := .fin (73786976294839 / 4) }
        ⟨1000000, 1000000000, 0, 0, 0, false⟩ = 9223372036854775808 ∧
    sellTokenAmoutInInt amd64
        { exampleCoin with buyAmount := .fin (73786976294839 / 4), coinBought := .fin (73786976294839 / 4) }
      = 18446744073709000000 ∧
    round64 (2361750978661871 / 2199023255552) = 2361750978661871 / 2199023255552 ∧
    buyTokenAmout { exampleCoin with buyAmount := .fin (2361750978661871 / 2199023255552) }
        ⟨1000000, 1000000000, 0, 0, 0, false⟩ = .fin (2361750978661871 / 2199023255552) ∧
    ⌊(2361750978661871 / 2199023255552 : ℚ) * 10 ^ 6⌋ = 1074000000 ∧
    buyTokenAmoutInInt saturating { exampleCoin with buyAmount := .fin (2361750978661871 / 2199023255552) }
        ⟨1000000, 1000000000, 0, 0, 0, false⟩ = 1074000001 ∧
    buyTokenAmoutInInt amd64 { exampleCoin with buyAmount := .fin (2361750978661871 / 2199023255552) }
        ⟨1000000, 1000000000, 0, 0, 0, false⟩ = 1074000001 ∧
    sellTokenAmoutInInt saturating
        { exampleCoin with buyAmount := .fin (2361750978661871 / 2199023255552), coinBought := .fin (2361750978661871 / 2199023255552) }
      = 1074000000 := by
  have hp : solTokenPrice ⟨1000000, 1000000000, 0, 0, 0, false⟩ = .fin 1 :=
    solTokenPrice_unit _ rfl (by decide)
  have xd : F64.fin 576460752305 / F64.fin 1 = F64.fin 576460752305 :=
    F64.div_exact 576460752305 1 576460752305 576460752305 (0) (by norm_num) (by norm_num) (by norm_num) (by norm_num) (by norm_num) (by norm_num)
  have xm : F64.fin 576460752305 * F64.fin 1000000 = F64.fin 576460752304999936 :=
    F64.mul_eval 576460752305 1000000 576460752304999936 128 (59) 4503599627382812 (by norm_num) (by norm_num) (by norm_num) (by norm_num)
      (roundHalfEven_tie_even _ 4503599627382812 (by norm_num) (by decide)) (by norm_num) (by norm_num) (by norm_num)
  have yd : F64.fin (73786976294839 / 4) / F64.fin 1 = F64.fin (73786976294839 / 4) :=
    F64.div_exact (73786976294839 / 4) 1 (73786976294839 / 4) 73786976294839 (-2) (by norm_num) (by norm_num) (by norm_num) (by norm_num) (by norm_num) (by norm_num)
  have ym : F64.fin (73786976294839 / 4) * F64.fin 1000000 = F64.fin 18446744073709748224 :=
    F64.mul_eval (73786976294839 / 4) 1000000 18446744073709748224 4096 (64) 4503599627370544 (by norm_num) (by norm_num) (by norm_num) (by norm_num)
      (roundHalfEven_of_lt _ _ (by norm_num) (by norm_num)) (by norm_num) (by norm_num) (by norm_num)
  have zd : F64.fin (2361750978661871 / 2199023255552) / F64.fin 1 = F64.fin (2361750978661871 / 2199023255552) :=
    F64.div_exact (2361750978661871 / 2199023255552) 1 (2361750978661871 / 2199023255552) 2361750978661871 (-41) (by norm_num) (by norm_num) (by norm_num) (by norm_num) (by norm_num) (by norm_num)
  have zm : F64.fin (2361750978661871 / 2199023255552) * F64.fin 1000000 = F64.fin 1074000001 :=
    F64.mul_eval (2361750978661871 / 2199023255552) 1000000 1074000001 (1 / 4194304) (30) 4504682500194304 (by norm_num) (by norm_num) (by norm_num) (by norm_num)
      (roundHalfEven_of_lt _ _ (by norm_num) (by norm_num)) (by norm_num) (by norm_num) (by norm_num)
  have fxs : F64.toUint64 saturating (.fin 576460752304999936) = 576460752304999936 := by
    rw [F64.toUint64_fin _ _ (by norm_num) (by norm_num)]
    have hfl : ⌊(576460752304999936 : ℚ)⌋ = 576460752304999936 := by
      rw [Int.floor_eq_iff]
      constructor <;> norm_num
    rw [hfl]
    rfl
  have fxa : F64.toUint64 amd64 (.fin 576460752304999936) = 576460752304999936 := by
    rw [F64.toUint64_fin _ _ (by norm_num) (by norm_num)]
    have hfl : ⌊(576460752304999936 : ℚ)⌋ = 576460752304999936 := by
      rw [Int.floor_eq_iff]
      constructor <;> norm_num
    rw [hfl]
    rfl
  have fzs : F64.toUint64 saturating (.fin 1074000001) = 1074000001 := by
    rw [F64.toUint64_fin _ _ (by norm_num) (by norm_num)]
    have hfl : ⌊(1074000001 : ℚ)⌋ = 1074000001 := by
      rw [Int.floor_eq_iff]
      constructor <;> norm_num
    rw [hfl]
    rfl
  have fza : F64.toUint64 amd64 (.fin 1074000001) = 1074000001 := by
    rw [F64.toUint64_fin _ _ (by norm_num) (by norm_num)]
    have hfl : ⌊(1074000001 : ℚ)⌋ = 1074000001 := by
      rw [Int.floor_eq_iff]
      constructor <;> norm_num
    rw [hfl]
    rfl
  have gxs : F64.toUint64 saturating (.fin 576460752305) = 576460752305 := by
    rw [F64.toUint64_fin _ _ (by norm_num) (by norm_num)]
    have hfl : ⌊(576460752305 : ℚ)⌋ = 576460752305 := by
      rw [Int.floor_eq_iff]
      constructor <;> norm_num
    rw [hfl]
    rfl
  have gxa : F64.toUint64 amd64 (.fin 576460752305) = 576460752305 := by
    rw [F64.toUint64_fin _ _ (by norm_num) (by norm_num)]
    have hfl : ⌊(576460752305 : ℚ)⌋ = 576460752305 := by
      rw [Int.floor_eq_iff]
      constructor <;> norm_num
    rw [hfl]
    rfl
  have gya : F64.toUint64 amd64 (.fin (73786976294839 / 4)) = 18446744073709 := by
    rw [F64.toUint64_fin _ _ (by norm_num) (by norm_num)]
    have hfl : ⌊(73786976294839 / 4 : ℚ)⌋ = 18446744073709 := by
      rw [Int.floor_eq_iff]
      constructor <;> norm_num
    rw [hfl]
    rfl
  have gzs : F64.toUint64 saturating (.fin (2361750978661871 / 2199023255552)) = 1074 := by
    rw [F64.toUint64_fin _ _ (by norm_num) (by norm_num)]
    have hfl : ⌊(2361750978661871 / 2199023255552 : ℚ)⌋ = 1074 := by
      rw [Int.floor_eq_iff]
      constructor <;> norm_num
    rw [hfl]
    rfl
  have hfl1 : ⌊(576460752305 : ℚ)⌋ = 576460752305 := by
    rw [Int.floor_eq_iff]
    constructor <;> norm_num
  have hfl2 : ⌊(73786976294839 / 4 : ℚ)⌋ = 18446744073709 := by
    rw [Int.floor_eq_iff]
    constructor <;> norm_num
  have b1s : buyTokenAmoutInInt saturating { exampleCoin with buyAmount := .fin 576460752305 }
      ⟨1000000, 1000000000, 0, 0, 0, false⟩ = 576460752304999936 := by
    simp only [buyTokenAmoutInInt, buyTokenAmout, hp]
    rw [xd, xm, fxs]
  have b1a : buyTokenAmoutInInt amd64 { exampleCoin with buyAmount := .fin 576460752305 }
      ⟨1000000, 1000000000, 0, 0, 0, false⟩ = 576460752304999936 := by
    simp only [buyTokenAmoutInInt, buyTokenAmout, hp]
    rw [xd, xm, fxa]
  have s1s : sellTokenAmoutInInt saturating
      { exampleCoin with buyAmount := .fin 576460752305, coinBought := .fin 576460752305 }
      = 576460752305000000 := by
    simp only [sellTokenAmoutInInt]
    rw [gxs]
    decide
  have s1a : sellTokenAmoutInInt amd64
      { exampleCoin with buyAmount := .fin 576460752305, coinBought := .fin 576460752305 }
      = 576460752305000000 := by
    simp only [sellTokenAmoutInInt]
    rw [gxa]
    decide
  have b2a : buyTokenAmoutInInt amd64 { exampleCoin with buyAmount := .fin (73786976294839 / 4) }
      ⟨1000000, 1000000000, 0, 0, 0, false⟩ = 9223372036854775808 := by
    simp only [buyTokenAmoutInInt, buyTokenAmout, hp]
    rw [yd, ym]
    norm_num [F64.toUint64, amd64]
  have s2a : sellTokenAmoutInInt amd64
      { exampleCoin with buyAmount := .fin (73786976294839 / 4), coinBought := .fin (73786976294839 / 4) }
      = 18446744073709000000 := by
    simp only [sellTokenAmoutInInt]
    rw [gya]
    decide
  have b3s : buyTokenAmoutInInt saturating { exampleCoin with buyAmount := .fin (2361750978661871 / 2199023255552) }
      ⟨1000000, 1000000000, 0, 0, 0, false⟩ = 1074000001 := by
    simp only [buyTokenAmoutInInt, buyTokenAmout, hp]
    rw [zd, zm, fzs]
  have b3a : buyTokenAmoutInInt amd64 { exampleCoin with buyAmount := .fin (2361750978661871 / 2199023255552) }
      ⟨1000000, 1000000000, 0, 0, 0, false⟩ = 1074000001 := by
    simp only [buyTokenAmoutInInt, buyTokenAmout, hp]
    rw [zd, zm, fza]
  have s3s : sellTokenAmoutInInt saturating
      { exampleCoin with buyAmount := .fin (2361750978661871 / 2199023255552), coinBought := .fin (2361750978661871 / 2199023255552) }
      = 1074000000 := by
    simp only [sellTokenAmoutInInt]
    rw [gzs]
    decide
  refine ⟨?_, ?_, b1s, b1a, s1s, s1a, ?_, ?_, ?_, b2a, s2a, ?_, ?_, ?_, b3s, b3a, s3s⟩
  · simp only [buyTokenAmout, hp]
    exact xd
  · rw [hfl1]
    decide
  · rw [b1s, s1s]
    decide
  · simp only [buyTokenAmout, hp]
    exact yd
  · rw [hfl2]
    decide
  · exact round64_of_dyadic _ 2361750978661871 (-41) (by norm_num) (by norm_num) (by norm_num)
  · simp only [buyTokenAmout, hp]
    exact zd
  · rw [Int.floor_eq_iff]
    constructor <;> norm_num

/-! ## Setters -/

/-- C18: setter frame.  Each of `SetBuyAmount`, `SetSlippage`, `SetCurveAddress`,
`SetAssociatedCurveAddress` and `SetMintAddress` produces the coin in which
the field it names has the given value and every other field is as before;
`SetTokenAddress k` produces the same coin as `SetMintAddress k`: it
overwrites `mintAddress`, so that `GetTokenMint` returns `k` afterwards, and
leaves `tokenAddress` as it was. -/
theorem setter_frame (c : Coin) (x : F64) (k : PublicKey) :
    c.SetBuyAmount x
      = ⟨x, c.slippage, c.mintAddress, c.bondingCurveAddress, c.associatedBondingCurve,
          c.coinBought, c.tokenAddress⟩ ∧
    c.SetSlippage x
      = ⟨c.buyAmount, x, c.mintAddress, c.bondingCurveAddress, c.associatedBondingCurve,
          c.coinBought, c.tokenAddress⟩ ∧
    c.SetCurveAddress k
      = ⟨c.buyAmount, c.slippage, c.mintAddress, k, c.associatedBondingCurve,
          c.coinBought, c.tokenAddress⟩ ∧
    c.SetAssociatedCurveAddress k
      = ⟨c.buyAmount, c.slippage, c.mintAddress, c.bondingCurveAddress, k,
          c.coinBought, c.tokenAddress⟩ ∧
    c.SetMintAddress k
      = ⟨c.buyAmount, c.slippage, k, c.bondingCurveAddress, c.associatedBondingCurve,
          c.coinBought, c.tokenAddress⟩ ∧
    c.SetTokenAddress k = c.SetMintAddress k ∧
    (c.SetTokenAddress k).GetTokenMint = k ∧
    (c.SetTokenAddress k).tokenAddress = c.tokenAddress :=
  ⟨rfl, rfl, rfl, rfl, rfl, rfl, rfl, rfl⟩

end Pump
